import Mathlib

/-!
# Raft core: client requests, AppendEntries and its results, start-up,
snapshots, the RPC wire encoding, the configuration codec and the ring logger

A shallow embedding of `src/src/recv_append_entries.c`,
`src/src/recv_append_entries_result.c`, `src/src/client.c`, `src/src/start.c`,
`src/src/snapshot.c`, `src/src/uv_encoding.c` and `src/src/logger_ring.c` over
the data model of `src/include/raft.h`.

Conventions of the embedding.

* `raft_term`, `raft_index` and `raft_time` (`unsigned long long`) are natural
  numbers; return codes and the `match` out-parameter (`int`) are integers.
* A client request is passed as its address together with the object stored
  there, and the object as the call leaves it is returned next to the return
  code; the queue of pending requests and `leader_state.change` hold
  addresses. Data pointers (`raft_buffer.base`, `raft_entry.batch`,
  `snapshot.put.data`) are natural numbers, `0` standing for `NULL`.
* A failed `assert` aborts the program: the embedded function returns `none`.
  Assertions that a pointer argument is not `NULL` hold by typing.
* Functions of the repository whose bodies are not part of the sources at hand
  (`log.h`, `configuration.h`, `queue.h`, `membership.h`, `progress.h`,
  `recv.h`, `convert.h`, `replication.h`, `byte.h`) are either modelled from
  the specification, under a doc comment that says so, or taken from a record
  of collaborators (`Deps`, `ResultDeps`, `StartDeps`, `UvEnv`, `CopyEnv`) and
  constrained by explicit
  contracts.
* A buffer that is encoded or decoded is the list of its bytes; an access past
  its end is undefined in C and gives `none`.
* A loop whose number of rounds is not bounded by its text takes a bound on
  the rounds, running out of it giving `none`; the theorems about such a loop
  show that the bound given is enough.
-/

namespace Raft

/-! ## Data model (`src/include/raft.h`) -/

abbrev raft_term := Nat
abbrev raft_index := Nat
abbrev raft_time := Nat

/-! Error codes. -/
def RAFT_NOMEM : Int := 1
def RAFT_BADID : Int := 2
def RAFT_DUPLICATEID : Int := 3
def RAFT_DUPLICATEADDRESS : Int := 4
def RAFT_ALREADYVOTING : Int := 5
def RAFT_MALFORMED : Int := 6
def RAFT_NOTLEADER : Int := 7
def RAFT_LEADERSHIPLOST : Int := 8
def RAFT_SHUTDOWN : Int := 9
def RAFT_CANTBOOTSTRAP : Int := 10
def RAFT_CANTCHANGE : Int := 11
def RAFT_CORRUPT : Int := 12
def RAFT_CANCELED : Int := 13
def RAFT_NAMETOOLONG : Int := 14
def RAFT_TOOBIG : Int := 15
def RAFT_NOCONNECTION : Int := 16
def RAFT_BUSY : Int := 17
def RAFT_IOERR : Int := 18

/-! Log entry types. -/
def RAFT_COMMAND : Nat := 1
def RAFT_BARRIER : Nat := 2
def RAFT_CHANGE : Nat := 3

/-! Type codes for RPC messages. -/
def RAFT_IO_APPEND_ENTRIES : Nat := 1
def RAFT_IO_APPEND_ENTRIES_RESULT : Nat := 2
def RAFT_IO_REQUEST_VOTE : Nat := 3
def RAFT_IO_REQUEST_VOTE_RESULT : Nat := 4
def RAFT_IO_INSTALL_SNAPSHOT : Nat := 5

/-! State codes. -/
def RAFT_UNAVAILABLE : Nat := 0
def RAFT_FOLLOWER : Nat := 1
def RAFT_CANDIDATE : Nat := 2
def RAFT_LEADER : Nat := 3

/-- A data buffer: `base` is the address of the data (`0` for `NULL`). -/
structure raft_buffer where
  base : Nat
  len : Nat
deriving DecidableEq, Repr

/-- One server of the cluster configuration. -/
structure raft_server where
  id : Nat
  address : String
  voting : Bool
deriving DecidableEq, Repr

/-- The servers of the cluster, in array order; the C field `n` is the length
of the array. -/
structure raft_configuration where
  servers : List raft_server
deriving DecidableEq, Repr

/-- Number of servers in the array (`c->n`). -/
def raft_configuration.n (c : raft_configuration) : Nat := c.servers.length

/-- A single entry in the raft log. -/
structure raft_entry where
  term : raft_term
  type : Nat
  buf : raft_buffer
  batch : Nat
deriving DecidableEq, Repr

/-- In-memory cache of the log. The used slots `[front, back)` of the circular
buffer are kept as the list of their entries in index order; the index of the
first entry is `offset + 1`. Reference counts are not represented. -/
structure raft_log where
  entries : List raft_entry
  offset : raft_index
  snapshot_last_index : raft_index
  snapshot_last_term : raft_term
deriving DecidableEq, Repr

/-- Arguments of a RequestVote RPC. -/
structure raft_request_vote where
  term : raft_term
  candidate_id : Nat
  last_log_index : raft_index
  last_log_term : raft_index
deriving DecidableEq, Repr

/-- Result of a RequestVote RPC. -/
structure raft_request_vote_result where
  term : raft_term
  vote_granted : Bool
deriving DecidableEq, Repr

/-- Arguments of an AppendEntries RPC; `n_entries` is the length of `entries`. -/
structure raft_append_entries where
  term : raft_term
  prev_log_index : raft_index
  prev_log_term : raft_term
  leader_commit : raft_index
  entries : List raft_entry
deriving DecidableEq, Repr

/-- Size of the log entries array (`args->n_entries`). -/
def raft_append_entries.n_entries (a : raft_append_entries) : Nat := a.entries.length

/-- Result of an AppendEntries RPC. -/
structure raft_append_entries_result where
  term : raft_term
  rejected : raft_index
  last_log_index : raft_index
deriving DecidableEq, Repr

/-- Arguments of an InstallSnapshot RPC. -/
structure raft_install_snapshot where
  term : raft_term
  last_index : raft_index
  last_term : raft_term
  conf : raft_configuration
  conf_index : raft_index
  data : raft_buffer
deriving DecidableEq, Repr

/-- The anonymous union of `struct raft_message`, one constructor per member. -/
inductive raft_message_body where
  | request_vote (b : raft_request_vote)
  | request_vote_result (b : raft_request_vote_result)
  | append_entries (b : raft_append_entries)
  | append_entries_result (b : raft_append_entries_result)
  | install_snapshot (b : raft_install_snapshot)
deriving DecidableEq, Repr

/-- A single RPC message. -/
structure raft_message where
  type : Nat
  server_id : Nat
  server_address : String
  body : raft_message_body
deriving DecidableEq, Repr

/-- Per-server replication state kept by a leader. -/
structure raft_progress where
  state : Nat
  next_index : raft_index
  match_index : raft_index
  snapshot_index : raft_index
  last_send : raft_time
  recent_recv : Bool
deriving DecidableEq, Repr

/-- The fields shared by `struct raft_apply`, `struct raft_barrier` and
`struct raft_change` (the `RAFT__REQUEST` block followed by the callback). The
callback is a function pointer, kept as a number. -/
structure raft_request where
  data : Nat
  type : Nat
  index : raft_index
  cb : Nat
deriving DecidableEq, Repr

/-- Follower member of the state union. -/
structure follower_state where
  randomized_election_timeout : Nat
  current_leader_id : Nat
  current_leader_address : Option String
deriving DecidableEq, Repr

/-- Candidate member of the state union. -/
structure candidate_state where
  randomized_election_timeout : Nat
  votes : List Bool
deriving DecidableEq, Repr

/-- Leader member of the state union. Request objects belong to the caller and
are linked by address: `change` is the address of the pending membership
change (`none` for `NULL`) and `requests` lists the addresses of the queued
requests, head first. -/
structure leader_state where
  progress : List raft_progress
  change : Option Nat
  promotee_id : Nat
  round_number : Nat
  round_index : raft_index
  round_start : raft_time
  requests : List Nat
deriving DecidableEq, Repr

/-- State of a single raft server (`struct raft`). The three members of the
state union are separate fields. `snapshot_put_data` is `r->snapshot.put.data`
(`0` for `NULL`). -/
structure raft where
  id : Nat
  address : String
  current_term : raft_term
  voted_for : Nat
  log : raft_log
  configuration : raft_configuration
  configuration_index : raft_index
  configuration_uncommitted_index : raft_index
  election_timeout : Nat
  heartbeat_timeout : Nat
  commit_index : raft_index
  last_applied : raft_index
  last_stored : raft_index
  state : Nat
  follower_state : follower_state
  candidate_state : candidate_state
  leader_state : leader_state
  election_timer_start : raft_time
  snapshot_threshold : Nat
  snapshot_trailing : Nat
  snapshot_put_data : Nat
deriving DecidableEq, Repr

/-! ## Collaborators

Results of functions that return a code and update the server in place. -/

/-- Outcome of `recvEnsureMatchingTerms`: return code, the `match`
out-parameter and the server afterwards. -/
structure EnsureOut where
  rv : Int
  mtch : Int
  r : raft

/-- Outcome of a collaborator that returns a code and may update the server. -/
structure StepOut where
  rv : Int
  r : raft

/-- Outcome of `replicationAppend`: return code, the `rejected` and `async`
out-parameters and the server afterwards. -/
structure AppendOut where
  rv : Int
  rejected : raft_index
  async : Bool
  r : raft

/-- Allocation sites inside the log and configuration helpers. -/
inductive AllocSite where
  | logAppend
  | logAppendCommands
  | logAppendConfiguration
  | configurationCopy
  | configurationAdd
  | configurationRemove
deriving DecidableEq, Repr

/-- The environment of one call: the allocator, the I/O backend methods used
by the embedded functions, and the functions of `recv.h`, `convert.h`,
`replication.h` and `progress.h`, whose bodies are not among the sources.

* `alloc_fails s` tells whether the allocation made at site `s` fails;
* `raft_malloc size` is the address returned by `raft_malloc` (`0` for `NULL`);
* `io_time` is the value returned by `r->io->time`;
* `io_send m` is the code returned by `r->io->send` for message `m`;
* `configurationEncode c` is the buffer that receives the encoding of `c`;
* `commands_kept` is the number of entries that `logAppendCommands` has
  appended when it runs out of memory. -/
structure Deps where
  alloc_fails : AllocSite → Bool
  commands_kept : Nat
  raft_malloc : Nat → Nat
  io_time : raft_time
  io_send : raft_message → Int
  configurationEncode : raft_configuration → raft_buffer
  recvEnsureMatchingTerms : raft → raft_term → EnsureOut
  recvUpdateLeader : raft → Nat → String → StepOut
  convertToFollower : raft → raft
  replicationAppend : raft → raft_append_entries → raft_index → AppendOut
  replicationTrigger : raft → raft_index → StepOut
  replicationProgress : raft → Nat → StepOut
  progressRebuildArray : raft → raft_configuration → StepOut

/-! ## Log, queue and configuration helpers -/

/-- Modelled from the spec: `logNumEntries` of `log.h`, the number of entries
held in memory. -/
def logNumEntries (l : raft_log) : Nat := l.entries.length

/-- Modelled from the spec: `logLastIndex` of `log.h`. Indices in the log are
strictly monotonic starting at `offset + 1`, so the last index is the offset
plus the number of entries. -/
def logLastIndex (l : raft_log) : raft_index := l.offset + logNumEntries l

/-- Modelled from the spec: `logAppend` of `log.h`, `append(term, type,
payload, batch?)`. The only failure mode is out-of-memory, which leaves the
log as it was. -/
def logAppend (nomem : Bool) (l : raft_log) (term : raft_term) (type : Nat)
    (buf : raft_buffer) (batch : Nat) : Int × raft_log :=
  if nomem then (RAFT_NOMEM, l)
  else (0, { l with entries := l.entries ++ [⟨term, type, buf, batch⟩] })

/-- Modelled from the spec: `logAppendCommands` of `log.h`,
`append_commands(term, payloads[])`: one `RAFT_COMMAND` entry per buffer, in
order, each owning its payload directly (no batch). The only failure mode is
out-of-memory. The spec does not say whether the entries appended before the
allocation that fails are removed again, so their number is the parameter
`kept`: a failing call leaves the entries of the first `kept` buffers, fewer
than all of them, and `kept = 0` is the call that leaves the log as it was. -/
def logAppendCommands (nomem : Bool) (kept : Nat) (l : raft_log) (term : raft_term)
    (bufs : List raft_buffer) : Int × raft_log :=
  if nomem then
    (RAFT_NOMEM,
      { l with entries := l.entries ++
          (bufs.take (min kept (bufs.length - 1))).map fun b => ⟨term, RAFT_COMMAND, b, 0⟩ })
  else (0, { l with entries := l.entries ++ bufs.map fun b => ⟨term, RAFT_COMMAND, b, 0⟩ })

/-- Modelled from the spec: `logAppendConfiguration` of `log.h`,
`append_configuration(term, conf)`: one `RAFT_CHANGE` entry whose payload is
the buffer holding the encoded configuration. The only failure mode is
out-of-memory, which leaves the log as it was. -/
def logAppendConfiguration (d : Deps) (l : raft_log) (term : raft_term)
    (c : raft_configuration) : Int × raft_log :=
  logAppend (d.alloc_fails .logAppendConfiguration) l term RAFT_CHANGE (d.configurationEncode c) 0

/-- Modelled from the spec: `logTruncate` of `log.h`, `truncate(from_index)`:
removes the suffix starting at `index`, leaving `last_index = index - 1`. -/
def logTruncate (l : raft_log) (index : raft_index) : raft_log :=
  { l with entries := l.entries.take (index - 1 - l.offset) }

/-- Modelled from the spec: `logDiscard` of `log.h`, `discard(from_index)`:
removes the suffix starting at `index` without releasing the payloads. -/
def logDiscard (l : raft_log) (index : raft_index) : raft_log :=
  { l with entries := l.entries.take (index - 1 - l.offset) }

/-- Modelled from the spec: `QUEUE_PUSH` of `queue.h` links the element at the
tail of the queue. -/
def QUEUE_PUSH (q : List Nat) (e : Nat) : List Nat := q ++ [e]

/-- Modelled from the spec: `QUEUE_REMOVE` of `queue.h` unlinks the element
from the queue it is on. -/
def QUEUE_REMOVE (q : List Nat) (e : Nat) : List Nat := q.erase e

/-- Modelled from the spec: `configurationGet` of `configuration.h`, the first
server with the given id, if any (`test_configuration.c`, suite `get`). -/
def configurationGet (c : raft_configuration) (id : Nat) : Option raft_server :=
  c.servers.find? fun s => s.id = id

/-- Modelled from the spec: `configurationIndexOf` of `configuration.h`, the
position of the server with the given id, or `n` when there is none
(`test_configuration.c`, suite `index_of`). -/
def configurationIndexOf (c : raft_configuration) (id : Nat) : Nat :=
  c.servers.findIdx fun s => s.id = id

/-- Modelled from the spec: `configurationCopy` of `configuration.h`, a copy
with the same servers in the same order, or `RAFT_NOMEM`
(`test_configuration.c`, suite `copy`). -/
def configurationCopy (nomem : Bool) (src : raft_configuration) : Int × raft_configuration :=
  if nomem then (RAFT_NOMEM, ⟨[]⟩) else (0, ⟨src.servers⟩)

/-- Modelled from the spec: `raft_configuration_add`, declared in `raft.h`. If
the id or the address is already in use an error is returned; otherwise the
server is appended at the end (`test_configuration.c`, suite `add`). The array
is scanned once, the id of each server being compared before its address. -/
def raft_configuration_add (nomem : Bool) (c : raft_configuration) (id : Nat)
    (address : String) (voting : Bool) : Int × raft_configuration :=
  match c.servers.find? fun s => s.id = id ∨ s.address = address with
  | some s => if s.id = id then (RAFT_DUPLICATEID, c) else (RAFT_DUPLICATEADDRESS, c)
  | none =>
    if nomem then (RAFT_NOMEM, c)
    else (0, ⟨c.servers ++ [⟨id, address, voting⟩]⟩)

/-- Modelled from the spec: `configurationRemove` of `configuration.h`: the
server with the given id is taken out and the others keep their order;
`RAFT_BADID` when there is no such server (`test_configuration.c`, suite
`remove`). -/
def configurationRemove (nomem : Bool) (c : raft_configuration) (id : Nat) :
    Int × raft_configuration :=
  let i := configurationIndexOf c id
  if i = c.n then (RAFT_BADID, c)
  else if nomem then (RAFT_NOMEM, c)
  else (0, ⟨c.servers.eraseIdx i⟩)

/-- Modelled from the spec: `progressMatchIndex` of `progress.h`, the
`match_index` of the `i`-th entry of the leader's progress array. -/
def progressMatchIndex (r : raft) (i : Nat) : raft_index :=
  match r.leader_state.progress.get? i with
  | some p => p.match_index
  | none => 0

/-- Modelled from the spec: `membershipCanChangeConfiguration` of
`membership.h`. Preconditions shared by add, promote and remove: the role is
leader; there is no uncommitted configuration entry; there is no outstanding
membership request; the last configuration has been applied
(`last_applied ≥ configuration_index`). -/
def membershipCanChangeConfiguration (r : raft) : Int :=
  if r.state ≠ RAFT_LEADER then RAFT_NOTLEADER
  else if r.configuration_uncommitted_index ≠ 0 then RAFT_CANTCHANGE
  else if r.leader_state.change ≠ none then RAFT_CANTCHANGE
  else if r.last_applied < r.configuration_index then RAFT_CANTCHANGE
  else 0

/-! ## `src/src/recv_append_entries.c` -/

/-- Outcome of `recvAppendEntries`: return code, the server afterwards and the
messages handed to `r->io->send` during the call, in order. -/
structure RecvOut where
  rv : Int
  r : raft
  sends : List raft_message

/-- Size of `struct raft_io_send` (two pointers). -/
def sizeof_raft_io_send : Nat := 16

/-- The code after the `reply:` label of `recvAppendEntries`: fill in the term,
build the message, allocate the send request and submit it. Releasing the
entries of the request has no effect on the server. -/
def recvAppendEntries_reply (d : Deps) (r : raft) (id : Nat) (address : String)
    (rejected last_log_index : raft_index) : RecvOut :=
  let result : raft_append_entries_result :=
    { term := r.current_term, rejected := rejected, last_log_index := last_log_index }
  let message : raft_message :=
    { type := RAFT_IO_APPEND_ENTRIES_RESULT, server_id := id, server_address := address,
      body := .append_entries_result result }
  if d.raft_malloc sizeof_raft_io_send = 0 then
    ⟨RAFT_NOMEM, r, []⟩
  else
    let rv := d.io_send message
    if rv ≠ 0 then ⟨rv, r, [message]⟩ else ⟨0, r, [message]⟩

/-- The part of `recvAppendEntries` from the call of `replicationAppend` to the
reply; `r` is the server at that point. The `rejected` field of the result
still holds `args->prev_log_index` when it is passed to `replicationAppend`. -/
def recvAppendEntries_append (d : Deps) (r : raft) (id : Nat) (address : String)
    (args : raft_append_entries) : RecvOut :=
  let a := d.replicationAppend r args args.prev_log_index
  if a.rv ≠ 0 then ⟨a.rv, a.r, []⟩ else
  if a.async then ⟨0, a.r, []⟩ else
  recvAppendEntries_reply d a.r id address a.rejected a.r.last_stored

/-- The server once `recvAppendEntries` has updated the current leader and
reset the election timer; `r` is the server after term reconciliation and the
step down of a candidate. -/
def recvAppendEntries_accepted (d : Deps) (r : raft) (id : Nat) (address : String) : raft :=
  { (d.recvUpdateLeader r id address).r with election_timer_start := d.io_time }

/-- The part of `recvAppendEntries` from `assert(r->state == RAFT_FOLLOWER)`
on; `r` is the server after term reconciliation and the step down of a
candidate. -/
def recvAppendEntries_follow (d : Deps) (r : raft) (id : Nat) (address : String)
    (args : raft_append_entries) : Option RecvOut :=
  if ¬ (r.state = RAFT_FOLLOWER) then none else
  let u := d.recvUpdateLeader r id address
  if u.rv ≠ 0 then some ⟨u.rv, u.r, []⟩ else
  let r2 : raft := recvAppendEntries_accepted d r id address
  if r2.snapshot_put_data ≠ 0 ∧ args.n_entries > 0 then some ⟨0, r2, []⟩ else
  some (recvAppendEntries_append d r2 id address args)

/-- The server after term reconciliation and, for a candidate, the step down
to follower. -/
def recvAppendEntries_reconciled (d : Deps) (r : raft) (args : raft_append_entries) : raft :=
  let e := d.recvEnsureMatchingTerms r args.term
  if e.r.state = RAFT_CANDIDATE then d.convertToFollower e.r else e.r

/-- Embedding of `recvAppendEntries`. -/
def recvAppendEntries (d : Deps) (r : raft) (id : Nat) (address : String)
    (args : raft_append_entries) : Option RecvOut :=
  if ¬ (id > 0) then none else
  let e := d.recvEnsureMatchingTerms r args.term
  if e.rv ≠ 0 then some ⟨e.rv, e.r, []⟩ else
  if e.mtch < 0 then
    some (recvAppendEntries_reply d e.r id address args.prev_log_index (logLastIndex r.log))
  else
  if ¬ (e.r.state = RAFT_FOLLOWER ∨ e.r.state = RAFT_CANDIDATE) then none else
  if ¬ (e.r.current_term = args.term) then none else
  if e.r.state = RAFT_CANDIDATE ∧ ¬ (e.mtch = 0) then none else
  recvAppendEntries_follow d (recvAppendEntries_reconciled d r args) id address args

/-! ## `src/src/client.c` -/

/-- Outcome of a client request: return code, the server afterwards and the
request object as the call leaves it. -/
structure ClientOut where
  rv : Int
  r : raft
  req : raft_request

/-- The `err:` label of `raft_apply`, `changeConfiguration`, `raft_add`,
`raft_promote` and `raft_remove`: `assert(rv != 0); return rv;`. -/
def errExit (rv : Int) (r : raft) (req : raft_request) : Option ClientOut :=
  if rv ≠ 0 then some ⟨rv, r, req⟩ else none

/-- Embedding of `raft_apply`; `n` is the length of `bufs`, `req` the address
of the request and `obj` the object stored there. -/
def raft_apply (d : Deps) (r : raft) (req : Nat) (obj : raft_request)
    (bufs : List raft_buffer) (cb : Nat) : Option ClientOut :=
  if ¬ (bufs.length > 0) then none else
  if r.state ≠ RAFT_LEADER then errExit RAFT_NOTLEADER r obj else
  let index := logLastIndex r.log + 1
  let obj1 : raft_request := { obj with type := RAFT_COMMAND, index := index, cb := cb }
  let a := logAppendCommands (d.alloc_fails .logAppendCommands) d.commands_kept r.log
    r.current_term bufs
  if a.1 ≠ 0 then errExit a.1 { r with log := a.2 } obj1 else
  let r1 : raft := { r with
    log := a.2,
    leader_state := { r.leader_state with requests := QUEUE_PUSH r.leader_state.requests req } }
  let t := d.replicationTrigger r1 index
  if t.rv ≠ 0 then
    let r2 : raft := { t.r with
      log := logDiscard t.r.log index,
      leader_state := { t.r.leader_state with
        requests := QUEUE_REMOVE t.r.leader_state.requests req } }
    errExit t.rv r2 obj1
  else some ⟨0, t.r, obj1⟩

/-- Embedding of `raft_barrier`. -/
def raft_barrier (d : Deps) (r : raft) (req : Nat) (obj : raft_request) (cb : Nat) :
    ClientOut :=
  if r.state ≠ RAFT_LEADER then ⟨RAFT_NOTLEADER, r, obj⟩ else
  let buf : raft_buffer := { base := d.raft_malloc 8, len := 8 }
  if buf.base = 0 then ⟨RAFT_NOMEM, r, obj⟩ else
  let index := logLastIndex r.log + 1
  let obj1 : raft_request := { obj with type := RAFT_BARRIER, index := index, cb := cb }
  let a := logAppend (d.alloc_fails .logAppend) r.log r.current_term RAFT_BARRIER buf 0
  if a.1 ≠ 0 then ⟨a.1, { r with log := a.2 }, obj1⟩ else
  let r1 : raft := { r with
    log := a.2,
    leader_state := { r.leader_state with requests := QUEUE_PUSH r.leader_state.requests req } }
  let t := d.replicationTrigger r1 index
  if t.rv ≠ 0 then
    ⟨t.rv,
     { t.r with
        log := logDiscard t.r.log index,
        leader_state := { t.r.leader_state with
          requests := QUEUE_REMOVE t.r.leader_state.requests req } },
     obj1⟩
  else ⟨0, t.r, obj1⟩

/-- The conditional call of `progressRebuildArray` in `changeConfiguration`;
`r` is the server after the log append. -/
def changeConfiguration_rebuild (d : Deps) (r : raft) (configuration : raft_configuration) :
    StepOut :=
  if configuration.n ≠ r.configuration.n then d.progressRebuildArray r configuration
  else ⟨0, r⟩

/-- The part of `changeConfiguration` from `req->type = RAFT_CHANGE` on,
including the label `err_after_log_append`; `r` is the server with the new
configuration in place and `index` the index of the appended entry. -/
def changeConfiguration_replicate (d : Deps) (r : raft) (req : Nat) (obj : raft_request)
    (index : raft_index) : Option ClientOut :=
  let obj1 : raft_request := { obj with type := RAFT_CHANGE, index := index }
  let r3 : raft := { r with
    leader_state := { r.leader_state with requests := QUEUE_PUSH r.leader_state.requests req } }
  let t := d.replicationTrigger r3 index
  if t.rv ≠ 0 then errExit t.rv { t.r with log := logTruncate t.r.log index } obj1
  else some ⟨0, { t.r with configuration_uncommitted_index := index }, obj1⟩

/-- Embedding of `changeConfiguration`. `aliased` tells whether the
`configuration` argument is `&r->configuration` itself, in which case
`configuration` is the current content of `r->configuration`. -/
def changeConfiguration (d : Deps) (r : raft) (req : Nat) (obj : raft_request)
    (configuration : raft_configuration) (aliased : Bool) : Option ClientOut :=
  let term := r.current_term
  let index := logLastIndex r.log + 1
  let a := logAppendConfiguration d r.log term configuration
  if a.1 ≠ 0 then errExit a.1 { r with log := a.2 } obj else
  let p := changeConfiguration_rebuild d { r with log := a.2 } configuration
  if p.rv ≠ 0 then errExit p.rv p.r obj else
  changeConfiguration_replicate d
    (if aliased = false then { p.r with configuration := configuration } else p.r)
    req obj index

/-- Embedding of `raft_add`. Closing the local copy of the configuration on
the error paths has no effect on the fields of the server. -/
def raft_add (d : Deps) (r : raft) (req : Nat) (obj : raft_request) (id : Nat)
    (address : String) (cb : Nat) : Option ClientOut :=
  let rv := membershipCanChangeConfiguration r
  if rv ≠ 0 then some ⟨rv, r, obj⟩ else
  let c := configurationCopy (d.alloc_fails .configurationCopy) r.configuration
  if c.1 ≠ 0 then errExit c.1 r obj else
  let c1 := raft_configuration_add (d.alloc_fails .configurationAdd) c.2 id address false
  if c1.1 ≠ 0 then errExit c1.1 r obj else
  let obj1 : raft_request := { obj with cb := cb }
  match changeConfiguration d r req obj1 c1.2 false with
  | none => none
  | some o =>
    if o.rv ≠ 0 then errExit o.rv o.r o.req else
    if ¬ (o.r.leader_state.change = none) then none else
    some ⟨0, { o.r with leader_state := { o.r.leader_state with change := some req } }, o.req⟩

/-- The assignment `r->configuration.servers[i].voting = v`. -/
def setVoting (c : raft_configuration) (i : Nat) (v : Bool) : raft_configuration :=
  ⟨c.servers.modify (fun s => { s with voting := v }) i⟩

/-- Embedding of `raft_promote`. -/
def raft_promote (d : Deps) (r : raft) (req : Nat) (obj : raft_request) (id : Nat)
    (cb : Nat) : Option ClientOut :=
  let rv := membershipCanChangeConfiguration r
  if rv ≠ 0 then some ⟨rv, r, obj⟩ else
  match configurationGet r.configuration id with
  | none => errExit RAFT_BADID r obj
  | some server =>
    if server.voting then errExit RAFT_ALREADYVOTING r obj else
    let server_index := configurationIndexOf r.configuration id
    if ¬ (server_index < r.configuration.n) then none else
    let last_index := logLastIndex r.log
    let obj1 : raft_request := { obj with cb := cb }
    if ¬ (r.leader_state.change = none) then none else
    let r1 : raft := { r with leader_state := { r.leader_state with change := some req } }
    if progressMatchIndex r1 server_index = last_index then
      let r2 : raft := { r1 with configuration := setVoting r1.configuration server_index true }
      match changeConfiguration d r2 req obj1 r2.configuration true with
      | none => none
      | some o =>
        if o.rv ≠ 0 then
          some ⟨o.rv,
            { o.r with configuration := setVoting o.r.configuration server_index false },
            o.req⟩
        else some ⟨0, o.r, o.req⟩
    else
      let r2 : raft := { r1 with
        leader_state := { r1.leader_state with
          promotee_id := server.id,
          round_number := 1,
          round_index := last_index,
          round_start := d.io_time } }
      let p := d.replicationProgress r2 server_index
      some ⟨0, p.r, obj1⟩

/-- Embedding of `raft_remove`. -/
def raft_remove (d : Deps) (r : raft) (req : Nat) (obj : raft_request) (id : Nat)
    (cb : Nat) : Option ClientOut :=
  let rv := membershipCanChangeConfiguration r
  if rv ≠ 0 then some ⟨rv, r, obj⟩ else
  match configurationGet r.configuration id with
  | none => errExit RAFT_BADID r obj
  | some _ =>
    let c := configurationCopy (d.alloc_fails .configurationCopy) r.configuration
    if c.1 ≠ 0 then errExit c.1 r obj else
    let c1 := configurationRemove (d.alloc_fails .configurationRemove) c.2 id
    if c1.1 ≠ 0 then errExit c1.1 r obj else
    let obj1 : raft_request := { obj with cb := cb }
    match changeConfiguration d r req obj1 c1.2 false with
    | none => none
    | some o =>
      if o.rv ≠ 0 then errExit o.rv o.r o.req else
      if ¬ (o.r.leader_state.change = none) then none else
      some ⟨0, { o.r with leader_state := { o.r.leader_state with change := some req } }, o.req⟩

/-! ## Contracts of the collaborators -/

/-- Modelled from the spec: contract of `recvEnsureMatchingTerms` (`recv.h`).
A term lower than the local one is reported with a negative `match` without
touching the server; a term at least as high as the local one is never
reported as lower. -/
structure EnsureMatchingTermsSpec (d : Deps) : Prop where
  stale : ∀ r t, t < r.current_term →
    (d.recvEnsureMatchingTerms r t).rv = 0 ∧
    (d.recvEnsureMatchingTerms r t).mtch < 0 ∧
    (d.recvEnsureMatchingTerms r t).r = r
  fresh : ∀ r t, r.current_term ≤ t → 0 ≤ (d.recvEnsureMatchingTerms r t).mtch

/-- Modelled from the spec: term reconciliation, the step down of a candidate
and the leader update (`recv.h`, `convert.h`) do not edit the log. -/
structure RecvPreambleKeepsLog (d : Deps) : Prop where
  ensure : ∀ r t, (d.recvEnsureMatchingTerms r t).r.log = r.log
  convert : ∀ r, (d.convertToFollower r).log = r.log
  update : ∀ r id address, (d.recvUpdateLeader r id address).r.log = r.log

/-- Modelled from the spec: `recvUpdateLeader` (`recv.h`) records the sender as
current leader and leaves the role alone. -/
def UpdateLeaderKeepsRole (d : Deps) : Prop :=
  ∀ r id address, (d.recvUpdateLeader r id address).r.state = r.state

/-- Modelled from the spec: `replicationAppend` (`replication.h`) works on the
log, the stored and commit indexes and the I/O backend; it changes neither the
role nor the election timer. -/
structure ReplicationAppendFrame (d : Deps) : Prop where
  state : ∀ r args rejected, (d.replicationAppend r args rejected).r.state = r.state
  timer : ∀ r args rejected,
    (d.replicationAppend r args rejected).r.election_timer_start = r.election_timer_start

/-- Modelled from the spec: `replicationTrigger` (`replication.h`) hands the
entries from the given index on to the I/O backend and to the peers. It
neither adds nor removes log entries and does not touch the request queue,
the configuration or the pending membership change. -/
structure ReplicationTriggerFrame (d : Deps) : Prop where
  log : ∀ r i, (d.replicationTrigger r i).r.log = r.log
  requests : ∀ r i,
    (d.replicationTrigger r i).r.leader_state.requests = r.leader_state.requests
  configuration : ∀ r i, (d.replicationTrigger r i).r.configuration = r.configuration
  change : ∀ r i, (d.replicationTrigger r i).r.leader_state.change = r.leader_state.change

/-- Modelled from the spec: `progressRebuildArray` (`progress.h`) replaces the
leader's progress array. It does not touch the log, the request queue or the
pending membership change. -/
structure ProgressRebuildFrame (d : Deps) : Prop where
  log : ∀ r c, (d.progressRebuildArray r c).r.log = r.log
  requests : ∀ r c,
    (d.progressRebuildArray r c).r.leader_state.requests = r.leader_state.requests
  change : ∀ r c, (d.progressRebuildArray r c).r.leader_state.change = r.leader_state.change

/-! ## Sample environment and servers

Concrete collaborators and servers at which the theorems are instantiated. -/

/-- Term of the entry at the given index, `0` when the log does not hold it. -/
def sampleTermOf (l : raft_log) (i : raft_index) : raft_term :=
  if i = 0 then 0
  else if i = l.snapshot_last_index then l.snapshot_last_term
  else if i ≤ l.offset then 0
  else match l.entries.get? (i - l.offset - 1) with
    | some e => e.term
    | none => 0

/-- Sample term reconciliation: a lower term is reported with `-1`, a higher
one is adopted (vote cleared, role follower) and reported with `1`. -/
def sampleEnsure (r : raft) (t : raft_term) : EnsureOut :=
  if t < r.current_term then ⟨0, -1, r⟩
  else if r.current_term < t then
    ⟨0, 1, { r with current_term := t, voted_for := 0, state := RAFT_FOLLOWER }⟩
  else ⟨0, 0, r⟩

/-- Sample follower-side append: reject when the previous entry is missing or
has another term; accept a heartbeat on the spot; append new entries to the
log and complete asynchronously. -/
def sampleAppend (r : raft) (args : raft_append_entries) (_rejected : raft_index) :
    AppendOut :=
  if args.prev_log_index > r.log.snapshot_last_index ∧
      sampleTermOf r.log args.prev_log_index ≠ args.prev_log_term then
    ⟨0, args.prev_log_index, false, r⟩
  else if args.entries = [] then ⟨0, 0, false, r⟩
  else
    ⟨0, 0, true,
      { r with log := { r.log with
          entries := r.log.entries.take (args.prev_log_index - r.log.offset) ++ args.entries } }⟩

/-- Sample collaborators: no allocation fails, the clock reads 1000, every
send succeeds. -/
def sampleDeps : Deps where
  alloc_fails := fun _ => false
  commands_kept := 0
  raft_malloc := fun _ => 4096
  io_time := 1000
  io_send := fun _ => 0
  configurationEncode := fun c => ⟨8192, 16 + 32 * c.n⟩
  recvEnsureMatchingTerms := sampleEnsure
  recvUpdateLeader := fun r id address =>
    ⟨0, { r with follower_state := { r.follower_state with
      current_leader_id := id, current_leader_address := some address } }⟩
  convertToFollower := fun r => { r with state := RAFT_FOLLOWER }
  replicationAppend := sampleAppend
  replicationTrigger := fun r _ => ⟨0, r⟩
  replicationProgress := fun r _ => ⟨0, r⟩
  progressRebuildArray := fun r c =>
    ⟨0, { r with leader_state := { r.leader_state with
      progress := List.replicate c.n ⟨0, logLastIndex r.log + 1, 0, 0, 0, false⟩ } }⟩

/-- Sample log: five entries of terms 1, 1, 2, 3, 3, no snapshot. -/
def sampleLog : raft_log where
  entries := [⟨1, RAFT_CHANGE, ⟨64, 8⟩, 0⟩, ⟨1, RAFT_COMMAND, ⟨72, 8⟩, 0⟩,
    ⟨2, RAFT_COMMAND, ⟨80, 8⟩, 0⟩, ⟨3, RAFT_COMMAND, ⟨88, 8⟩, 0⟩, ⟨3, RAFT_COMMAND, ⟨96, 8⟩, 0⟩]
  offset := 0
  snapshot_last_index := 0
  snapshot_last_term := 0

/-- Sample configuration: servers 1 and 2 voting, server 3 not voting. -/
def sampleConfiguration : raft_configuration :=
  ⟨[⟨1, "1", true⟩, ⟨2, "2", true⟩, ⟨3, "3", false⟩]⟩

/-- Sample follower: server 2 in term 3, five entries in the log of which the
first three are stored, following server 1. -/
def sampleFollower : raft where
  id := 2
  address := "2"
  current_term := 3
  voted_for := 1
  log := sampleLog
  configuration := sampleConfiguration
  configuration_index := 1
  configuration_uncommitted_index := 0
  election_timeout := 1000
  heartbeat_timeout := 100
  commit_index := 2
  last_applied := 2
  last_stored := 3
  state := RAFT_FOLLOWER
  follower_state := ⟨1500, 1, some "1"⟩
  candidate_state := ⟨0, []⟩
  leader_state := ⟨[], none, 0, 0, 0, 0, []⟩
  election_timer_start := 400
  snapshot_threshold := 1024
  snapshot_trailing := 128
  snapshot_put_data := 0

/-- Sample leader: server 1 in term 3, the whole log stored and applied, one
request pending at address 500. -/
def sampleLeader : raft where
  id := 1
  address := "1"
  current_term := 3
  voted_for := 1
  log := sampleLog
  configuration := sampleConfiguration
  configuration_index := 1
  configuration_uncommitted_index := 0
  election_timeout := 1000
  heartbeat_timeout := 100
  commit_index := 4
  last_applied := 4
  last_stored := 5
  state := RAFT_LEADER
  follower_state := ⟨0, 0, none⟩
  candidate_state := ⟨0, []⟩
  leader_state :=
    ⟨[⟨1, 6, 5, 0, 0, true⟩, ⟨1, 6, 5, 0, 900, true⟩, ⟨0, 4, 3, 0, 900, true⟩],
      none, 0, 0, 0, 0, [500]⟩
  election_timer_start := 400
  snapshot_threshold := 1024
  snapshot_trailing := 128
  snapshot_put_data := 0

/-- The AppendEntriesResult message for server `id` at `address`. -/
def resultMessage (id : Nat) (address : String) (term : raft_term)
    (rejected last_log_index : raft_index) : raft_message :=
  { type := RAFT_IO_APPEND_ENTRIES_RESULT, server_id := id, server_address := address,
    body := .append_entries_result ⟨term, rejected, last_log_index⟩ }

/-- Outcome of the sample follower rejecting a request whose previous entry it
does not hold: one rejection is sent and the sender is recorded as leader. -/
def sampleRejection : RecvOut where
  rv := 0
  r := { sampleFollower with election_timer_start := 1000 }
  sends := [resultMessage 1 "1" 3 7 3]

/-- Sample follower with a snapshot install in flight. -/
def sampleInstalling : raft := { sampleFollower with snapshot_put_data := 4242 }

/-- Sample request of term 3 carrying one entry after index 5. -/
def sampleEntries : raft_append_entries := ⟨3, 5, 3, 2, [⟨3, RAFT_COMMAND, ⟨104, 8⟩, 0⟩]⟩

/-- Sample candidate: the sample follower after it started an election in
term 3. -/
def sampleCandidate : raft := { sampleFollower with state := RAFT_CANDIDATE, voted_for := 2 }

/-- Outcome of the sample candidate receiving a heartbeat of term 3. -/
def sampleStepDown : RecvOut where
  rv := 0
  r := { sampleFollower with voted_for := 2, election_timer_start := 1000 }
  sends := [resultMessage 1 "1" 3 0 3]

/-- Sample request object, as the client hands it in. -/
def sampleRequest : raft_request := ⟨77, 0, 0, 0⟩

/-- Sample collaborators whose `replicationTrigger` fails with an I/O error. -/
def sampleDepsTriggerFails : Deps :=
  { sampleDeps with replicationTrigger := fun r _ => ⟨RAFT_IOERR, r⟩ }

/-- Outcome of the sample leader accepting two commands. -/
def sampleApplied : ClientOut where
  rv := 0
  r := { sampleLeader with
    log := { sampleLog with
      entries := sampleLog.entries ++
        [⟨3, RAFT_COMMAND, ⟨104, 8⟩, 0⟩, ⟨3, RAFT_COMMAND, ⟨112, 8⟩, 0⟩] },
    leader_state := { sampleLeader.leader_state with requests := [500, 600] } }
  req := ⟨77, RAFT_COMMAND, 6, 9⟩

/-- Sample collaborators whose `progressRebuildArray` runs out of memory. -/
def sampleDepsRebuildFails : Deps :=
  { sampleDeps with progressRebuildArray := fun r _ => ⟨RAFT_NOMEM, r⟩ }

/-- Outcome of the sample leader adding server 4. -/
def sampleAdded : ClientOut where
  rv := 0
  r := { sampleLeader with
    log := { sampleLog with
      entries := sampleLog.entries ++ [⟨3, RAFT_CHANGE, ⟨8192, 144⟩, 0⟩] },
    configuration := ⟨[⟨1, "1", true⟩, ⟨2, "2", true⟩, ⟨3, "3", false⟩, ⟨4, "4", false⟩]⟩,
    configuration_uncommitted_index := 6,
    leader_state := { sampleLeader.leader_state with
      progress := List.replicate 4 ⟨0, 7, 0, 0, 0, false⟩,
      requests := [500, 600],
      change := some 600 } }
  req := ⟨77, RAFT_CHANGE, 6, 9⟩

/-! ## Definitions for the catch-up round of `raft_promote` -/

/-- Modelled from the spec: `replicationProgress` (`replication.h`) sends an
AppendEntries or InstallSnapshot request to one peer. It does not touch the
log, the configuration, the pending membership change or the fields of the
catch-up round. -/
structure ReplicationProgressFrame (d : Deps) : Prop where
  log : ∀ r i, (d.replicationProgress r i).r.log = r.log
  configuration : ∀ r i, (d.replicationProgress r i).r.configuration = r.configuration
  change : ∀ r i, (d.replicationProgress r i).r.leader_state.change = r.leader_state.change
  promotee_id : ∀ r i,
    (d.replicationProgress r i).r.leader_state.promotee_id = r.leader_state.promotee_id
  round_number : ∀ r i,
    (d.replicationProgress r i).r.leader_state.round_number = r.leader_state.round_number
  round_index : ∀ r i,
    (d.replicationProgress r i).r.leader_state.round_index = r.leader_state.round_index
  round_start : ∀ r i,
    (d.replicationProgress r i).r.leader_state.round_start = r.leader_state.round_start

/-- Sample collaborators whose `replicationProgress` finds no connection. -/
def sampleDepsNoConnection : Deps :=
  { sampleDeps with replicationProgress := fun r _ => ⟨RAFT_NOCONNECTION, r⟩ }

/-- Outcome of the sample leader starting to promote server 3, whose match
index 3 is behind the last index 5. -/
def samplePromoting : ClientOut where
  rv := 0
  r := { sampleLeader with
    leader_state := { sampleLeader.leader_state with
      change := some 600,
      promotee_id := 3,
      round_number := 1,
      round_index := 5,
      round_start := 1000 } }
  req := ⟨77, 0, 0, 9⟩

/-! ## `src/src/snapshot.c` and `src/src/start.c` -/

/-- Details of a snapshot (`struct raft_snapshot`); `n_bufs` is the length of
`bufs`. -/
structure raft_snapshot where
  index : raft_index
  term : raft_term
  configuration : raft_configuration
  configuration_index : raft_index
  bufs : List raft_buffer
deriving DecidableEq, Repr

/-- What `r->io->load` hands back: its return code and the values it stores
through its out-parameters; `n_entries` is the length of `entries` and
`snapshot` is `none` for `NULL`. -/
structure LoadOut where
  rv : Int
  term : raft_term
  voted_for : Nat
  snapshot : Option raft_snapshot
  start_index : raft_index
  entries : List raft_entry
deriving DecidableEq, Repr

/-- The environment of `raft_start`: the I/O backend, the state machine, the
allocator as seen by `logAppend`, and the functions of `configuration.h` and
`convert.h`, whose bodies are not among the sources.

* `load trailing` is the outcome of `r->io->load`;
* `fsm_restore buf` is the code returned by `r->fsm->restore`;
* `io_start msecs` is the code returned by `r->io->start`;
* `configurationDecode buf` is the return code of `configurationDecode` and
  the configuration it stores;
* `logAppend_fails i` tells whether appending the `i`-th loaded entry runs out
  of memory. -/
structure StartDeps where
  load : Nat → LoadOut
  fsm_restore : raft_buffer → Int
  io_start : Nat → Int
  configurationDecode : raft_buffer → Int × raft_configuration
  logAppend_fails : Nat → Bool
  convertToFollower : raft → raft
  convertToCandidate : raft → StepOut
  convertToLeader : raft → StepOut

/-- Modelled from the spec: `logSeek` of `log.h`, `seek(start_index)`, used at
load time: the index of the first entry becomes `start_index`. -/
def logSeek (l : raft_log) (start_index : raft_index) : raft_log :=
  { l with offset := start_index - 1 }

/-- Modelled from the spec: `logRestore` of `log.h`, `restore(last_index,
last_term)`: the log is reset around the snapshot, empty and starting right
after `last_index`. -/
def logRestore (l : raft_log) (last_index : raft_index) (last_term : raft_term) : raft_log :=
  { l with entries := [], offset := last_index, snapshot_last_index := last_index,
           snapshot_last_term := last_term }

/-- Modelled from the spec: `logSnapshotIndex` of `log.h`, the last index of
the most recent snapshot, or zero. -/
def logSnapshotIndex (l : raft_log) : raft_index := l.snapshot_last_index

/-- Modelled from the spec: `logGet` of `log.h`, `get(index) → entry`: the
entry at the index, if the log holds it. -/
def logGet (l : raft_log) (index : raft_index) : Option raft_entry :=
  if index ≤ l.offset then none else l.entries.get? (index - l.offset - 1)

/-- Modelled from the spec: `configurationNumVoting` of `configuration.h`, the
number of voting servers (`test_configuration.c`, suite `n_voting`). -/
def configurationNumVoting (c : raft_configuration) : Nat :=
  (c.servers.filter fun s => s.voting).length

/-- Embedding of `snapshotRestore`. Freeing the array of buffers has no effect
on the server. -/
def snapshotRestore (sd : StartDeps) (r : raft) (snapshot : raft_snapshot) : Option StepOut :=
  match snapshot.bufs with
  | [buf] =>
    let rv := sd.fsm_restore buf
    if rv ≠ 0 then some ⟨rv, r⟩ else
    some ⟨0, { r with
      configuration := snapshot.configuration,
      configuration_index := snapshot.configuration_index,
      commit_index := snapshot.index,
      last_applied := snapshot.index,
      last_stored := snapshot.index }⟩
  | _ => none

/-- Embedding of `restoreMostRecentConfiguration`. -/
def restoreMostRecentConfiguration (sd : StartDeps) (r : raft) (entry : raft_entry)
    (index : raft_index) : StepOut :=
  let c := sd.configurationDecode entry.buf
  if c.1 ≠ 0 then ⟨c.1, r⟩ else
  ⟨0, { r with configuration := c.2, configuration_index := index }⟩

/-- State of the loop of `restoreEntries`: the code of the last `logAppend`,
the server, and the variables `conf` and `conf_index` (`none` while `conf` is
`NULL`). -/
structure RestoreLoop where
  rv : Int
  r : raft
  conf : Option (raft_entry × raft_index)

/-- The `for` loop of `restoreEntries` over the entries that remain, `i` being
the position of the first of them. -/
def restoreEntries_loop (sd : StartDeps) :
    List raft_entry → Nat → raft → Option (raft_entry × raft_index) → RestoreLoop
  | [], _, r, conf => ⟨0, r, conf⟩
  | entry :: rest, i, r, conf =>
    let a := logAppend (sd.logAppend_fails i) r.log entry.term entry.type entry.buf entry.batch
    if a.1 ≠ 0 then ⟨a.1, { r with log := a.2 }, conf⟩ else
    let r1 : raft := { r with log := a.2, last_stored := r.last_stored + 1 }
    restoreEntries_loop sd rest (i + 1) r1
      (if entry.type = RAFT_CHANGE then some (entry, r1.last_stored) else conf)

/-- The `err:` label of `restoreEntries`. -/
def restoreEntries_err (rv : Int) (r : raft) : StepOut :=
  if logNumEntries r.log > 0 then ⟨rv, { r with log := logDiscard r.log (r.log.offset + 1) }⟩
  else ⟨rv, r⟩

/-- The first two statements of `restoreEntries`: seek the log and set
`last_stored` to the index before the first loaded entry. -/
def restoreEntries_seek (r : raft) (start_index : raft_index) : raft :=
  { r with log := logSeek r.log start_index, last_stored := start_index - 1 }

/-- The part of `restoreEntries` that follows the loop; `l` is the state of the
loop at its end. -/
def restoreEntries_conf (sd : StartDeps) (l : RestoreLoop) : StepOut :=
  if l.rv ≠ 0 then restoreEntries_err l.rv l.r else
  match l.conf with
  | none => ⟨0, l.r⟩
  | some (conf, conf_index) =>
    let m := restoreMostRecentConfiguration sd l.r conf conf_index
    if m.rv ≠ 0 then restoreEntries_err m.rv m.r else ⟨0, m.r⟩

/-- Embedding of `restoreEntries`; `n` is the length of `entries`. -/
def restoreEntries (sd : StartDeps) (r : raft) (start_index : raft_index)
    (entries : List raft_entry) : StepOut :=
  restoreEntries_conf sd
    (restoreEntries_loop sd entries 0 (restoreEntries_seek r start_index) none)

/-- Embedding of `maybeSelfElect`. -/
def maybeSelfElect (sd : StartDeps) (r : raft) : StepOut :=
  match configurationGet r.configuration r.id with
  | none => ⟨0, r⟩
  | some server =>
    if server.voting = false ∨ configurationNumVoting r.configuration > 1 then ⟨0, r⟩ else
    let c := sd.convertToCandidate r
    if c.rv ≠ 0 then ⟨c.rv, c.r⟩ else
    let l := sd.convertToLeader c.r
    if l.rv ≠ 0 then ⟨l.rv, l.r⟩ else
    ⟨0, l.r⟩

/-- The part of `raft_start` between the call of `r->io->load` and the call of
`restoreEntries`, both included; `ld` is what `load` handed back and `r` the
server with the loaded term and vote. -/
def raft_start_restore (sd : StartDeps) (r : raft) (ld : LoadOut) : Option StepOut :=
  if ¬ (ld.start_index ≥ 1) then none else
  match ld.snapshot with
  | some snapshot =>
    match snapshotRestore sd r snapshot with
    | none => none
    | some s =>
      if s.rv ≠ 0 then some ⟨s.rv, s.r⟩ else
      some (restoreEntries sd
        { s.r with log := logRestore s.r.log snapshot.index snapshot.term }
        ld.start_index ld.entries)
  | none =>
    match ld.entries with
    | first :: _ =>
      if ¬ (ld.start_index = 1) then none else
      if ¬ (first.type = RAFT_CHANGE) then none else
      some (restoreEntries sd { r with commit_index := 1, last_applied := 1 }
        ld.start_index ld.entries)
    | [] => some (restoreEntries sd r ld.start_index ld.entries)

/-- The part of `raft_start` that follows `restoreEntries`: start the I/O
backend, become follower and possibly elect oneself. -/
def raft_start_finish (sd : StartDeps) (r : raft) : StepOut :=
  let rv := sd.io_start r.heartbeat_timeout
  if rv ≠ 0 then ⟨rv, r⟩ else
  maybeSelfElect sd (sd.convertToFollower r)

/-- Embedding of `raft_start`. -/
def raft_start (sd : StartDeps) (r : raft) : Option StepOut :=
  if ¬ (r.state = RAFT_UNAVAILABLE) then none else
  if ¬ (r.heartbeat_timeout ≠ 0) then none else
  if ¬ (r.heartbeat_timeout < r.election_timeout) then none else
  if ¬ (logNumEntries r.log = 0) then none else
  if ¬ (logSnapshotIndex r.log = 0) then none else
  if ¬ (r.last_stored = 0) then none else
  let ld := sd.load r.snapshot_trailing
  let r1 : raft := { r with current_term := ld.term, voted_for := ld.voted_for }
  if ld.rv ≠ 0 then some ⟨ld.rv, r1⟩ else
  match raft_start_restore sd r1 ld with
  | none => none
  | some s =>
    if s.rv ≠ 0 then some ⟨s.rv, s.r⟩ else
    some (raft_start_finish sd s.r)

/-- The values of `conf` and `conf_index` when the loop of `restoreEntries`
has gone through all the entries: `k` is `last_stored` before the first of
them and `acc` the value of the two variables at that point. -/
def lastChange : List raft_entry → raft_index → Option (raft_entry × raft_index) →
    Option (raft_entry × raft_index)
  | [], _, acc => acc
  | entry :: rest, k, acc =>
    lastChange rest (k + 1) (if entry.type = RAFT_CHANGE then some (entry, k + 1) else acc)

/-- The part of the server that a change of role leaves alone: identity, log,
configuration and its indexes, and the volatile indexes. -/
structure raft_store where
  id : Nat
  log : raft_log
  configuration : raft_configuration
  configuration_index : raft_index
  configuration_uncommitted_index : raft_index
  commit_index : raft_index
  last_applied : raft_index
  last_stored : raft_index

/-- The store of a server. -/
def raft.store (r : raft) : raft_store :=
  ⟨r.id, r.log, r.configuration, r.configuration_index, r.configuration_uncommitted_index,
    r.commit_index, r.last_applied, r.last_stored⟩

/-- Modelled from the spec: the role conversions of `convert.h`. They set the
role (`convertToLeader` when it succeeds), the state of that role, the
election timer and, for a candidate, term and vote; they leave the store of
the server alone. -/
structure ConvertSpec (sd : StartDeps) : Prop where
  follower_role : ∀ r, (sd.convertToFollower r).state = RAFT_FOLLOWER
  follower_store : ∀ r, (sd.convertToFollower r).store = r.store
  candidate_store : ∀ r, (sd.convertToCandidate r).r.store = r.store
  leader_role : ∀ r, (sd.convertToLeader r).rv = 0 →
    (sd.convertToLeader r).r.state = RAFT_LEADER
  leader_store : ∀ r, (sd.convertToLeader r).r.store = r.store

/-- Sample server as `raft_init` leaves it: unavailable, blank log and
configuration, all indexes zero. -/
def sampleFresh : raft where
  id := 1
  address := "1"
  current_term := 0
  voted_for := 0
  log := ⟨[], 0, 0, 0⟩
  configuration := ⟨[]⟩
  configuration_index := 0
  configuration_uncommitted_index := 0
  election_timeout := 1000
  heartbeat_timeout := 100
  commit_index := 0
  last_applied := 0
  last_stored := 0
  state := RAFT_UNAVAILABLE
  follower_state := ⟨0, 0, none⟩
  candidate_state := ⟨0, []⟩
  leader_state := ⟨[], none, 0, 0, 0, 0, []⟩
  election_timer_start := 0
  snapshot_threshold := 1024
  snapshot_trailing := 128
  snapshot_put_data := 0

/-- Sample environment of `raft_start`: the disk holds term 3, a vote for
server 1, no snapshot and the three entries CHANGE, COMMAND, CHANGE from index
1; the first CHANGE entry (buffer at 64) encodes the configuration with server
1 as only voter, the second (buffer at 80) adds server 2 as non-voter. -/
def sampleStartDeps : StartDeps where
  load := fun _ =>
    ⟨0, 3, 1, none, 1,
      [⟨1, RAFT_CHANGE, ⟨64, 8⟩, 0⟩, ⟨1, RAFT_COMMAND, ⟨72, 8⟩, 0⟩, ⟨2, RAFT_CHANGE, ⟨80, 8⟩, 0⟩]⟩
  fsm_restore := fun _ => 0
  io_start := fun _ => 0
  configurationDecode := fun buf =>
    if buf = ⟨64, 8⟩ then (0, ⟨[⟨1, "1", true⟩]⟩)
    else if buf = ⟨80, 8⟩ then (0, ⟨[⟨1, "1", true⟩, ⟨2, "2", false⟩]⟩)
    else (RAFT_MALFORMED, ⟨[]⟩)
  logAppend_fails := fun _ => false
  convertToFollower := fun r => { r with state := RAFT_FOLLOWER }
  convertToCandidate := fun r =>
    ⟨0, { r with state := RAFT_CANDIDATE, current_term := r.current_term + 1,
                 voted_for := r.id }⟩
  convertToLeader := fun r => ⟨0, { r with state := RAFT_LEADER }⟩

/-- Sample environment of `raft_start` whose disk holds a snapshot at index
100 and no entry, the log being reported to start at index 1. -/
def sampleStartDepsSnapshot : StartDeps :=
  { sampleStartDeps with
    load := fun _ =>
      ⟨0, 3, 1, some ⟨100, 3, ⟨[⟨1, "1", true⟩, ⟨2, "2", true⟩]⟩, 1, [⟨200, 16⟩]⟩, 1, []⟩ }

/-! ## Byte order helpers (byte.h)

A buffer is the list of its bytes. A cursor that reads is the list of the bytes
from the cursor on; a cursor that writes keeps the bytes behind it as well, the
buffer being `behind ++ ahead`. An access past the end of the buffer is
undefined in C and gives `none` here. -/

/-- Modelled from the spec: the `n` low bytes of `v`, least significant first
("little-endian throughout"). -/
def byteLE : Nat → Nat → List Nat
  | 0, _ => []
  | n + 1, v => v % 256 :: byteLE n (v / 256)

/-- Modelled from the spec: the value of a little-endian byte string. -/
def byteFromLE : List Nat → Nat
  | [] => 0
  | b :: bs => b + 256 * byteFromLE bs

/-- A `void *cursor` into a buffer that is being written. -/
structure WriteCursor where
  behind : List Nat
  ahead : List Nat
deriving DecidableEq, Repr

/-- The bytes of the buffer a write cursor walks. -/
def WriteCursor.bytes (c : WriteCursor) : List Nat := c.behind ++ c.ahead

/-- Modelled from the spec: `bytePut8/32/64` of `byte.h` store the `n` low bytes
of the value at the cursor, little-endian, and advance the cursor by `n`. -/
def bytePutN (n : Nat) (cursor : WriteCursor) (value : Nat) : Option WriteCursor :=
  if cursor.ahead.length < n then none
  else some ⟨cursor.behind ++ byteLE n value, cursor.ahead.drop n⟩

/-- Modelled from the spec: `bytePut8` of `byte.h`. -/
def bytePut8 (cursor : WriteCursor) (value : Nat) : Option WriteCursor :=
  bytePutN 1 cursor value

/-- Modelled from the spec: `bytePut32` of `byte.h`. -/
def bytePut32 (cursor : WriteCursor) (value : Nat) : Option WriteCursor :=
  bytePutN 4 cursor value

/-- Modelled from the spec: `bytePut64` of `byte.h`. -/
def bytePut64 (cursor : WriteCursor) (value : Nat) : Option WriteCursor :=
  bytePutN 8 cursor value

/-- The statement `cursor += n` on a write cursor: the bytes stepped over keep
their content. -/
def cursorAdd (cursor : WriteCursor) (n : Nat) : Option WriteCursor :=
  if cursor.ahead.length < n then none
  else some ⟨cursor.behind ++ cursor.ahead.take n, cursor.ahead.drop n⟩

/-- A helper that is handed the cursor by value and stores `bytes` there: the
cursor of the caller does not move. -/
def cursorStore (cursor : WriteCursor) (bytes : List Nat) : Option WriteCursor :=
  if cursor.ahead.length < bytes.length then none
  else some ⟨cursor.behind, bytes ++ cursor.ahead.drop bytes.length⟩

/-- Modelled from the spec: `byteGet8/32/64` of `byte.h` load a little-endian
value of `n` bytes at the cursor and advance the cursor by `n`. -/
def byteGetN (n : Nat) (cursor : List Nat) : Option (Nat × List Nat) :=
  if cursor.length < n then none
  else some (byteFromLE (cursor.take n), cursor.drop n)

/-- Modelled from the spec: `byteGet8` of `byte.h`. -/
def byteGet8 (cursor : List Nat) : Option (Nat × List Nat) := byteGetN 1 cursor

/-- Modelled from the spec: `byteGet32` of `byte.h`. -/
def byteGet32 (cursor : List Nat) : Option (Nat × List Nat) := byteGetN 4 cursor

/-- Modelled from the spec: `byteGet64` of `byte.h`. -/
def byteGet64 (cursor : List Nat) : Option (Nat × List Nat) := byteGetN 8 cursor

/-- Modelled from the spec: `bytePad64` of `byte.h` rounds a size up to the next
multiple of 8 ("padded to 8 bytes"). -/
def bytePad64 (size : Nat) : Nat :=
  if size % 8 ≠ 0 then size + (8 - size % 8) else size

/-! ## RPC encoding (uv_encoding.c) -/

/-- What `uv_encoding.c` takes from its surroundings: the heap (which
allocations fail, what freshly allocated memory holds) and the configuration
codec of `configuration.h`. -/
structure UvEnv where
  malloc_fails : Nat → Bool
  calloc_fails : Nat → Bool
  heap_fill : Nat → Nat
  entry_fill : Nat → raft_entry
  configurationEncodedSize : raft_configuration → Nat
  configurationEncodeToBuf : raft_configuration → List Nat
  configurationDecode : List Nat → Int × raft_configuration

/-- The call `raft_malloc(size)`: NULL (`none`) on failure, else a fresh block
of `size` bytes of unspecified content. -/
def UvEnv.raft_malloc (env : UvEnv) (size : Nat) : Option (List Nat) :=
  if env.malloc_fails size then none
  else some ((List.range size).map (fun i => env.heap_fill i % 256))

/-- A `uv_buf_t` (`base`, `len`). The base of a buffer allocated by this code
is kept as the bytes it points at; the base of a buffer that belongs to the
caller is kept as its address. -/
inductive uv_buf_t where
  | heap (base : List Nat) (len : Nat)
  | ref (base : Nat) (len : Nat)
deriving DecidableEq, Repr

/-- The member `request_vote` of the union of a message; bytes of another
member read through it are not represented and read as zero. -/
def raft_message.request_vote (m : raft_message) : raft_request_vote :=
  match m.body with
  | .request_vote b => b
  | _ => ⟨0, 0, 0, 0⟩

/-- The member `request_vote_result` of the union of a message. -/
def raft_message.request_vote_result (m : raft_message) : raft_request_vote_result :=
  match m.body with
  | .request_vote_result b => b
  | _ => ⟨0, false⟩

/-- The member `append_entries` of the union of a message. -/
def raft_message.append_entries (m : raft_message) : raft_append_entries :=
  match m.body with
  | .append_entries b => b
  | _ => ⟨0, 0, 0, 0, []⟩

/-- The member `append_entries_result` of the union of a message. -/
def raft_message.append_entries_result (m : raft_message) : raft_append_entries_result :=
  match m.body with
  | .append_entries_result b => b
  | _ => ⟨0, 0, 0⟩

/-- The member `install_snapshot` of the union of a message. -/
def raft_message.install_snapshot (m : raft_message) : raft_install_snapshot :=
  match m.body with
  | .install_snapshot b => b
  | _ => ⟨0, 0, 0, ⟨[]⟩, 0, ⟨0, 0⟩⟩

def RAFT_IO_UV__PREAMBLE_SIZE : Nat := 8 + 8

def sizeofRequestVote : Nat := 8 + 8 + 8 + 8

def sizeofRequestVoteResult : Nat := 8 + 8

/-- The product `16 * p->n_entries` is computed in `unsigned`. -/
def sizeofAppendEntries (p : raft_append_entries) : Nat :=
  8 + 8 + 8 + 8 + 8 + 8 + (16 * p.n_entries) % 2 ^ 32

def sizeofAppendEntriesResult : Nat := 8 + 8 + 8

def sizeofInstallSnapshot (env : UvEnv) (p : raft_install_snapshot) : Nat :=
  let conf_size := env.configurationEncodedSize p.conf
  8 + 8 + 8 + 8 + 8 + 8 + conf_size + 8

def uvSizeofBatchHeader (n : Nat) : Nat := 8 + 16 * n

def encodeRequestVote (p : raft_request_vote) (buf : WriteCursor) : Option WriteCursor :=
  (bytePut64 buf p.term).bind fun cursor =>
  (bytePut64 cursor p.candidate_id).bind fun cursor =>
  (bytePut64 cursor p.last_log_index).bind fun cursor =>
  bytePut64 cursor p.last_log_term

def encodeRequestVoteResult (p : raft_request_vote_result) (buf : WriteCursor) :
    Option WriteCursor :=
  (bytePut64 buf p.term).bind fun cursor =>
  bytePut64 cursor (if p.vote_granted then 1 else 0)

/-- The loop of `uvEncodeBatchHeader` over the entries that are left. -/
def uvEncodeBatchHeader_loop : List raft_entry → WriteCursor → Option WriteCursor
  | [], cursor => some cursor
  | entry :: rest, cursor =>
    (bytePut64 cursor entry.term).bind fun cursor =>
    (bytePut8 cursor entry.type).bind fun cursor =>
    (cursorAdd cursor 3).bind fun cursor =>
    (bytePut32 cursor entry.buf.len).bind fun cursor =>
    uvEncodeBatchHeader_loop rest cursor

def uvEncodeBatchHeader (entries : List raft_entry) (n : Nat) (buf : WriteCursor) :
    Option WriteCursor :=
  (bytePut64 buf n).bind fun cursor =>
  uvEncodeBatchHeader_loop (entries.take n) cursor

def encodeAppendEntries (p : raft_append_entries) (buf : WriteCursor) : Option WriteCursor :=
  (bytePut64 buf p.term).bind fun cursor =>
  (bytePut64 cursor p.prev_log_index).bind fun cursor =>
  (bytePut64 cursor p.prev_log_term).bind fun cursor =>
  (bytePut64 cursor p.leader_commit).bind fun cursor =>
  uvEncodeBatchHeader p.entries p.n_entries cursor

def encodeAppendEntriesResult (p : raft_append_entries_result) (buf : WriteCursor) :
    Option WriteCursor :=
  (bytePut64 buf p.term).bind fun cursor =>
  (bytePut64 cursor p.rejected).bind fun cursor =>
  bytePut64 cursor p.last_log_index

def encodeInstallSnapshot (env : UvEnv) (p : raft_install_snapshot) (buf : WriteCursor) :
    Option WriteCursor :=
  let conf_size := env.configurationEncodedSize p.conf
  (bytePut64 buf p.term).bind fun cursor =>
  (bytePut64 cursor p.last_index).bind fun cursor =>
  (bytePut64 cursor p.last_term).bind fun cursor =>
  (bytePut64 cursor p.conf_index).bind fun cursor =>
  (bytePut64 cursor conf_size).bind fun cursor =>
  (cursorStore cursor (env.configurationEncodeToBuf p.conf)).bind fun cursor =>
  (cursorAdd cursor conf_size).bind fun cursor =>
  bytePut64 cursor p.data.len

/-- Outcome of `uvEncodeMessage`: the return code and the out-parameters
`*bufs` and `*n_bufs`, `none` where the function has stored nothing (or NULL). -/
structure EncodeOut where
  rv : Int
  bufs : Option (List uv_buf_t)
  n_bufs : Option Nat
deriving DecidableEq, Repr

/-- First switch of `uvEncodeMessage`: the length of the header, `none` in the
default case. -/
def uvEncodeMessage_len (env : UvEnv) (message : raft_message) : Option Nat :=
  if message.type = RAFT_IO_REQUEST_VOTE then
    some (RAFT_IO_UV__PREAMBLE_SIZE + sizeofRequestVote)
  else if message.type = RAFT_IO_REQUEST_VOTE_RESULT then
    some (RAFT_IO_UV__PREAMBLE_SIZE + sizeofRequestVoteResult)
  else if message.type = RAFT_IO_APPEND_ENTRIES then
    some (RAFT_IO_UV__PREAMBLE_SIZE + sizeofAppendEntries message.append_entries)
  else if message.type = RAFT_IO_APPEND_ENTRIES_RESULT then
    some (RAFT_IO_UV__PREAMBLE_SIZE + sizeofAppendEntriesResult)
  else if message.type = RAFT_IO_INSTALL_SNAPSHOT then
    some (RAFT_IO_UV__PREAMBLE_SIZE + sizeofInstallSnapshot env message.install_snapshot)
  else none

/-- Second switch of `uvEncodeMessage`: the header of the request is encoded at
the cursor, which stands after the preamble. The result is the cursor as the
encoder leaves it. -/
def uvEncodeMessage_header (env : UvEnv) (message : raft_message) (cursor : WriteCursor) :
    Option WriteCursor :=
  if message.type = RAFT_IO_REQUEST_VOTE then
    encodeRequestVote message.request_vote cursor
  else if message.type = RAFT_IO_REQUEST_VOTE_RESULT then
    encodeRequestVoteResult message.request_vote_result cursor
  else if message.type = RAFT_IO_APPEND_ENTRIES then
    encodeAppendEntries message.append_entries cursor
  else if message.type = RAFT_IO_APPEND_ENTRIES_RESULT then
    encodeAppendEntriesResult message.append_entries_result cursor
  else if message.type = RAFT_IO_INSTALL_SNAPSHOT then
    encodeInstallSnapshot env message.install_snapshot cursor
  else some cursor

/-- Preamble and header of `uvEncodeMessage` written into the fresh block
`base` of `len` bytes; the result is the cursor after the last byte written. -/
def uvEncodeMessage_fill (env : UvEnv) (message : raft_message) (base : List Nat)
    (len : Nat) : Option WriteCursor :=
  (bytePut64 ⟨[], base⟩ message.type).bind fun cursor =>
  (bytePut64 cursor (len - RAFT_IO_UV__PREAMBLE_SIZE)).bind fun cursor =>
  uvEncodeMessage_header env message cursor

/-- The value of `*n_bufs`, an `unsigned`. -/
def uvEncodeMessage_n_bufs (message : raft_message) : Nat :=
  let n_bufs := 1
  let n_bufs :=
    if message.type = RAFT_IO_APPEND_ENTRIES then
      (n_bufs + message.append_entries.n_entries) % 2 ^ 32
    else n_bufs
  if message.type = RAFT_IO_INSTALL_SNAPSHOT then (n_bufs + 1) % 2 ^ 32 else n_bufs

/-- The buffers stored in `(*bufs)[1..]`: the payloads of the entries, or the
data of the snapshot. -/
def uvEncodeMessage_payloads (message : raft_message) : List uv_buf_t :=
  (if message.type = RAFT_IO_APPEND_ENTRIES then
      message.append_entries.entries.map (fun entry => uv_buf_t.ref entry.buf.base entry.buf.len)
    else []) ++
  (if message.type = RAFT_IO_INSTALL_SNAPSHOT then
      [uv_buf_t.ref message.install_snapshot.data.base message.install_snapshot.data.len]
    else [])

/-- Last part of `uvEncodeMessage`, from the allocation of the array on. A
store past the end of the array is undefined. -/
def uvEncodeMessage_bufs (env : UvEnv) (message : raft_message) (header : uv_buf_t) :
    Option EncodeOut :=
  let n_bufs := uvEncodeMessage_n_bufs message
  if env.calloc_fails n_bufs then some ⟨RAFT_NOMEM, none, some n_bufs⟩
  else if n_bufs < 1 + (uvEncodeMessage_payloads message).length then none
  else some ⟨0, some (header :: uvEncodeMessage_payloads message), some n_bufs⟩

/-- The function `uvEncodeMessage` of uv_encoding.c. -/
def uvEncodeMessage (env : UvEnv) (message : raft_message) : Option EncodeOut :=
  match uvEncodeMessage_len env message with
  | none => some ⟨RAFT_MALFORMED, none, none⟩
  | some len =>
    match env.raft_malloc len with
    | none => some ⟨RAFT_NOMEM, none, none⟩
    | some base =>
      (uvEncodeMessage_fill env message base len).bind fun cursor =>
      uvEncodeMessage_bufs env message (uv_buf_t.heap cursor.bytes len)

/-! ## RPC decoding (uv_encoding.c) -/

def decodeRequestVote (buf : List Nat) : Option raft_request_vote :=
  (byteGet64 buf).bind fun term =>
  (byteGet64 term.2).bind fun candidate_id =>
  (byteGet64 candidate_id.2).bind fun last_log_index =>
  (byteGet64 last_log_index.2).bind fun last_log_term =>
  some ⟨term.1, candidate_id.1 % 2 ^ 32, last_log_index.1, last_log_term.1⟩

def decodeRequestVoteResult (buf : List Nat) : Option raft_request_vote_result :=
  (byteGet64 buf).bind fun term =>
  (byteGet64 term.2).bind fun vote_granted =>
  some ⟨term.1, decide (vote_granted.1 ≠ 0)⟩

/-- The size of `struct raft_entry` where pointers and `size_t` take 8 bytes. -/
def sizeof_raft_entry : Nat := 40

/-- Outcome of `uvDecodeBatchHeader`: the return code and the out-parameters
`*entries` (`none` for NULL) and `*n`. -/
structure BatchOut where
  rv : Int
  entries : Option (List raft_entry)
  n : Nat
deriving DecidableEq, Repr

/-- The loop of `uvDecodeBatchHeader` with `k` entries left to decode, `i`
being the index of the next one. `entries` holds the slots `0 .. i-1` of the
array; the slots from `i` on hold what the allocator left there and are added
when the loop is left. -/
def uvDecodeBatchHeader_loop (env : UvEnv) :
    Nat → Nat → List Nat → List raft_entry → Option (Int × List raft_entry)
  | 0, _, _, entries => some (0, entries)
  | k + 1, i, cursor, entries =>
    (byteGet64 cursor).bind fun term =>
    (byteGet8 term.2).bind fun ty =>
    if ty.1 ≠ RAFT_COMMAND ∧ ty.1 ≠ RAFT_BARRIER ∧ ty.1 ≠ RAFT_CHANGE then
      some (RAFT_MALFORMED,
        entries ++ ⟨term.1, ty.1, (env.entry_fill i).buf, (env.entry_fill i).batch⟩ ::
          (List.range k).map (fun j => env.entry_fill (i + 1 + j)))
    else
      (byteGet32 (ty.2.drop 3)).bind fun len =>
      uvDecodeBatchHeader_loop env k (i + 1) len.2
        (entries ++ [⟨term.1, ty.1, ⟨(env.entry_fill i).buf.base, len.1⟩,
          (env.entry_fill i).batch⟩])

/-- The function `uvDecodeBatchHeader` of uv_encoding.c. After a bad type the
label `err_after_alloc` calls `raft_free(entries)`: this is the address of the
out-parameter, not the array stored in it. `entries_is_block` says whether
that address is the start of a block of the heap; if it is, that block is
released and the array stays allocated; if it is not, as when the address of a
variable or of a member of a structure is passed, the call is undefined. -/
def uvDecodeBatchHeader (env : UvEnv) (batch : List Nat) (entries_is_block : Bool) :
    Option BatchOut :=
  (byteGet64 batch).bind fun count =>
  let n := count.1 % 2 ^ 32
  if n = 0 then some ⟨0, none, n⟩
  else if env.malloc_fails (n * sizeof_raft_entry) then some ⟨RAFT_NOMEM, none, n⟩
  else
    (uvDecodeBatchHeader_loop env n 0 count.2 []).bind fun res =>
    if res.1 ≠ 0 then
      if entries_is_block then some ⟨res.1, some res.2, n⟩ else none
    else some ⟨0, some res.2, n⟩

/-- A `struct raft_append_entries` as the decoder leaves it: `entries` can be
NULL (`none`) while `n_entries` is not zero. -/
structure DecodedAppendEntries where
  term : raft_term
  prev_log_index : raft_index
  prev_log_term : raft_term
  leader_commit : raft_index
  entries : Option (List raft_entry)
  n_entries : Nat
deriving DecidableEq, Repr

/-- The function `decodeAppendEntries`. The out-parameter handed to
`uvDecodeBatchHeader` is `&args->entries`, a member of the message: it is not
the start of a block of the heap. -/
def decodeAppendEntries (env : UvEnv) (buf : List Nat) :
    Option (Int × DecodedAppendEntries) :=
  (byteGet64 buf).bind fun term =>
  (byteGet64 term.2).bind fun prev_log_index =>
  (byteGet64 prev_log_index.2).bind fun prev_log_term =>
  (byteGet64 prev_log_term.2).bind fun leader_commit =>
  (uvDecodeBatchHeader env leader_commit.2 false).bind fun batch =>
  some (batch.rv,
    ⟨term.1, prev_log_index.1, prev_log_term.1, leader_commit.1, batch.entries, batch.n⟩)

def decodeAppendEntriesResult (buf : List Nat) : Option raft_append_entries_result :=
  (byteGet64 buf).bind fun term =>
  (byteGet64 term.2).bind fun rejected =>
  (byteGet64 rejected.2).bind fun last_log_index =>
  some ⟨term.1, rejected.1, last_log_index.1⟩

/-- The function `decodeInstallSnapshot`; `args` is the member as the caller
handed it over, of which `data.base` is never written. -/
def decodeInstallSnapshot (env : UvEnv) (buf : List Nat) (args : raft_install_snapshot) :
    Option (Int × raft_install_snapshot) :=
  (byteGet64 buf).bind fun term =>
  (byteGet64 term.2).bind fun last_index =>
  (byteGet64 last_index.2).bind fun last_term =>
  (byteGet64 last_term.2).bind fun conf_index =>
  (byteGet64 conf_index.2).bind fun conf_len =>
  let conf := env.configurationDecode (conf_len.2.take conf_len.1)
  if conf.1 ≠ 0 then
    some (conf.1, ⟨term.1, last_index.1, last_term.1, conf.2, conf_index.1, args.data⟩)
  else
    (byteGet64 (conf_len.2.drop conf_len.1)).bind fun data_len =>
    some (0, ⟨term.1, last_index.1, last_term.1, conf.2, conf_index.1,
      ⟨args.data.base, data_len.1⟩⟩)

/-- Outcome of `uvDecodeMessage`: the return code, the message and
`*payload_len`. -/
structure DecodeOut where
  rv : Int
  message : raft_message
  payload_len : Nat
deriving DecidableEq, Repr

/-- The message of `uvDecodeMessage` after `message->type = type` (an
`unsigned` stored in an `unsigned short`) with the union holding `body`. -/
def decodedMessage (message : raft_message) (typ : Nat) (body : raft_message_body) :
    raft_message :=
  ⟨typ % 2 ^ 16, message.server_id, message.server_address, body⟩

/-- The loop of `uvDecodeMessage` that adds up the payload lengths, in
`size_t`. -/
def uvDecodeMessage_payload (entries : List raft_entry) (payload_len : Nat) : Nat :=
  entries.foldl (fun acc entry => (acc + entry.buf.len) % 2 ^ 64) payload_len

/-- The case RAFT_IO_APPEND_ENTRIES of `uvDecodeMessage`. The loop over the
entries runs whatever the return code; it reads through a NULL array when the
allocation has failed, which is undefined. -/
def uvDecodeMessage_append_entries (env : UvEnv) (typ : Nat) (header : List Nat)
    (message : raft_message) : Option DecodeOut :=
  (decodeAppendEntries env header).bind fun res =>
  match res.2.entries with
  | some entries =>
    some ⟨res.1,
      decodedMessage message typ (.append_entries
        ⟨res.2.term, res.2.prev_log_index, res.2.prev_log_term, res.2.leader_commit, entries⟩),
      uvDecodeMessage_payload entries 0⟩
  | none =>
    if res.2.n_entries = 0 then
      some ⟨res.1,
        decodedMessage message typ (.append_entries
          ⟨res.2.term, res.2.prev_log_index, res.2.prev_log_term, res.2.leader_commit, []⟩),
        0⟩
    else none

/-- The function `uvDecodeMessage` of uv_encoding.c; `message` is the object
of the caller, of which only the type and the union are written. -/
def uvDecodeMessage (env : UvEnv) (typ : Nat) (header : List Nat) (message : raft_message) :
    Option DecodeOut :=
  if typ = RAFT_IO_REQUEST_VOTE then
    (decodeRequestVote header).bind fun p =>
    some ⟨0, decodedMessage message typ (.request_vote p), 0⟩
  else if typ = RAFT_IO_REQUEST_VOTE_RESULT then
    (decodeRequestVoteResult header).bind fun p =>
    some ⟨0, decodedMessage message typ (.request_vote_result p), 0⟩
  else if typ = RAFT_IO_APPEND_ENTRIES then
    uvDecodeMessage_append_entries env typ header message
  else if typ = RAFT_IO_APPEND_ENTRIES_RESULT then
    (decodeAppendEntriesResult header).bind fun p =>
    some ⟨0, decodedMessage message typ (.append_entries_result p), 0⟩
  else if typ = RAFT_IO_INSTALL_SNAPSHOT then
    (decodeInstallSnapshot env header message.install_snapshot).bind fun res =>
    some ⟨res.1, decodedMessage message typ (.install_snapshot res.2),
      (0 + res.2.data.len) % 2 ^ 64⟩
  else some ⟨RAFT_IOERR, decodedMessage message typ message.body, 0⟩

/-! ## Wire format of the specification -/

/-- The body of a RequestVote, RequestVoteResult or AppendEntriesResult message
as the wire format lists it: the fields in declaration order, each as a
little-endian u64, `vote_granted` as 0 or 1. -/
def wireBody : raft_message_body → List Nat
  | .request_vote p =>
    byteLE 8 p.term ++ byteLE 8 p.candidate_id ++ byteLE 8 p.last_log_index ++
      byteLE 8 p.last_log_term
  | .request_vote_result p => byteLE 8 p.term ++ byteLE 8 (if p.vote_granted then 1 else 0)
  | .append_entries_result p =>
    byteLE 8 p.term ++ byteLE 8 p.rejected ++ byteLE 8 p.last_log_index
  | _ => []

/-- The message is a RequestVote, a RequestVoteResult or an AppendEntriesResult:
its type code is one of the three and the union holds the member it names. -/
def isFixedSize (m : raft_message) : Prop :=
  match m.body with
  | .request_vote _ => m.type = RAFT_IO_REQUEST_VOTE
  | .request_vote_result _ => m.type = RAFT_IO_REQUEST_VOTE_RESULT
  | .append_entries_result _ => m.type = RAFT_IO_APPEND_ENTRIES_RESULT
  | _ => False

/-- The fields of the union of a message hold values of their C types
(`unsigned` for `candidate_id`, 64 bits for terms and indexes). -/
def fieldsInRange : raft_message_body → Prop
  | .request_vote p =>
    p.term < 2 ^ 64 ∧ p.candidate_id < 2 ^ 32 ∧ p.last_log_index < 2 ^ 64 ∧
      p.last_log_term < 2 ^ 64
  | .request_vote_result p => p.term < 2 ^ 64
  | .append_entries p =>
    p.term < 2 ^ 64 ∧ p.prev_log_index < 2 ^ 64 ∧ p.prev_log_term < 2 ^ 64 ∧
      p.leader_commit < 2 ^ 64 ∧ ∀ e ∈ p.entries, e.term < 2 ^ 64
  | .append_entries_result p =>
    p.term < 2 ^ 64 ∧ p.rejected < 2 ^ 64 ∧ p.last_log_index < 2 ^ 64
  | .install_snapshot p =>
    p.term < 2 ^ 64 ∧ p.last_index < 2 ^ 64 ∧ p.last_term < 2 ^ 64 ∧ p.conf_index < 2 ^ 64 ∧
      p.data.len < 2 ^ 64

/-- The entry headers of a batch as the encoder leaves them in a block whose
bytes were `ahead`: term, type, three bytes that keep the content of the block,
payload length. -/
def batchHeaderBytes : List raft_entry → List Nat → List Nat
  | [], _ => []
  | e :: es, ahead =>
    byteLE 8 e.term ++ (byteLE 1 e.type ++ ((ahead.drop 9).take 3 ++
      (byteLE 4 e.buf.len ++ batchHeaderBytes es (ahead.drop 16))))

/-- What the header of an entry carries: term, type and payload length. -/
def entryHeader (e : raft_entry) : Nat × Nat × Nat := (e.term, e.type, e.buf.len)

/-- The slots of the array that `uvDecodeBatchHeader` fills from the headers of
`es`, the first being slot `i`: term, type and payload length come from the
header, the other fields are what the allocator left. -/
def decodedEntries (env : UvEnv) : Nat → List raft_entry → List raft_entry
  | _, [] => []
  | i, e :: es =>
    ⟨e.term, e.type, ⟨(env.entry_fill i).buf.base, e.buf.len⟩, (env.entry_fill i).batch⟩ ::
      decodedEntries env (i + 1) es

/-! ## Configuration codec (configuration.h)

The bodies of `configurationEncode` and `configurationDecode` are not part of
the sources at hand; they are modelled from the wire format of the
specification and from the suites `encode` and `decode` of
`test_configuration.c`. A `char *` is a `String` whose characters stand for
the bytes of the C string. -/

/-- The bytes of a C string, without the terminating null byte. -/
def cstring (s : String) : List Nat := s.toList.map Char.toNat

/-- The string is a C string: no character is the null byte and every
character is a byte. -/
def isCString (s : String) : Prop := ∀ c ∈ s.toList, c.toNat ≠ 0 ∧ c.toNat < 256

instance (s : String) : Decidable (isCString s) := by
  unfold isCString
  infer_instance

/-- Modelled from the spec: `bytePutString` of `byte.h` copies the string with
its terminating null byte to the cursor and advances the cursor past it. -/
def bytePutString (cursor : WriteCursor) (value : String) : Option WriteCursor :=
  if cursor.ahead.length < (cstring value).length + 1 then none
  else some ⟨cursor.behind ++ (cstring value ++ [0]),
    cursor.ahead.drop ((cstring value).length + 1)⟩

/-- The bytes before the first null byte and the bytes after it, if there is
a null byte. -/
def byteGetString_scan : List Nat → Option (List Nat × List Nat)
  | [] => none
  | b :: bs =>
    if b = 0 then some ([], bs)
    else (byteGetString_scan bs).map fun r => (b :: r.1, r.2)

/-- Modelled from the spec: `byteGetString` of `byte.h` returns the string at
the cursor and advances the cursor past its null byte; it returns NULL
(`none`) when there is no null byte within the next `max_len` bytes
("unterminated addresses"). -/
def byteGetString (cursor : List Nat) (max_len : Nat) : Option (String × List Nat) :=
  (byteGetString_scan (cursor.take max_len)).map fun r =>
    (String.mk (r.1.map Char.ofNat), cursor.drop (r.1.length + 1))

/-- Modelled from the spec: `configurationEncodedSize` of `configuration.h`:
version byte, count, and per server the id, the address with its null byte and
the voting byte, "the whole block padded to 8 bytes" (`test_configuration.c`,
suite `encode`). -/
def configurationEncodedSize (c : raft_configuration) : Nat :=
  bytePad64 (1 + 8 + (c.servers.map fun s => 8 + ((cstring s.address).length + 1) + 1).sum)

/-- The loop of `configurationEncodeToBuf` over the servers that are left. -/
def configurationEncodeToBuf_loop : List raft_server → WriteCursor → Option WriteCursor
  | [], cursor => some cursor
  | server :: rest, cursor =>
    (bytePut64 cursor server.id).bind fun cursor =>
    (bytePutString cursor server.address).bind fun cursor =>
    (bytePut8 cursor (if server.voting then 1 else 0)).bind fun cursor =>
    configurationEncodeToBuf_loop rest cursor

/-- Modelled from the spec: `configurationEncodeToBuf` of `configuration.h`
writes `u8 version=1`, `u64 n` and for each server `u64 id`, the
null-terminated address and `u8 voting`; the padding is not written. -/
def configurationEncodeToBuf (c : raft_configuration) (buf : WriteCursor) :
    Option WriteCursor :=
  (bytePut8 buf 1).bind fun cursor =>
  (bytePut64 cursor c.n).bind fun cursor =>
  configurationEncodeToBuf_loop c.servers cursor

/-- Outcome of `configurationEncode`: the return code and the bytes of the
buffer, `none` when no buffer has been produced. -/
structure ConfEncodeOut where
  rv : Int
  buf : Option (List Nat)
deriving DecidableEq, Repr

/-- Modelled from the spec: `configurationEncode` of `configuration.h`
allocates a buffer of the encoded size and encodes the configuration into it;
`RAFT_NOMEM` when the allocation fails (`test_configuration.c`, case
`encode/error/oom`). -/
def configurationEncode (env : UvEnv) (c : raft_configuration) : Option ConfEncodeOut :=
  match env.raft_malloc (configurationEncodedSize c) with
  | none => some ⟨RAFT_NOMEM, none⟩
  | some base =>
    (configurationEncodeToBuf c ⟨[], base⟩).bind fun cursor => some ⟨0, some cursor.bytes⟩

/-- The loop of `configurationDecode` with `k` servers left to decode, `i`
being the index of the next one; `nomem i` says whether the allocation made to
add server `i` fails. The loop is left at the first error, with the servers
added so far. -/
def configurationDecode_loop (nomem : Nat → Bool) :
    Nat → Nat → List Nat → raft_configuration → Option (Int × raft_configuration)
  | 0, _, _, c => some (0, c)
  | k + 1, i, cursor, c =>
    (byteGet64 cursor).bind fun id =>
    match byteGetString id.2 id.2.length with
    | none => some (RAFT_MALFORMED, c)
    | some address =>
      (byteGet8 address.2).bind fun voting =>
      if (raft_configuration_add (nomem i) c (id.1 % 2 ^ 32) address.1
          (decide (voting.1 ≠ 0))).1 ≠ 0 then
        some (raft_configuration_add (nomem i) c (id.1 % 2 ^ 32) address.1
          (decide (voting.1 ≠ 0)))
      else
        configurationDecode_loop nomem k (i + 1) voting.2
          (raft_configuration_add (nomem i) c (id.1 % 2 ^ 32) address.1
            (decide (voting.1 ≠ 0))).2

/-- Modelled from the spec: `configurationDecode` of `configuration.h` fills
an empty configuration from a buffer: it "rejects other versions and
unterminated addresses as malformed", and adds each decoded server with
`raft_configuration_add`, whose errors it returns (`test_configuration.c`,
suite `decode`). Neither the spec nor the tests say what the target holds
after an error; the model leaves the servers added so far. -/
def configurationDecode (nomem : Nat → Bool) (buf : List Nat) :
    Option (Int × raft_configuration) :=
  (byteGet8 buf).bind fun version =>
  if version.1 ≠ 1 then some (RAFT_MALFORMED, ⟨[]⟩)
  else
    (byteGet64 version.2).bind fun n =>
    configurationDecode_loop nomem n.1 0 n.2 ⟨[]⟩

/-- The record of a server as the wire format lists it: `u64 id`, the
null-terminated address, `u8 voting`. -/
def serverBytes (s : raft_server) : List Nat :=
  byteLE 8 s.id ++ (cstring s.address ++ (0 :: [if s.voting then 1 else 0]))

/-- The records of the servers, in order. -/
def serversBytes : List raft_server → List Nat
  | [] => []
  | s :: rest => serverBytes s ++ serversBytes rest

/-- The encoding of a configuration as the wire format lists it, without the
padding: `u8 version=1`, `u64 n`, the records of the servers. -/
def configurationBytes (c : raft_configuration) : List Nat :=
  1 :: (byteLE 8 c.n ++ serversBytes c.servers)

/-- The servers of a valid configuration have positive ids that fit an
`unsigned` and are unique, and addresses that are C strings and are unique. -/
def validServers (servers : List raft_server) : Prop :=
  (∀ s ∈ servers, 0 < s.id ∧ s.id < 2 ^ 32 ∧ isCString s.address) ∧
  (servers.map fun s => s.id).Nodup ∧ (servers.map fun s => s.address).Nodup

instance (servers : List raft_server) : Decidable (validServers servers) := by
  unfold validServers
  infer_instance

/-! ## Sample messages and heaps -/

/-- A heap on which every allocation succeeds; fresh memory holds the bytes
170, 171, ... and fresh entries hold a stale payload address. The
configuration codec is the one modelled above, decoding on a heap without
failures. -/
def sampleUvEnv : UvEnv :=
  { malloc_fails := fun _ => false
    calloc_fails := fun _ => false
    heap_fill := fun i => 170 + i
    entry_fill := fun i => ⟨9, 0, ⟨4096 + i, 77⟩, 4096⟩
    configurationEncodedSize := configurationEncodedSize
    configurationEncodeToBuf := configurationBytes
    configurationDecode := fun bytes =>
      (configurationDecode (fun _ => false) bytes).getD (RAFT_MALFORMED, ⟨[]⟩) }

/-- The sample heap with every `raft_malloc` failing. -/
def sampleUvEnvNoMem : UvEnv :=
  { sampleUvEnv with malloc_fails := fun _ => true }

/-- A RequestVote of candidate 2 in term 5, its log ending at (7, 4). -/
def sampleRequestVote : raft_message :=
  ⟨RAFT_IO_REQUEST_VOTE, 1, "1", .request_vote ⟨5, 2, 7, 4⟩⟩

/-- An AppendEntries of term 5 with a command of 8 bytes and a barrier. -/
def sampleAppendEntries : raft_message :=
  ⟨RAFT_IO_APPEND_ENTRIES, 2, "2",
    .append_entries ⟨5, 7, 4, 6, [⟨5, RAFT_COMMAND, ⟨512, 8⟩, 0⟩, ⟨5, RAFT_BARRIER, ⟨520, 0⟩, 0⟩]⟩⟩

/-- A heartbeat: an AppendEntries of term 5 without entries. -/
def sampleHeartbeat : raft_message :=
  ⟨RAFT_IO_APPEND_ENTRIES, 2, "2", .append_entries ⟨5, 7, 4, 6, []⟩⟩

/-- An InstallSnapshot of term 5 for a snapshot at (7, 4) with one server. -/
def sampleInstallSnapshot : raft_message :=
  ⟨RAFT_IO_INSTALL_SNAPSHOT, 2, "2",
    .install_snapshot ⟨5, 7, 4, ⟨[⟨1, "1", true⟩]⟩, 1, ⟨768, 32⟩⟩⟩

/-- The message object a receiver hands to `uvDecodeMessage`. -/
def sampleBlank : raft_message :=
  ⟨0, 0, "", .request_vote ⟨0, 0, 0, 0⟩⟩

/-- The body of an AppendEntries message as `encodeAppendEntries` leaves it in
a block whose bytes were `ahead`: four u64, the count, the entry headers. -/
def appendEntriesBytes (p : raft_append_entries) (ahead : List Nat) : List Nat :=
  byteLE 8 p.term ++ (byteLE 8 p.prev_log_index ++ (byteLE 8 p.prev_log_term ++
    (byteLE 8 p.leader_commit ++ (byteLE 8 p.n_entries ++
      batchHeaderBytes p.entries (ahead.drop 40)))))

/-- The entry is of one of the three types and its payload length fits the
u32 of the entry header. -/
def entryEncodable (e : raft_entry) : Prop :=
  (e.type = RAFT_COMMAND ∨ e.type = RAFT_BARRIER ∨ e.type = RAFT_CHANGE) ∧ e.buf.len < 2 ^ 32

instance (e : raft_entry) : Decidable (entryEncodable e) := by
  unfold entryEncodable
  infer_instance

/-- What `uvEncodeMessage` returns for the sample RequestVote. -/
def sampleRequestVoteEncoded : EncodeOut :=
  ⟨0, some [uv_buf_t.heap
    [3, 0, 0, 0, 0, 0, 0, 0, 32, 0, 0, 0, 0, 0, 0, 0, 5, 0, 0, 0, 0, 0, 0, 0,
     2, 0, 0, 0, 0, 0, 0, 0, 7, 0, 0, 0, 0, 0, 0, 0, 4, 0, 0, 0, 0, 0, 0, 0] 48], some 1⟩

/-- The body of the sample AppendEntries as the encoder leaves it: the bytes
235, 236, 237 and 251, 252, 253 in the entry headers and the last eight bytes
are what the heap held. -/
def sampleAppendEntriesBody : List Nat :=
  [5, 0, 0, 0, 0, 0, 0, 0, 7, 0, 0, 0, 0, 0, 0, 0, 4, 0, 0, 0, 0, 0, 0, 0,
   6, 0, 0, 0, 0, 0, 0, 0, 2, 0, 0, 0, 0, 0, 0, 0,
   5, 0, 0, 0, 0, 0, 0, 0, 1, 235, 236, 237, 8, 0, 0, 0,
   5, 0, 0, 0, 0, 0, 0, 0, 2, 251, 252, 253, 0, 0, 0, 0, 2, 3, 4, 5, 6, 7, 8, 9]

/-- What `uvEncodeMessage` returns for the sample AppendEntries. -/
def sampleAppendEntriesEncoded : EncodeOut :=
  ⟨0, some [uv_buf_t.heap
    ([1, 0, 0, 0, 0, 0, 0, 0, 80, 0, 0, 0, 0, 0, 0, 0] ++ sampleAppendEntriesBody) 96,
    uv_buf_t.ref 512 8, uv_buf_t.ref 520 0], some 3⟩

/-- What `uvEncodeMessage` returns for the sample heartbeat: the preamble
announces a body of 48 bytes, the last eight bytes are what the heap held. -/
def sampleHeartbeatEncoded : EncodeOut :=
  ⟨0, some [uv_buf_t.heap
    [1, 0, 0, 0, 0, 0, 0, 0, 48, 0, 0, 0, 0, 0, 0, 0, 5, 0, 0, 0, 0, 0, 0, 0,
     7, 0, 0, 0, 0, 0, 0, 0, 4, 0, 0, 0, 0, 0, 0, 0, 6, 0, 0, 0, 0, 0, 0, 0,
     0, 0, 0, 0, 0, 0, 0, 0, 226, 227, 228, 229, 230, 231, 232, 233] 64], some 1⟩

/-- What `uvEncodeMessage` returns for the sample InstallSnapshot: the
preamble announces a body of 80 bytes; the encoded configuration takes 20 of
its 24 bytes, and the last eight bytes of the buffer are what the heap held. -/
def sampleInstallSnapshotEncoded : EncodeOut :=
  ⟨0, some [uv_buf_t.heap
    [5, 0, 0, 0, 0, 0, 0, 0, 80, 0, 0, 0, 0, 0, 0, 0, 5, 0, 0, 0, 0, 0, 0, 0,
     7, 0, 0, 0, 0, 0, 0, 0, 4, 0, 0, 0, 0, 0, 0, 0, 1, 0, 0, 0, 0, 0, 0, 0,
     24, 0, 0, 0, 0, 0, 0, 0, 1, 1, 0, 0, 0, 0, 0, 0, 0, 1, 0, 0, 0, 0, 0, 0, 0, 49, 0, 1,
     246, 247, 248, 249, 32, 0, 0, 0, 0, 0, 0, 0, 2, 3, 4, 5, 6, 7, 8, 9] 96,
    uv_buf_t.ref 768 32], some 2⟩

/-- A message whose type code is none of the five RPC type codes. -/
def sampleUnknownMessage : raft_message :=
  ⟨9, 2, "2", .request_vote ⟨5, 2, 7, 4⟩⟩

/-- A request of the stale term 2 that names no previous entry
(prev_log_index = 0), as a leader sends to a follower it knows nothing about. -/
def sampleStaleProbe : raft_append_entries := ⟨2, 0, 0, 2, []⟩

/-! ## Payloads of a batch (uv_encoding.c) -/

/-- The loop of `uvDecodeEntriesBatch` over the entries that are left, the
cursor being an address. -/
def uvDecodeEntriesBatch_loop (buf : raft_buffer) : List raft_entry → Nat → List raft_entry
  | [], _ => []
  | entry :: rest, cursor =>
    if entry.buf.len = 0 then
      ⟨entry.term, entry.type, ⟨0, entry.buf.len⟩, buf.base⟩ ::
        uvDecodeEntriesBatch_loop buf rest cursor
    else
      ⟨entry.term, entry.type, ⟨cursor, entry.buf.len⟩, buf.base⟩ ::
        uvDecodeEntriesBatch_loop buf rest
          (if entry.buf.len % 8 ≠ 0 then cursor + entry.buf.len + (8 - entry.buf.len % 8)
           else cursor + entry.buf.len)

/-- The function `uvDecodeEntriesBatch` of uv_encoding.c on an array `entries`
of which the first `n` slots are walked; an array shorter than `n` is walked
past its end. -/
def uvDecodeEntriesBatch (buf : raft_buffer) (entries : List raft_entry) (n : Nat) :
    Option (List raft_entry) :=
  if entries.length < n then none
  else some (uvDecodeEntriesBatch_loop buf (entries.take n) buf.base ++ entries.drop n)

/-- The offset at which the claim places the payload of entry `i`: the sum over
the entries before it of their lengths, each rounded up to a multiple of 8. -/
def payloadOffset (entries : List raft_entry) (i : Nat) : Nat :=
  ((entries.take i).map fun e => bytePad64 e.buf.len).sum

/-- A batch of three entries with payloads of 5, 0 and 16 bytes, as
`uvDecodeBatchHeader` leaves them, followed by a slot that is not part of the
batch. -/
def sampleBatchEntries : List raft_entry :=
  [⟨5, RAFT_COMMAND, ⟨4096, 5⟩, 4096⟩, ⟨5, RAFT_BARRIER, ⟨4097, 0⟩, 4096⟩,
   ⟨6, RAFT_COMMAND, ⟨4098, 16⟩, 4096⟩, ⟨9, 0, ⟨4099, 77⟩, 4096⟩]

/-- The configuration of the case `encode/two_servers` of
`test_configuration.c`. -/
def sampleTwoServers : raft_configuration :=
  ⟨[⟨1, "127.0.0.1:666", false⟩, ⟨2, "192.168.1.1:666", true⟩]⟩

/-- The encoding of the two sample servers on the sample heap: 57 bytes and 7
bytes of padding, which are what the heap held. -/
def sampleTwoServersBytes : List Nat :=
  [1, 2, 0, 0, 0, 0, 0, 0, 0,
   1, 0, 0, 0, 0, 0, 0, 0, 49, 50, 55, 46, 48, 46, 48, 46, 49, 58, 54, 54, 54, 0, 0,
   2, 0, 0, 0, 0, 0, 0, 0, 49, 57, 50, 46, 49, 54, 56, 46, 49, 46, 49, 58, 54, 54, 54, 0, 1,
   227, 228, 229, 230, 231, 232, 233]

/-- A batch header with count 2: the header of a command of term 5 with a
payload of 8 bytes, then a header of term 5 whose type byte is 7. -/
def sampleBadTypeBatch : List Nat :=
  [2, 0, 0, 0, 0, 0, 0, 0,
   5, 0, 0, 0, 0, 0, 0, 0, 1, 0, 0, 0, 8, 0, 0, 0,
   5, 0, 0, 0, 0, 0, 0, 0, 7, 0, 0, 0, 0, 0, 0, 0]

/-- The body of an AppendEntries message of term 5 that carries the batch
header with the bad type byte. -/
def sampleBadTypeBody : List Nat :=
  [5, 0, 0, 0, 0, 0, 0, 0, 7, 0, 0, 0, 0, 0, 0, 0, 4, 0, 0, 0, 0, 0, 0, 0,
   6, 0, 0, 0, 0, 0, 0, 0] ++ sampleBadTypeBatch

/-! ## Ring logger (logger_ring.c)

The ring is the record `struct ring` with the bytes of `buf`; offsets into the
buffer are natural numbers. The formatted text of a message is a list of
bytes. A failed `assert` gives `none`. -/

/-- The macro `METADATA_SIZE`, `sizeof(uint64_t) + sizeof(uint8_t) +
sizeof(uint8_t)`, where it is used as a summand or on its own. The macro has no
parentheses: where it is subtracted, in `r->size - METADATA_SIZE`, the
expansion is `r->size - 8 + 1 + 1`, written out at those places. -/
def METADATA_SIZE : Nat := 8 + 1 + 1

/-- The buffer after `ws` has been stored at offset `w`. -/
def writeAt (buf : List Nat) (w : Nat) (ws : List Nat) : List Nat :=
  buf.take w ++ (ws ++ buf.drop (w + ws.length))

/-- There is no entry at offset `d`: no room for the metadata, or a dummy
entry. -/
def noEntryAt (buf : List Nat) (size d : Nat) : Prop :=
  d + METADATA_SIZE > size ∨
    (d + METADATA_SIZE ≤ size ∧ (buf.drop d).take METADATA_SIZE = List.replicate METADATA_SIZE 0)

/-- The header of an AppendEntries of term 5 with two commands, whose payloads
have 5 and 8 bytes. -/
def sampleOddHeader : List Nat :=
  [5, 0, 0, 0, 0, 0, 0, 0, 7, 0, 0, 0, 0, 0, 0, 0, 4, 0, 0, 0, 0, 0, 0, 0,
   6, 0, 0, 0, 0, 0, 0, 0, 2, 0, 0, 0, 0, 0, 0, 0,
   5, 0, 0, 0, 0, 0, 0, 0, 1, 0, 0, 0, 5, 0, 0, 0,
   5, 0, 0, 0, 0, 0, 0, 0, 1, 0, 0, 0, 8, 0, 0, 0]

/-- The entries that `uvDecodeMessage` decodes from the sample header on the
sample heap. -/
def sampleOddEntries : List raft_entry :=
  [⟨5, RAFT_COMMAND, ⟨4096, 5⟩, 4096⟩, ⟨5, RAFT_COMMAND, ⟨4097, 8⟩, 4096⟩]

/-- A snapshot at index 100 of term 3 with two voting servers, its
configuration being the one of index 1, and one buffer of 16 bytes. -/
def sampleSnapshot : raft_snapshot :=
  ⟨100, 3, ⟨[⟨1, "1", true⟩, ⟨2, "2", true⟩]⟩, 1, [⟨200, 16⟩]⟩

/-! ## Definitions for the promotion of a server that has caught up -/

/-- Modelled from the spec: `replicationTrigger` (`replication.h`) does not
touch the fields of the catch-up round of a promotion. -/
structure ReplicationTriggerRoundFrame (d : Deps) : Prop where
  promotee_id : ∀ r i,
    (d.replicationTrigger r i).r.leader_state.promotee_id = r.leader_state.promotee_id
  round_number : ∀ r i,
    (d.replicationTrigger r i).r.leader_state.round_number = r.leader_state.round_number
  round_index : ∀ r i,
    (d.replicationTrigger r i).r.leader_state.round_index = r.leader_state.round_index
  round_start : ∀ r i,
    (d.replicationTrigger r i).r.leader_state.round_start = r.leader_state.round_start

/-- The sample leader once server 3, which is not voting, has caught up: its
match index is the last index 5 of the log. -/
def sampleCaughtUp : raft :=
  { sampleLeader with
    leader_state := { sampleLeader.leader_state with
      progress := [⟨1, 6, 5, 0, 0, true⟩, ⟨1, 6, 5, 0, 900, true⟩, ⟨1, 6, 5, 0, 900, true⟩] } }

/-- Sample collaborators whose `logAppendConfiguration` runs out of memory. -/
def sampleDepsAppendFails : Deps :=
  { sampleDeps with alloc_fails := fun s => decide (s = AllocSite.logAppendConfiguration) }

/-- The sample leader after the promotion of server 3 has failed for lack of
memory: the request 600 is still recorded as the pending change. -/
def sampleFailedPromotion : raft :=
  { sampleCaughtUp with
    leader_state := { sampleCaughtUp.leader_state with change := some 600 } }

/-- Outcome of the sample leader promoting server 3, which has caught up. -/
def samplePromoted : ClientOut where
  rv := 0
  r := { sampleCaughtUp with
    configuration := ⟨[⟨1, "1", true⟩, ⟨2, "2", true⟩, ⟨3, "3", true⟩]⟩,
    log := { sampleLog with
      entries := sampleLog.entries ++ [⟨3, RAFT_CHANGE, ⟨8192, 112⟩, 0⟩] },
    configuration_uncommitted_index := 6,
    leader_state := { sampleCaughtUp.leader_state with
      change := some 600, requests := [500, 600] } }
  req := ⟨77, RAFT_CHANGE, 6, 9⟩

/-! ## Definitions for the messages sent by `recvAppendEntries` -/

/-- Modelled from the spec: the step down of a candidate, the leader update and
`replicationAppend` (`convert.h`, `recv.h`, `replication.h`) leave
`current_term` alone; only term reconciliation changes it. -/
structure RecvKeepsTerm (d : Deps) : Prop where
  convert : ∀ r, (d.convertToFollower r).current_term = r.current_term
  update : ∀ r id address, (d.recvUpdateLeader r id address).r.current_term = r.current_term
  append : ∀ r args rejected,
    (d.replicationAppend r args rejected).r.current_term = r.current_term

/-- The call of `recvAppendEntries` gets as far as `replicationAppend`: term
reconciliation succeeds and does not report a stale term, the leader update
succeeds, and the entries are not ignored on behalf of a snapshot install. -/
def recvAppendEntries_appends (d : Deps) (r : raft) (id : Nat) (address : String)
    (args : raft_append_entries) : Prop :=
  (d.recvEnsureMatchingTerms r args.term).rv = 0 ∧
  0 ≤ (d.recvEnsureMatchingTerms r args.term).mtch ∧
  (d.recvUpdateLeader (recvAppendEntries_reconciled d r args) id address).rv = 0 ∧
  ¬ ((recvAppendEntries_accepted d (recvAppendEntries_reconciled d r args) id
      address).snapshot_put_data ≠ 0 ∧ args.n_entries > 0)

/-- What `replicationAppend` returns when `recvAppendEntries` calls it. -/
def recvAppendEntries_appended (d : Deps) (r : raft) (id : Nat) (address : String)
    (args : raft_append_entries) : AppendOut :=
  d.replicationAppend
    (recvAppendEntries_accepted d (recvAppendEntries_reconciled d r args) id address) args
    args.prev_log_index

/-- The call of `recvAppendEntries` gets to the label `reply:` either because
the term of the request is stale, or because `replicationAppend` has succeeded
without deferring the reply. -/
def recvAppendEntries_replies (d : Deps) (r : raft) (id : Nat) (address : String)
    (args : raft_append_entries) : Prop :=
  ((d.recvEnsureMatchingTerms r args.term).rv = 0 ∧
    (d.recvEnsureMatchingTerms r args.term).mtch < 0) ∨
  (recvAppendEntries_appends d r id address args ∧
    (recvAppendEntries_appended d r id address args).rv = 0 ∧
    (recvAppendEntries_appended d r id address args).async = false)

/-- Outcome of the sample follower (term 3, last_stored 3) accepting a
heartbeat of its own term from server 1 at time 1000. -/
def sampleAck : RecvOut where
  rv := 0
  r := recvAppendEntries_accepted sampleDeps sampleFollower 1 "1"
  sends := [resultMessage 1 "1" 3 0 3]

/-! ## `src/src/recv_append_entries_result.c` -/

/-- The functions of `replication.h` that `recvAppendEntriesResult` calls. -/
inductive ResultCall where
  | replicationUpdate
  | replicationQuorum
  | replicationApply
deriving DecidableEq, Repr

/-- The environment of `recvAppendEntriesResult`: the collaborators of `Deps`
and the functions of `replication.h` that handle a result, whose bodies are
not among the sources.

* `replicationUpdate r server result` updates the progress of the server and
  may send further entries;
* `replicationQuorum r index` commits entries if a quorum has them;
* `replicationApply r` applies the committed entries. -/
structure ResultDeps extends Deps where
  replicationUpdate : raft → raft_server → raft_append_entries_result → StepOut
  replicationQuorum : raft → raft_index → raft
  replicationApply : raft → StepOut

/-- Outcome of `recvAppendEntriesResult`: return code, the server afterwards
and the functions of `replication.h` called on the way, in order. -/
structure ResultOut where
  rv : Int
  r : raft
  calls : List ResultCall

/-- Embedding of `recvAppendEntriesResult`. -/
def recvAppendEntriesResult (d : ResultDeps) (r : raft) (id : Nat) (_address : String)
    (result : raft_append_entries_result) : Option ResultOut :=
  if ¬ (id > 0) then none else
  if r.state ≠ RAFT_LEADER then some ⟨0, r, []⟩ else
  let e := d.recvEnsureMatchingTerms r result.term
  if e.rv ≠ 0 then some ⟨e.rv, e.r, []⟩ else
  if e.mtch < 0 then some ⟨0, e.r, []⟩ else
  if e.mtch > 0 then
    if ¬ (e.r.state = RAFT_FOLLOWER) then none else some ⟨0, e.r, []⟩
  else
  if ¬ (result.term = e.r.current_term) then none else
  match configurationGet e.r.configuration id with
  | none => some ⟨0, e.r, []⟩
  | some server =>
    let u := d.replicationUpdate e.r server result
    if u.rv ≠ 0 then some ⟨u.rv, u.r, [.replicationUpdate]⟩ else
    if u.r.state ≠ RAFT_LEADER then some ⟨0, u.r, [.replicationUpdate]⟩ else
    let q := d.replicationQuorum u.r result.last_log_index
    let a := d.replicationApply q
    if a.rv ≠ 0 then
      some ⟨a.rv, a.r, [.replicationUpdate, .replicationQuorum, .replicationApply]⟩
    else some ⟨0, a.r, [.replicationUpdate, .replicationQuorum, .replicationApply]⟩

/-- Modelled from the spec: contract of `recvEnsureMatchingTerms` (`recv.h`)
for the terms that are not stale. An equal term is reported with `match = 0`
without touching the server. A higher term is adopted durably and the server
steps down to follower, which is reported with a positive `match`, the commit
index and the last applied index being untouched; when the term cannot be
made durable the function fails. -/
structure EnsureMatchingTermsStepDown (d : Deps) : Prop where
  equal : ∀ r,
    (d.recvEnsureMatchingTerms r r.current_term).rv = 0 ∧
    (d.recvEnsureMatchingTerms r r.current_term).mtch = 0 ∧
    (d.recvEnsureMatchingTerms r r.current_term).r = r
  higher : ∀ r t, r.current_term < t → (d.recvEnsureMatchingTerms r t).rv = 0 →
    0 < (d.recvEnsureMatchingTerms r t).mtch ∧
    (d.recvEnsureMatchingTerms r t).r.state = RAFT_FOLLOWER ∧
    (d.recvEnsureMatchingTerms r t).r.current_term = t ∧
    (d.recvEnsureMatchingTerms r t).r.commit_index = r.commit_index ∧
    (d.recvEnsureMatchingTerms r t).r.last_applied = r.last_applied

/-- Sample handling of a result: the progress of the server records the index
it has reached, an index held by the log is committed, and what is committed
is applied. -/
def sampleResultDeps : ResultDeps where
  toDeps := sampleDeps
  replicationUpdate := fun r server result =>
    ⟨0, { r with leader_state := { r.leader_state with
      progress := r.leader_state.progress.modify
        (fun p => { p with match_index := max p.match_index result.last_log_index,
                           recent_recv := true })
        (configurationIndexOf r.configuration server.id) } }⟩
  replicationQuorum := fun r index =>
    if r.commit_index < index ∧ index ≤ logLastIndex r.log then { r with commit_index := index }
    else r
  replicationApply := fun r => ⟨0, { r with last_applied := r.commit_index }⟩

/-- The sample collaborators with a disk that refuses to store a new term:
term reconciliation fails with an I/O error when the term is higher. -/
def sampleResultDepsTermFails : ResultDeps :=
  { sampleResultDeps with
    recvEnsureMatchingTerms := fun r t =>
      if r.current_term < t then ⟨RAFT_IOERR, 1, r⟩ else sampleEnsure r t }

/-! ## `snapshotCopy` (`src/src/snapshot.c`) -/

/-- The heap and the memory as `snapshotCopy` finds them.

* `nomem` tells whether `configurationCopy` runs out of memory;
* `bufs` is the address returned by `raft_malloc(sizeof *dst->bufs)` and
  `base` the one returned by `raft_malloc(size)` (`0` for `NULL`);
* `heap_fill i` is the byte that the block at `base` holds at offset `i` when
  it is handed out;
* `mem a` is the byte at address `a` before the call. -/
structure CopyEnv where
  nomem : Bool
  bufs : Nat
  base : Nat
  heap_fill : Nat → Nat
  mem : Nat → Nat

/-- The bytes that a buffer points at. -/
def CopyEnv.read (env : CopyEnv) (buf : raft_buffer) : List Nat :=
  (List.range buf.len).map fun i => env.mem (buf.base + i)

/-- The first loop of `snapshotCopy`: the lengths of the buffers added up in
`size_t`. -/
def snapshotCopy_size (bufs : List raft_buffer) (size : Nat) : Nat :=
  bufs.foldl (fun size buf => (size + buf.len) % 2 ^ 64) size

/-- The second loop of `snapshotCopy`: each buffer is copied to the cursor,
which then moves past it. -/
def snapshotCopy_loop (env : CopyEnv) : List raft_buffer → WriteCursor → Option WriteCursor
  | [], cursor => some cursor
  | buf :: rest, cursor =>
    (cursorStore cursor (env.read buf)).bind fun c =>
    (cursorAdd c buf.len).bind fun c =>
    snapshotCopy_loop env rest c

/-- Outcome of `snapshotCopy`: the return code; the destination, `dst.bufs`
being the array that `dst->bufs` points at; the field `dst->n_bufs`, which the
function only sets at its end; and the bytes of the block that
`dst->bufs[0].base` points at, if there is one. -/
structure CopyOut where
  rv : Int
  dst : raft_snapshot
  n_bufs : Nat
  data : Option (List Nat)
deriving DecidableEq, Repr

/-- Embedding of `snapshotCopy`; `dst` is the destination as the caller hands
it over. -/
def snapshotCopy (env : CopyEnv) (src dst : raft_snapshot) : Option CopyOut :=
  let dst1 : raft_snapshot := { dst with term := src.term, index := src.index }
  let c := configurationCopy env.nomem src.configuration
  if c.1 ≠ 0 then some ⟨c.1, { dst1 with configuration := c.2 }, dst.bufs.length, none⟩ else
  let size := snapshotCopy_size src.bufs 0
  if ¬ (env.bufs ≠ 0) then none else
  let dst2 : raft_snapshot := { dst1 with configuration := c.2, bufs := [⟨env.base, size⟩] }
  if env.base = 0 then some ⟨RAFT_NOMEM, dst2, dst.bufs.length, none⟩ else
  (snapshotCopy_loop env src.bufs ⟨[], (List.range size).map env.heap_fill⟩).bind fun cursor =>
  some ⟨0, dst2, 1, some cursor.bytes⟩

/-- A heap on which the allocations of `snapshotCopy` succeed, over a memory
that holds the byte `a % 251` at address `a`. -/
def sampleCopyEnv : CopyEnv :=
  ⟨false, 12288, 16384, fun i => 170 + i, fun a => a % 251⟩

/-- A snapshot at index 100 of term 3 whose content is in two buffers, of 3
bytes at address 200 and of 2 bytes at address 300; its configuration was
committed at index 7. -/
def sampleSnapshotTwoBufs : raft_snapshot :=
  ⟨100, 3, ⟨[⟨1, "1", true⟩, ⟨2, "2", true⟩]⟩, 7, [⟨200, 3⟩, ⟨300, 2⟩]⟩

/-- A destination that holds values of its own. -/
def sampleSnapshotDst : raft_snapshot :=
  ⟨9, 9, ⟨[⟨9, "9", false⟩]⟩, 77, [⟨400, 4⟩, ⟨500, 4⟩]⟩

/-! ## Facts about the sample environment -/

/-- The sample term reconciliation meets its contract. -/
theorem sampleDeps_ensure : EnsureMatchingTermsSpec sampleDeps := by
  constructor
  · intro r t h
    simp [sampleDeps, sampleEnsure, h]
  · intro r t h
    simp only [sampleDeps, sampleEnsure]
    split_ifs with h1 h2
    · exact absurd h1 (Nat.not_lt.mpr h)
    · exact Int.le_of_lt Int.one_pos
    · exact Int.le_refl 0

/-! ## Paths through `recvAppendEntries` -/

/-- The reply block sends at most the one message it builds. -/
theorem recvAppendEntries_reply_sends (d : Deps) (r : raft) (id : Nat) (address : String)
    (rejected last_log_index : raft_index) (msg : raft_message)
    (h : msg ∈ (recvAppendEntries_reply d r id address rejected last_log_index).sends) :
    msg = resultMessage id address r.current_term rejected last_log_index := by
  simp only [recvAppendEntries_reply] at h
  split_ifs at h with h1 h2
  · simp at h
  · simpa [resultMessage] using h
  · simpa [resultMessage] using h

/-- The reply block leaves the server alone. -/
theorem recvAppendEntries_reply_r (d : Deps) (r : raft) (id : Nat) (address : String)
    (rejected last_log_index : raft_index) :
    (recvAppendEntries_reply d r id address rejected last_log_index).r = r := by
  simp only [recvAppendEntries_reply]
  split_ifs <;> rfl

/-- After `replicationAppend` the server is left as that function returned it. -/
theorem recvAppendEntries_append_r (d : Deps) (r : raft) (id : Nat) (address : String)
    (args : raft_append_entries) :
    (recvAppendEntries_append d r id address args).r =
      (d.replicationAppend r args args.prev_log_index).r := by
  simp only [recvAppendEntries_append]
  split_ifs
  · rfl
  · rfl
  · exact recvAppendEntries_reply_r _ _ _ _ _ _

/-- Every message sent after `replicationAppend` is the reply, which echoes the
`rejected` value set by `replicationAppend` and the stored index. -/
theorem recvAppendEntries_append_sends (d : Deps) (r : raft) (id : Nat) (address : String)
    (args : raft_append_entries) (msg : raft_message)
    (h : msg ∈ (recvAppendEntries_append d r id address args).sends) :
    msg = resultMessage id address (d.replicationAppend r args args.prev_log_index).r.current_term
      (d.replicationAppend r args args.prev_log_index).rejected
      (d.replicationAppend r args args.prev_log_index).r.last_stored := by
  simp only [recvAppendEntries_append] at h
  split_ifs at h with h1 h2
  · simp at h
  · simp at h
  · exact recvAppendEntries_reply_sends _ _ _ _ _ _ _ h

/-- When the term of the request is not reported as stale, a call that returns
went through `recvAppendEntries_follow`, unless term reconciliation failed. -/
theorem recvAppendEntries_fresh (d : Deps) (r : raft) (id : Nat) (address : String)
    (args : raft_append_entries) (out : RecvOut)
    (hout : recvAppendEntries d r id address args = some out)
    (hm : 0 ≤ (d.recvEnsureMatchingTerms r args.term).mtch) :
    (out.rv ≠ 0 ∧ out.sends = [] ∧ out.r = (d.recvEnsureMatchingTerms r args.term).r) ∨
    recvAppendEntries_follow d (recvAppendEntries_reconciled d r args) id address args =
      some out := by
  have hnot : ¬ (d.recvEnsureMatchingTerms r args.term).mtch < 0 := not_lt.mpr hm
  simp only [recvAppendEntries] at hout
  split_ifs at hout with h1 h2 h3 h4 h5
  · left
    simp only [Option.some.injEq] at hout
    subst hout
    exact ⟨h2, rfl, rfl⟩
  · right
    exact hout

/-- The ways in which `recvAppendEntries_follow` returns: the leader update
fails; the entries are ignored because a snapshot is being installed; or
`replicationAppend` is called. -/
theorem recvAppendEntries_follow_cases (d : Deps) (r : raft) (id : Nat) (address : String)
    (args : raft_append_entries) (out : RecvOut)
    (hout : recvAppendEntries_follow d r id address args = some out) :
    r.state = RAFT_FOLLOWER ∧
    ((out.rv ≠ 0 ∧ out.sends = [] ∧ out.r = (d.recvUpdateLeader r id address).r) ∨
     ((recvAppendEntries_accepted d r id address).snapshot_put_data ≠ 0 ∧
        args.n_entries > 0 ∧ out = ⟨0, recvAppendEntries_accepted d r id address, []⟩) ∨
     (¬ ((recvAppendEntries_accepted d r id address).snapshot_put_data ≠ 0 ∧
          args.n_entries > 0) ∧
        out = recvAppendEntries_append d (recvAppendEntries_accepted d r id address) id address
          args)) := by
  simp only [recvAppendEntries_follow] at hout
  split_ifs at hout with h1 h2 h3
  · simp only [Option.some.injEq] at hout
    subst hout
    exact ⟨h1, Or.inl ⟨h2, rfl, rfl⟩⟩
  · simp only [Option.some.injEq] at hout
    exact ⟨h1, Or.inr (Or.inl ⟨h3.1, h3.2, hout.symm⟩)⟩
  · simp only [Option.some.injEq] at hout
    exact ⟨h1, Or.inr (Or.inr ⟨h3, hout.symm⟩)⟩

/-! ## AppendEntries with a stale term -/

/-- C1 (amended): for every server and every AppendEntries request from a
sender with a positive id whose term is lower than the local current term,
recvAppendEntries returns with the server unchanged; when the allocation of
the send request succeeds it hands exactly one message to the send method of
the I/O backend, an AppendEntriesResult for the sender carrying the local
current term, rejected = prev_log_index and last_log_index = the last index of
the local log, and returns the code of the send; when the allocation fails it
sends nothing and returns RAFT_NOMEM. -/
theorem C1_recvAppendEntries_stale_term (d : Deps) (r : raft) (id : Nat) (address : String)
    (args : raft_append_entries) (hspec : EnsureMatchingTermsSpec d) (hid : 0 < id)
    (hstale : args.term < r.current_term) :
    ∃ out, recvAppendEntries d r id address args = some out ∧ out.r = r ∧
      (d.raft_malloc sizeof_raft_io_send ≠ 0 →
        out.sends = [resultMessage id address r.current_term args.prev_log_index
          (logLastIndex r.log)] ∧
        out.rv = d.io_send (resultMessage id address r.current_term args.prev_log_index
          (logLastIndex r.log))) ∧
      (d.raft_malloc sizeof_raft_io_send = 0 → out.sends = [] ∧ out.rv = RAFT_NOMEM) := by
  obtain ⟨h1, h2, h3⟩ := hspec.stale r args.term hstale
  have hid2 : id > 0 := hid
  simp only [recvAppendEntries, hid2, not_true_eq_false, if_false, h1, ne_eq, h2, if_true, h3]
  refine ⟨_, rfl, ?_, ?_, ?_⟩
  · simp only [recvAppendEntries_reply]
    split_ifs <;> rfl
  · intro hm
    simp only [recvAppendEntries_reply, hm, if_false, resultMessage]
    split_ifs with h0
    · exact ⟨rfl, rfl⟩
    · refine ⟨rfl, ?_⟩
      simp only [ne_eq, not_not] at h0
      exact h0.symm
  · intro hm
    simp only [recvAppendEntries_reply, hm, if_true, and_self]

/-- C1, instance: the sample follower (term 3, last index 5) answers a request
of term 2 from server 1 with one rejection carrying term 3, rejected 4 and
last_log_index 5, and stays as it was. -/
theorem C1_recvAppendEntries_stale_term_witness :
    ∃ out, recvAppendEntries sampleDeps sampleFollower 1 "1" ⟨2, 4, 2, 2, []⟩ = some out ∧
      out.r = sampleFollower ∧
      (sampleDeps.raft_malloc sizeof_raft_io_send ≠ 0 →
        out.sends = [resultMessage 1 "1" sampleFollower.current_term 4
          (logLastIndex sampleFollower.log)] ∧
        out.rv = sampleDeps.io_send (resultMessage 1 "1" sampleFollower.current_term 4
          (logLastIndex sampleFollower.log))) ∧
      (sampleDeps.raft_malloc sizeof_raft_io_send = 0 → out.sends = [] ∧ out.rv = RAFT_NOMEM) :=
  C1_recvAppendEntries_stale_term sampleDeps sampleFollower 1 "1" ⟨2, 4, 2, 2, []⟩
    sampleDeps_ensure (by decide) (by decide)

/-- C1, counterexample: when the allocation of the send request fails, the
sample follower (term 3) answers the request of term 2 with no message at all
and returns RAFT_NOMEM. -/
theorem C1_counterexample_no_reply_on_nomem :
    (⟨2, 4, 2, 2, []⟩ : raft_append_entries).term < sampleFollower.current_term ∧
    (recvAppendEntries { sampleDeps with raft_malloc := fun _ => 0 } sampleFollower 1 "1"
        ⟨2, 4, 2, 2, []⟩).map (fun out => (out.rv, out.sends)) = some (RAFT_NOMEM, []) := by
  constructor
  · decide
  · rfl

/-! ## AppendEntries that fails the consistency check -/

/-- C2 (amended): for every server and every AppendEntries request whose term
is not lower than the local term and for which replicationAppend reports
rejected = prev_log_index, every message sent by recvAppendEntries is an
AppendEntriesResult for the sender carrying the current term, rejected =
prev_log_index and last_log_index equal to last_stored, the highest index
persisted on disk, as replicationAppend left it. -/
theorem C2_recvAppendEntries_rejection_reply (d : Deps) (r : raft) (id : Nat)
    (address : String) (args : raft_append_entries) (out : RecvOut) (msg : raft_message)
    (hspec : EnsureMatchingTermsSpec d) (hfresh : r.current_term ≤ args.term)
    (hrej : (d.replicationAppend
        (recvAppendEntries_accepted d (recvAppendEntries_reconciled d r args) id address)
        args args.prev_log_index).rejected = args.prev_log_index)
    (hout : recvAppendEntries d r id address args = some out)
    (hmsg : msg ∈ out.sends) :
    out.r = (d.replicationAppend
        (recvAppendEntries_accepted d (recvAppendEntries_reconciled d r args) id address)
        args args.prev_log_index).r ∧
    msg = resultMessage id address out.r.current_term args.prev_log_index
      out.r.last_stored := by
  rcases recvAppendEntries_fresh d r id address args out hout (hspec.fresh r args.term hfresh)
    with ⟨_, h0, _⟩ | hfollow
  · rw [h0] at hmsg
    simp at hmsg
  · obtain ⟨_, ⟨_, h0, _⟩ | ⟨_, _, h0⟩ | ⟨_, h0⟩⟩ :=
      recvAppendEntries_follow_cases d _ id address args out hfollow
    · rw [h0] at hmsg
      simp at hmsg
    · rw [h0] at hmsg
      simp at hmsg
    · have hr := recvAppendEntries_append_r d
        (recvAppendEntries_accepted d (recvAppendEntries_reconciled d r args) id address)
        id address args
      rw [← h0] at hr
      rw [h0] at hmsg
      have hm := recvAppendEntries_append_sends d _ id address args msg hmsg
      rw [hrej, ← hr] at hm
      exact ⟨hr, hm⟩

/-- C2, instance: the sample follower (last index 5, last_stored 3) rejects a
request of its own term whose previous entry has index 7. -/
theorem C2_recvAppendEntries_rejection_reply_witness :
    recvAppendEntries sampleDeps sampleFollower 1 "1" ⟨3, 7, 3, 2, []⟩ = some sampleRejection ∧
    sampleRejection.r = (sampleDeps.replicationAppend
        (recvAppendEntries_accepted sampleDeps
          (recvAppendEntries_reconciled sampleDeps sampleFollower ⟨3, 7, 3, 2, []⟩) 1 "1")
        ⟨3, 7, 3, 2, []⟩ 7).r ∧
    resultMessage 1 "1" 3 7 3 = resultMessage 1 "1" sampleRejection.r.current_term 7
      sampleRejection.r.last_stored :=
  ⟨rfl, C2_recvAppendEntries_rejection_reply sampleDeps sampleFollower 1 "1" ⟨3, 7, 3, 2, []⟩
    sampleRejection (resultMessage 1 "1" 3 7 3) sampleDeps_ensure (by decide) rfl rfl
    (List.mem_singleton.mpr rfl)⟩

/-- C2, counterexample: the sample follower holds entries up to index 5, of
which the first 3 are stored. A request of its own term with prev_log_index 7
fails the consistency check on the spot, and the reply carries rejected = 7
with last_log_index = 3, not the last index 5 of the log. -/
theorem C2_counterexample_hint_is_last_stored :
    (sampleDeps.replicationAppend sampleRejection.r ⟨3, 7, 3, 2, []⟩ 7).rejected = 7 ∧
    (sampleDeps.replicationAppend sampleRejection.r ⟨3, 7, 3, 2, []⟩ 7).async = false ∧
    (recvAppendEntries sampleDeps sampleFollower 1 "1" ⟨3, 7, 3, 2, []⟩).map
      (fun out => (out.sends, logLastIndex out.r.log)) =
      some ([resultMessage 1 "1" 3 7 3], 5) ∧
    logLastIndex sampleFollower.log = 5 :=
  ⟨rfl, rfl, rfl, rfl⟩

/-! ## AppendEntries during a snapshot install -/

/-- The sample collaborators do not edit the log before the append. -/
theorem sampleDeps_keeps_log : RecvPreambleKeepsLog sampleDeps := by
  constructor
  · intro r t
    simp only [sampleDeps, sampleEnsure]
    split_ifs <;> rfl
  · intro r
    rfl
  · intro r id address
    rfl

/-- C3 (amended): for every AppendEntries request whose term is not lower than
the local term and which carries at least one entry while a snapshot install
is in flight, recvAppendEntries sends no reply at all and does not touch the
log; when it returns 0 it has only recorded the leader and reset the election
timer, without calling replicationAppend. -/
theorem C3_recvAppendEntries_snapshot_in_flight (d : Deps) (r : raft) (id : Nat)
    (address : String) (args : raft_append_entries) (out : RecvOut)
    (hspec : EnsureMatchingTermsSpec d) (hlog : RecvPreambleKeepsLog d)
    (hfresh : r.current_term ≤ args.term)
    (hsnap : (recvAppendEntries_accepted d (recvAppendEntries_reconciled d r args) id
      address).snapshot_put_data ≠ 0)
    (hn : args.n_entries > 0)
    (hout : recvAppendEntries d r id address args = some out) :
    out.sends = [] ∧ out.r.log = r.log ∧
    (out.rv = 0 →
      out.r = recvAppendEntries_accepted d (recvAppendEntries_reconciled d r args) id
        address) := by
  have hrec : (recvAppendEntries_reconciled d r args).log = r.log := by
    simp only [recvAppendEntries_reconciled]
    split_ifs
    · rw [hlog.convert, hlog.ensure]
    · rw [hlog.ensure]
  rcases recvAppendEntries_fresh d r id address args out hout (hspec.fresh r args.term hfresh)
    with ⟨h1, h0, h2⟩ | hfollow
  · exact ⟨h0, by rw [h2, hlog.ensure], fun h => absurd h h1⟩
  · obtain ⟨_, ⟨h1, h0, h2⟩ | ⟨_, _, h0⟩ | ⟨h1, _⟩⟩ :=
      recvAppendEntries_follow_cases d _ id address args out hfollow
    · exact ⟨h0, by rw [h2, hlog.update, hrec], fun h => absurd h h1⟩
    · subst h0
      refine ⟨rfl, ?_, fun _ => rfl⟩
      show (recvAppendEntries_accepted d (recvAppendEntries_reconciled d r args) id
        address).log = r.log
      simp only [recvAppendEntries_accepted]
      rw [hlog.update, hrec]
    · exact absurd ⟨hsnap, hn⟩ h1

/-- C3, instance: the sample follower, installing a snapshot, receives one
entry from server 1: it returns 0, sends nothing and keeps its log. -/
theorem C3_recvAppendEntries_snapshot_in_flight_witness :
    recvAppendEntries sampleDeps sampleInstalling 1 "1" sampleEntries =
      some ⟨0, { sampleInstalling with election_timer_start := 1000 }, []⟩ ∧
    ((⟨0, { sampleInstalling with election_timer_start := 1000 }, []⟩ : RecvOut).sends = [] ∧
      (⟨0, { sampleInstalling with election_timer_start := 1000 }, []⟩ : RecvOut).r.log =
        sampleInstalling.log ∧
      ((⟨0, { sampleInstalling with election_timer_start := 1000 }, []⟩ : RecvOut).rv = 0 →
        (⟨0, { sampleInstalling with election_timer_start := 1000 }, []⟩ : RecvOut).r =
          recvAppendEntries_accepted sampleDeps
            (recvAppendEntries_reconciled sampleDeps sampleInstalling sampleEntries) 1 "1")) :=
  ⟨rfl, C3_recvAppendEntries_snapshot_in_flight sampleDeps sampleInstalling 1 "1" sampleEntries
    ⟨0, { sampleInstalling with election_timer_start := 1000 }, []⟩ sampleDeps_ensure
    sampleDeps_keeps_log (by decide) (by decide) (by decide) rfl⟩

/-- C3, counterexample: the sample follower has a snapshot install in flight
and receives a request of its own term carrying one entry; recvAppendEntries
returns 0 and hands no message to the I/O backend, so the sender gets no
reply. -/
theorem C3_counterexample_no_reply :
    sampleInstalling.snapshot_put_data = 4242 ∧ sampleEntries.n_entries = 1 ∧
    (recvAppendEntries sampleDeps sampleInstalling 1 "1" sampleEntries).map
      (fun out => (out.rv, out.sends)) = some (0, []) :=
  ⟨rfl, rfl, rfl⟩

/-! ## A valid AppendEntries makes the server a follower and resets the timer -/

/-- The sample leader update keeps the role. -/
theorem sampleDeps_update_role : UpdateLeaderKeepsRole sampleDeps := by
  intro r id address
  rfl

/-- The sample append keeps the role and the election timer. -/
theorem sampleDeps_append_frame : ReplicationAppendFrame sampleDeps := by
  constructor
  · intro r args rejected
    simp only [sampleDeps, sampleAppend]
    split_ifs <;> rfl
  · intro r args rejected
    simp only [sampleDeps, sampleAppend]
    split_ifs <;> rfl

/-- C4: for every server and every AppendEntries request whose term is at least
the local term, when recvAppendEntries returns 0 the server is in follower
state (a candidate has stepped down) and election_timer_start is the time
returned by the clock of the I/O backend during the call. -/
theorem C4_recvAppendEntries_follower_and_timer (d : Deps) (r : raft) (id : Nat)
    (address : String) (args : raft_append_entries) (out : RecvOut)
    (hspec : EnsureMatchingTermsSpec d) (hupd : UpdateLeaderKeepsRole d)
    (happ : ReplicationAppendFrame d)
    (hfresh : r.current_term ≤ args.term)
    (hout : recvAppendEntries d r id address args = some out)
    (hrv : out.rv = 0) :
    out.r.state = RAFT_FOLLOWER ∧ out.r.election_timer_start = d.io_time := by
  rcases recvAppendEntries_fresh d r id address args out hout (hspec.fresh r args.term hfresh)
    with ⟨h1, _, _⟩ | hfollow
  · exact absurd hrv h1
  · have hacc : ∀ r1 : raft, r1.state = RAFT_FOLLOWER →
        (recvAppendEntries_accepted d r1 id address).state = RAFT_FOLLOWER ∧
        (recvAppendEntries_accepted d r1 id address).election_timer_start = d.io_time := by
      intro r1 h
      refine ⟨?_, rfl⟩
      show (d.recvUpdateLeader r1 id address).r.state = RAFT_FOLLOWER
      rw [hupd, h]
    obtain ⟨hst, ⟨h1, _, _⟩ | ⟨_, _, h0⟩ | ⟨_, h0⟩⟩ :=
      recvAppendEntries_follow_cases d _ id address args out hfollow
    · exact absurd hrv h1
    · subst h0
      exact hacc _ hst
    · have hr := recvAppendEntries_append_r d
        (recvAppendEntries_accepted d (recvAppendEntries_reconciled d r args) id address)
        id address args
      rw [← h0] at hr
      rw [hr, happ.state, happ.timer]
      exact hacc _ hst

/-- C4, instance: the sample candidate receives a heartbeat of its own term
from server 1 at time 1000; it steps down and restarts its election timer. -/
theorem C4_recvAppendEntries_follower_and_timer_witness :
    recvAppendEntries sampleDeps sampleCandidate 1 "1" ⟨3, 5, 3, 2, []⟩ = some sampleStepDown ∧
    sampleCandidate.state = RAFT_CANDIDATE ∧
    (sampleStepDown.r.state = RAFT_FOLLOWER ∧
      sampleStepDown.r.election_timer_start = sampleDeps.io_time) :=
  ⟨rfl, rfl, C4_recvAppendEntries_follower_and_timer sampleDeps sampleCandidate 1 "1"
    ⟨3, 5, 3, 2, []⟩ sampleStepDown sampleDeps_ensure sampleDeps_update_role
    sampleDeps_append_frame (by decide) rfl rfl⟩

/-! ## `raft_apply` and `raft_barrier` -/

/-- The sample trigger changes nothing on the server. -/
theorem sampleDeps_trigger_frame : ReplicationTriggerFrame sampleDeps :=
  ⟨fun _ _ => rfl, fun _ _ => rfl, fun _ _ => rfl, fun _ _ => rfl⟩

/-- A successful `logAppendCommands` has appended one command per buffer. -/
theorem logAppendCommands_ok (nomem : Bool) (kept : Nat) (l : raft_log) (term : raft_term)
    (bufs : List raft_buffer) (h : (logAppendCommands nomem kept l term bufs).1 = 0) :
    (logAppendCommands nomem kept l term bufs).2 =
      { l with entries := l.entries ++ bufs.map fun b => ⟨term, RAFT_COMMAND, b, 0⟩ } := by
  unfold logAppendCommands at h ⊢
  split_ifs at h ⊢ with hn
  · exact absurd h (by simp [RAFT_NOMEM])
  · rfl

/-- Truncating from the index that follows the old last index undoes an append. -/
theorem logTruncate_append (l : raft_log) (es : List raft_entry) :
    logTruncate { l with entries := l.entries ++ es } (logLastIndex l + 1) = l := by
  simp [logTruncate, logLastIndex, logNumEntries]

/-- Truncating after a `replicationTrigger` that followed an append gives the
log back. -/
theorem logTruncate_after_trigger (d : Deps) (htrig : ReplicationTriggerFrame d) (x : raft)
    (l : raft_log) (es : List raft_entry) (hx : x.log = { l with entries := l.entries ++ es }) :
    logTruncate (d.replicationTrigger x (logLastIndex l + 1)).r.log (logLastIndex l + 1) = l := by
  rw [htrig.log, hx]
  exact logTruncate_append _ _

/-- C5: for every server whose state is not leader, raft_apply (called with at
least one buffer) and raft_barrier return RAFT_NOTLEADER and leave the server,
hence its log and its queue of pending requests, and the request object
unchanged. -/
theorem C5_not_leader (d : Deps) (r : raft) (req : Nat) (obj : raft_request)
    (bufs : List raft_buffer) (cb : Nat) (hstate : r.state ≠ RAFT_LEADER)
    (hn : bufs.length > 0) :
    raft_apply d r req obj bufs cb = some ⟨RAFT_NOTLEADER, r, obj⟩ ∧
    raft_barrier d r req obj cb = ⟨RAFT_NOTLEADER, r, obj⟩ := by
  constructor
  · simp only [raft_apply, hn, not_true_eq_false, if_false, hstate, ne_eq, if_true, errExit]
    rfl
  · simp only [raft_barrier, hstate, ne_eq, not_false_eq_true, if_true]

/-- C5, instance: the sample follower refuses a command and a barrier. -/
theorem C5_not_leader_witness :
    raft_apply sampleDeps sampleFollower 600 sampleRequest [⟨104, 8⟩] 9 =
      some ⟨RAFT_NOTLEADER, sampleFollower, sampleRequest⟩ ∧
    raft_barrier sampleDeps sampleFollower 600 sampleRequest 9 =
      ⟨RAFT_NOTLEADER, sampleFollower, sampleRequest⟩ :=
  C5_not_leader sampleDeps sampleFollower 600 sampleRequest [⟨104, 8⟩] 9 (by decide) (by decide)

/-- C6: for every server and every non-empty array of buffers, when raft_apply
returns 0 the server is leader, the request has type RAFT_COMMAND and index
equal to the last index of the log before the call plus 1, the last index of
the log has grown by exactly the number of buffers, the new entries being
commands of the current term that carry the given buffers in order, and the
request has been pushed at the tail of the queue of pending requests. -/
theorem C6_raft_apply_success (d : Deps) (r : raft) (req : Nat) (obj : raft_request)
    (bufs : List raft_buffer) (cb : Nat) (out : ClientOut)
    (htrig : ReplicationTriggerFrame d)
    (hout : raft_apply d r req obj bufs cb = some out) (hrv : out.rv = 0) :
    r.state = RAFT_LEADER ∧
    out.req.type = RAFT_COMMAND ∧ out.req.index = logLastIndex r.log + 1 ∧
    logLastIndex out.r.log = logLastIndex r.log + bufs.length ∧
    out.r.log.entries =
      r.log.entries ++ bufs.map (fun b => ⟨r.current_term, RAFT_COMMAND, b, 0⟩) ∧
    out.r.leader_state.requests = r.leader_state.requests ++ [req] := by
  simp only [raft_apply, errExit] at hout
  split_ifs at hout with h1 h2 h3 h4 h5
  all_goals simp only [Option.some.injEq] at hout
  all_goals subst hout
  · exact absurd hrv h3
  · exact absurd hrv h4
  · exact absurd hrv h5
  · have ha := logAppendCommands_ok _ _ _ _ _ (not_not.mp h4)
    refine ⟨not_not.mp h2, rfl, rfl, ?_, ?_, ?_⟩
    · show logLastIndex (d.replicationTrigger _ _).r.log = _
      rw [htrig.log]
      simp only [ha, logLastIndex, logNumEntries, List.length_append, List.length_map]
      exact (Nat.add_assoc _ _ _).symm
    · show (d.replicationTrigger _ _).r.log.entries = _
      rw [htrig.log]
      simp only [ha]
    · show (d.replicationTrigger _ _).r.leader_state.requests = _
      rw [htrig.requests]
      rfl

/-- C6, instance: the sample leader (term 3, last index 5, one pending
request) accepts two commands: they become entries 6 and 7 and the request,
with index 6, joins the queue. -/
theorem C6_raft_apply_success_witness :
    raft_apply sampleDeps sampleLeader 600 sampleRequest [⟨104, 8⟩, ⟨112, 8⟩] 9 =
      some sampleApplied ∧
    (sampleLeader.state = RAFT_LEADER ∧
      sampleApplied.req.type = RAFT_COMMAND ∧ sampleApplied.req.index = 5 + 1 ∧
      logLastIndex sampleApplied.r.log = 5 + 2 ∧
      sampleApplied.r.log.entries = sampleLog.entries ++
        [⟨3, RAFT_COMMAND, ⟨104, 8⟩, 0⟩, ⟨3, RAFT_COMMAND, ⟨112, 8⟩, 0⟩] ∧
      sampleApplied.r.leader_state.requests = [500] ++ [600]) :=
  ⟨rfl, C6_raft_apply_success sampleDeps sampleLeader 600 sampleRequest [⟨104, 8⟩, ⟨112, 8⟩] 9
    sampleApplied sampleDeps_trigger_frame rfl rfl⟩

/-- A successful `logAppend` has appended the entry. -/
theorem logAppend_ok (nomem : Bool) (l : raft_log) (term : raft_term) (type : Nat)
    (buf : raft_buffer) (batch : Nat) (h : (logAppend nomem l term type buf batch).1 = 0) :
    (logAppend nomem l term type buf batch).2 =
      { l with entries := l.entries ++ [⟨term, type, buf, batch⟩] } := by
  unfold logAppend at h ⊢
  split_ifs at h ⊢ with hn
  · exact absurd h (by simp [RAFT_NOMEM])
  · rfl

/-- The conditional rebuild of the progress array keeps the log, the queue of
requests and the pending change. -/
theorem changeConfiguration_rebuild_frame (d : Deps) (hreb : ProgressRebuildFrame d)
    (r : raft) (c : raft_configuration) :
    (changeConfiguration_rebuild d r c).r.log = r.log ∧
    (changeConfiguration_rebuild d r c).r.leader_state.requests = r.leader_state.requests ∧
    (changeConfiguration_rebuild d r c).r.leader_state.change = r.leader_state.change := by
  simp only [changeConfiguration_rebuild]
  split_ifs
  · exact ⟨hreb.log _ _, hreb.requests _ _, hreb.change _ _⟩
  · exact ⟨rfl, rfl, rfl⟩

/-- What a successful `changeConfiguration_replicate` has done. -/
theorem changeConfiguration_replicate_ok (d : Deps) (r : raft) (req : Nat)
    (obj : raft_request) (index : raft_index) (out : ClientOut)
    (htrig : ReplicationTriggerFrame d)
    (hout : changeConfiguration_replicate d r req obj index = some out) (hrv : out.rv = 0) :
    out.r.configuration = r.configuration ∧ out.r.log = r.log ∧
    out.r.configuration_uncommitted_index = index ∧
    out.req = { obj with type := RAFT_CHANGE, index := index } ∧
    out.r.leader_state.requests = r.leader_state.requests ++ [req] ∧
    out.r.leader_state.change = r.leader_state.change := by
  simp only [changeConfiguration_replicate, errExit] at hout
  split_ifs at hout with h1
  · simp only [Option.some.injEq] at hout
    subst hout
    exact absurd hrv h1
  · simp only [Option.some.injEq] at hout
    subst hout
    refine ⟨?_, ?_, rfl, rfl, ?_, ?_⟩
    · show (d.replicationTrigger _ _).r.configuration = _
      rw [htrig.configuration]
    · show (d.replicationTrigger _ _).r.log = _
      rw [htrig.log]
    · show (d.replicationTrigger _ _).r.leader_state.requests = _
      rw [htrig.requests]
      rfl
    · show (d.replicationTrigger _ _).r.leader_state.change = _
      rw [htrig.change]

/-- What a successful `changeConfiguration` has done when it was given a
configuration object of its own: the configuration is installed, one
`RAFT_CHANGE` entry of the current term holding its encoding is appended, the
request is queued with the index of that entry, which is also the uncommitted
configuration index, and the pending change is as before. -/
theorem changeConfiguration_ok (d : Deps) (r : raft) (req : Nat) (obj : raft_request)
    (c : raft_configuration) (out : ClientOut)
    (htrig : ReplicationTriggerFrame d) (hreb : ProgressRebuildFrame d)
    (hout : changeConfiguration d r req obj c false = some out) (hrv : out.rv = 0) :
    out.r.configuration = c ∧
    out.r.log = { r.log with entries :=
      r.log.entries ++ [⟨r.current_term, RAFT_CHANGE, d.configurationEncode c, 0⟩] } ∧
    out.r.configuration_uncommitted_index = logLastIndex r.log + 1 ∧
    out.req = { obj with type := RAFT_CHANGE, index := logLastIndex r.log + 1 } ∧
    out.r.leader_state.requests = r.leader_state.requests ++ [req] ∧
    out.r.leader_state.change = r.leader_state.change := by
  simp only [changeConfiguration, errExit] at hout
  split_ifs at hout with h1 h2
  · simp only [Option.some.injEq] at hout
    subst hout
    exact absurd hrv h1
  · simp only [Option.some.injEq] at hout
    subst hout
    exact absurd hrv h2
  · obtain ⟨g1, g2, g3, g4, g5, g6⟩ :=
      changeConfiguration_replicate_ok d _ req obj _ out htrig hout hrv
    obtain ⟨f1, f2, f3⟩ := changeConfiguration_rebuild_frame d hreb
      { r with log := (logAppendConfiguration d r.log r.current_term c).2 } c
    have ha := logAppend_ok _ _ _ _ _ _ (not_not.mp h1)
    refine ⟨g1, ?_, g3, g4, ?_, ?_⟩
    · rw [g2]
      show (changeConfiguration_rebuild d _ c).r.log = _
      rw [f1]
      exact ha
    · rw [g5]
      show (changeConfiguration_rebuild d _ c).r.leader_state.requests ++ [req] = _
      rw [f2]
    · rw [g6]
      show (changeConfiguration_rebuild d _ c).r.leader_state.change = _
      rw [f3]

/-- The sample rebuild only replaces the progress array. -/
theorem sampleDeps_rebuild_frame : ProgressRebuildFrame sampleDeps :=
  ⟨fun _ _ => rfl, fun _ _ => rfl, fun _ _ => rfl⟩

/-- C8, evaluation at the failing inputs. The sample leader may change its
membership, has last index 5, three servers and one pending request (address
500). When replicationTrigger fails with an I/O error, raft_add of server 4
and raft_remove of server 3 return that error with the request 600 still on
the queue and the new configuration in place of the old one. When
progressRebuildArray runs out of memory, raft_add returns RAFT_NOMEM with the
CHANGE entry still in the log at index 6. -/
theorem C8_error_paths_leave_partial_work :
    membershipCanChangeConfiguration sampleLeader = 0 ∧
    logLastIndex sampleLeader.log = 5 ∧
    sampleLeader.leader_state.requests = [500] ∧
    sampleLeader.configuration = sampleConfiguration ∧
    (raft_add sampleDepsTriggerFails sampleLeader 600 sampleRequest 4 "4" 9).map
        (fun out => (out.rv, out.r.leader_state.requests, out.r.configuration,
          logLastIndex out.r.log)) =
      some (RAFT_IOERR, [500, 600],
        ⟨[⟨1, "1", true⟩, ⟨2, "2", true⟩, ⟨3, "3", false⟩, ⟨4, "4", false⟩]⟩, 5) ∧
    (raft_remove sampleDepsTriggerFails sampleLeader 600 sampleRequest 3 9).map
        (fun out => (out.rv, out.r.leader_state.requests, out.r.configuration,
          logLastIndex out.r.log)) =
      some (RAFT_IOERR, [500, 600], ⟨[⟨1, "1", true⟩, ⟨2, "2", true⟩]⟩, 5) ∧
    (raft_add sampleDepsRebuildFails sampleLeader 600 sampleRequest 4 "4" 9).map
        (fun out => (out.rv, out.r.leader_state.requests, out.r.configuration,
          logLastIndex out.r.log)) =
      some (RAFT_NOMEM, [500], sampleConfiguration, 6) :=
  ⟨rfl, rfl, rfl, rfl, rfl, rfl, rfl⟩

/-- A lookup finds nothing when no server has the id. -/
theorem configurationGet_none (c : raft_configuration) (id : Nat)
    (h : ∀ s ∈ c.servers, s.id ≠ id) : configurationGet c id = none := by
  simp only [configurationGet, List.find?_eq_none, decide_eq_true_eq]
  exact h

/-- C9: for every server on which membership changes are currently allowed
(hence a leader): raft_promote and raft_remove return RAFT_BADID when no server
of the current configuration has the given id, and raft_promote returns
RAFT_ALREADYVOTING when the server with the given id is voting; in each case
the whole server, hence its configuration, log and leader state, and the
request object are unchanged. -/
theorem C9_membership_rejections (d : Deps) (r : raft) (req : Nat) (obj : raft_request)
    (id : Nat) (cb : Nat) (hcan : membershipCanChangeConfiguration r = 0) :
    r.state = RAFT_LEADER ∧
    ((∀ s ∈ r.configuration.servers, s.id ≠ id) →
      raft_promote d r req obj id cb = some ⟨RAFT_BADID, r, obj⟩ ∧
      raft_remove d r req obj id cb = some ⟨RAFT_BADID, r, obj⟩) ∧
    (∀ s, configurationGet r.configuration id = some s → s.voting = true →
      raft_promote d r req obj id cb = some ⟨RAFT_ALREADYVOTING, r, obj⟩) := by
  refine ⟨?_, ?_, ?_⟩
  · by_contra hne
    simp [membershipCanChangeConfiguration, hne, RAFT_NOTLEADER] at hcan
  · intro h
    have hget := configurationGet_none r.configuration id h
    constructor
    · simp only [raft_promote, hcan, ne_eq, not_true_eq_false, if_false, hget, errExit]
      rfl
    · simp only [raft_remove, hcan, ne_eq, not_true_eq_false, if_false, hget, errExit]
      rfl
  · intro s hget hv
    simp only [raft_promote, hcan, ne_eq, not_true_eq_false, if_false, hget, hv, if_true,
      errExit]
    rfl

/-- C9, instance: on the sample leader no server has id 9 and server 2 is
voting. -/
theorem C9_membership_rejections_witness :
    (raft_promote sampleDeps sampleLeader 600 sampleRequest 9 9 =
        some ⟨RAFT_BADID, sampleLeader, sampleRequest⟩ ∧
      raft_remove sampleDeps sampleLeader 600 sampleRequest 9 9 =
        some ⟨RAFT_BADID, sampleLeader, sampleRequest⟩) ∧
    raft_promote sampleDeps sampleLeader 600 sampleRequest 2 9 =
      some ⟨RAFT_ALREADYVOTING, sampleLeader, sampleRequest⟩ :=
  ⟨(C9_membership_rejections sampleDeps sampleLeader 600 sampleRequest 9 9 rfl).2.1
      (by decide),
    (C9_membership_rejections sampleDeps sampleLeader 600 sampleRequest 2 9 rfl).2.2
      ⟨2, "2", true⟩ rfl rfl⟩

/-- A successful `configurationCopy` yields the same servers. -/
theorem configurationCopy_ok (nomem : Bool) (c : raft_configuration)
    (h : (configurationCopy nomem c).1 = 0) : (configurationCopy nomem c).2 = c := by
  unfold configurationCopy at h ⊢
  split_ifs at h ⊢ with hn
  · exact absurd h (by simp [RAFT_NOMEM])
  · rfl

/-- A successful `raft_configuration_add` found neither the id nor the address
in use and has appended the server at the end. -/
theorem raft_configuration_add_ok (nomem : Bool) (c : raft_configuration) (id : Nat)
    (address : String) (voting : Bool)
    (h : (raft_configuration_add nomem c id address voting).1 = 0) :
    (∀ s ∈ c.servers, s.id ≠ id ∧ s.address ≠ address) ∧
    (raft_configuration_add nomem c id address voting).2 =
      ⟨c.servers ++ [⟨id, address, voting⟩]⟩ := by
  cases hfind : c.servers.find? fun s => s.id = id ∨ s.address = address with
  | some s =>
    simp only [raft_configuration_add, hfind] at h
    split_ifs at h
    · exact absurd h (by simp [RAFT_DUPLICATEID])
    · exact absurd h (by simp [RAFT_DUPLICATEADDRESS])
  | none =>
    simp only [raft_configuration_add, hfind] at h ⊢
    split_ifs at h ⊢ with hn
    · exact absurd h (by simp [RAFT_NOMEM])
    · refine ⟨?_, rfl⟩
      intro s hs
      have := List.find?_eq_none.mp hfind s hs
      simpa [not_or] using this

/-- C10: for every server, id and address, when raft_add returns 0 membership
changes were allowed (hence the server is leader) and neither the id nor the
address was in the configuration; the in-memory configuration is the previous
one with (id, address, voting = false) appended at the end; exactly one entry
has been appended to the log, a CHANGE entry of the current term holding the
encoding of the new configuration, at index old last index + 1;
configuration_uncommitted_index and the index of the request both equal that
index; the request has type RAFT_CHANGE, is at the tail of the queue of
pending requests and is the pending membership change. -/
theorem C10_raft_add_success (d : Deps) (r : raft) (req : Nat) (obj : raft_request)
    (id : Nat) (address : String) (cb : Nat) (out : ClientOut)
    (htrig : ReplicationTriggerFrame d) (hreb : ProgressRebuildFrame d)
    (hout : raft_add d r req obj id address cb = some out) (hrv : out.rv = 0) :
    membershipCanChangeConfiguration r = 0 ∧
    (∀ s ∈ r.configuration.servers, s.id ≠ id ∧ s.address ≠ address) ∧
    out.r.configuration.servers = r.configuration.servers ++ [⟨id, address, false⟩] ∧
    out.r.log.entries = r.log.entries ++ [⟨r.current_term, RAFT_CHANGE,
      d.configurationEncode ⟨r.configuration.servers ++ [⟨id, address, false⟩]⟩, 0⟩] ∧
    logLastIndex out.r.log = logLastIndex r.log + 1 ∧
    out.r.configuration_uncommitted_index = logLastIndex r.log + 1 ∧
    out.req = { obj with type := RAFT_CHANGE, index := logLastIndex r.log + 1, cb := cb } ∧
    out.r.leader_state.requests = r.leader_state.requests ++ [req] ∧
    out.r.leader_state.change = some req := by
  simp only [raft_add, errExit] at hout
  split_ifs at hout with h1 h2 h3
  · simp only [Option.some.injEq] at hout
    subst hout
    exact absurd hrv h1
  · simp only [Option.some.injEq] at hout
    subst hout
    exact absurd hrv h2
  · simp only [Option.some.injEq] at hout
    subst hout
    exact absurd hrv h3
  · have hcopy := configurationCopy_ok _ _ (not_not.mp h2)
    rw [hcopy] at h3 hout
    obtain ⟨hfree, hadd⟩ := raft_configuration_add_ok _ _ _ _ _ (not_not.mp h3)
    rw [hadd] at hout
    cases hcc : changeConfiguration d r req { obj with cb := cb }
        ⟨r.configuration.servers ++ [⟨id, address, false⟩]⟩ false with
    | none =>
      rw [hcc] at hout
      simp at hout
    | some o =>
      rw [hcc] at hout
      simp only at hout
      split_ifs at hout with k1
      · simp only [Option.some.injEq] at hout
        subst hout
        exact absurd hrv k1
      · simp only [Option.some.injEq] at hout
        subst hout
        obtain ⟨g1, g2, g3, g4, g5, g6⟩ :=
          changeConfiguration_ok d r req _ _ o htrig hreb hcc (not_not.mp k1)
        refine ⟨not_not.mp h1, hfree, ?_, ?_, ?_, g3, g4, g5, rfl⟩
        · show o.r.configuration.servers = _
          rw [g1]
        · show o.r.log.entries = _
          rw [g2]
        · show logLastIndex o.r.log = _
          rw [g2]
          simp only [logLastIndex, logNumEntries, List.length_append, List.length_singleton]
          exact (Nat.add_assoc _ _ _).symm

/-- C10, instance: the sample leader (term 3, last index 5, three servers, one
pending request) adds server 4. -/
theorem C10_raft_add_success_witness :
    raft_add sampleDeps sampleLeader 600 sampleRequest 4 "4" 9 = some sampleAdded ∧
    (membershipCanChangeConfiguration sampleLeader = 0 ∧
      (∀ s ∈ sampleLeader.configuration.servers, s.id ≠ 4 ∧ s.address ≠ "4") ∧
      sampleAdded.r.configuration.servers =
        sampleLeader.configuration.servers ++ [⟨4, "4", false⟩] ∧
      sampleAdded.r.log.entries = sampleLeader.log.entries ++ [⟨3, RAFT_CHANGE,
        sampleDeps.configurationEncode ⟨sampleLeader.configuration.servers ++
          [⟨4, "4", false⟩]⟩, 0⟩] ∧
      logLastIndex sampleAdded.r.log = 5 + 1 ∧
      sampleAdded.r.configuration_uncommitted_index = 5 + 1 ∧
      sampleAdded.req = ⟨77, RAFT_CHANGE, 5 + 1, 9⟩ ∧
      sampleAdded.r.leader_state.requests = [500] ++ [600] ∧
      sampleAdded.r.leader_state.change = some 600) :=
  ⟨rfl, C10_raft_add_success sampleDeps sampleLeader 600 sampleRequest 4 "4" 9 sampleAdded
    sampleDeps_trigger_frame sampleDeps_rebuild_frame rfl rfl⟩

/-! ## The catch-up round of `raft_promote` -/

/-- The failing `replicationProgress` changes nothing on the server. -/
theorem sampleDepsNoConnection_progress_frame : ReplicationProgressFrame sampleDepsNoConnection :=
  ⟨fun _ _ => rfl, fun _ _ => rfl, fun _ _ => rfl, fun _ _ => rfl, fun _ _ => rfl,
    fun _ _ => rfl, fun _ _ => rfl⟩

/-- A lookup that succeeds returns a server with the id that was asked for. -/
theorem configurationGet_id (c : raft_configuration) (id : Nat) (s : raft_server)
    (h : configurationGet c id = some s) : s.id = id := by
  have := List.find?_some h
  simpa using this

/-- When the lookup succeeds the index of the server is inside the array. -/
theorem configurationIndexOf_lt (c : raft_configuration) (id : Nat) (s : raft_server)
    (h : configurationGet c id = some s) : configurationIndexOf c id < c.n := by
  have hmem : s ∈ c.servers := List.mem_of_find?_eq_some h
  have hid := configurationGet_id c id s h
  simp only [configurationIndexOf, raft_configuration.n]
  apply List.findIdx_lt_length_of_exists
  exact ⟨s, hmem, by simpa using hid⟩

/-- C11 (amended): for every leader on which membership changes are currently
allowed and every non-voting server of the configuration whose match_index
differs from the last index of the leader's log, raft_promote returns 0,
whatever replicationProgress returns, and starts catch-up round 1:
leader_state.change is the request, promotee_id is the id of the server,
round_number = 1, round_index = the last index of the log at the call,
round_start = the current time; the log and the configuration, hence the
voting flag of the server, are unchanged; the request only has its callback
set. -/
theorem C11_raft_promote_starts_round (d : Deps) (r : raft) (req : Nat) (obj : raft_request)
    (id : Nat) (cb : Nat) (server : raft_server)
    (hprog : ReplicationProgressFrame d)
    (hcan : membershipCanChangeConfiguration r = 0)
    (hget : configurationGet r.configuration id = some server)
    (hnv : server.voting = false)
    (hlag : progressMatchIndex r (configurationIndexOf r.configuration id) ≠
      logLastIndex r.log) :
    ∃ out, raft_promote d r req obj id cb = some out ∧ out.rv = 0 ∧
      out.req = { obj with cb := cb } ∧
      out.r.leader_state.change = some req ∧
      out.r.leader_state.promotee_id = id ∧
      out.r.leader_state.round_number = 1 ∧
      out.r.leader_state.round_index = logLastIndex r.log ∧
      out.r.leader_state.round_start = d.io_time ∧
      out.r.log = r.log ∧ out.r.configuration = r.configuration := by
  have hidx := configurationIndexOf_lt _ _ _ hget
  have hid := configurationGet_id _ _ _ hget
  have hchange : r.leader_state.change = none := by
    by_contra hne
    simp only [membershipCanChangeConfiguration] at hcan
    split_ifs at hcan <;> simp_all [RAFT_NOTLEADER, RAFT_CANTCHANGE]
  have hlag2 : ¬ progressMatchIndex
      { r with leader_state := { r.leader_state with change := some req } }
      (configurationIndexOf r.configuration id) = logLastIndex r.log := hlag
  simp only [raft_promote, hcan, ne_eq, not_true_eq_false, if_false, hget, hnv, hidx,
    hchange, hlag2, Bool.false_eq_true]
  refine ⟨_, rfl, rfl, rfl, ?_, ?_, ?_, ?_, ?_, ?_, ?_⟩
  · show (d.replicationProgress _ _).r.leader_state.change = _
    rw [hprog.change]
  · show (d.replicationProgress _ _).r.leader_state.promotee_id = _
    rw [hprog.promotee_id]
    exact hid
  · show (d.replicationProgress _ _).r.leader_state.round_number = _
    rw [hprog.round_number]
  · show (d.replicationProgress _ _).r.leader_state.round_index = _
    rw [hprog.round_index]
  · show (d.replicationProgress _ _).r.leader_state.round_start = _
    rw [hprog.round_start]
  · show (d.replicationProgress _ _).r.log = _
    rw [hprog.log]
  · show (d.replicationProgress _ _).r.configuration = _
    rw [hprog.configuration]

/-- C11, instance: the sample leader (last index 5) promotes server 3, which is
not voting and has match index 3, while no connection to it is available. -/
theorem C11_raft_promote_starts_round_witness :
    ∃ out, raft_promote sampleDepsNoConnection sampleLeader 600 sampleRequest 3 9 = some out ∧
      out.rv = 0 ∧
      out.req = { sampleRequest with cb := 9 } ∧
      out.r.leader_state.change = some 600 ∧
      out.r.leader_state.promotee_id = 3 ∧
      out.r.leader_state.round_number = 1 ∧
      out.r.leader_state.round_index = logLastIndex sampleLeader.log ∧
      out.r.leader_state.round_start = sampleDepsNoConnection.io_time ∧
      out.r.log = sampleLeader.log ∧ out.r.configuration = sampleLeader.configuration :=
  C11_raft_promote_starts_round sampleDepsNoConnection sampleLeader 600 sampleRequest 3 9
    ⟨3, "3", false⟩ sampleDepsNoConnection_progress_frame rfl rfl rfl (by decide)

/-- C11, counterexample: the leader that has just added server 4 still has that
change pending (configuration_uncommitted_index = 6). Server 3 is not voting
and its match index 0 differs from the last index 6, yet raft_promote returns
RAFT_CANTCHANGE and starts no round. -/
theorem C11_counterexample_change_pending :
    sampleAdded.r.state = RAFT_LEADER ∧
    configurationGet sampleAdded.r.configuration 3 = some ⟨3, "3", false⟩ ∧
    progressMatchIndex sampleAdded.r (configurationIndexOf sampleAdded.r.configuration 3) = 0 ∧
    logLastIndex sampleAdded.r.log = 6 ∧
    raft_promote sampleDeps sampleAdded.r 700 sampleRequest 3 9 =
      some ⟨RAFT_CANTCHANGE, sampleAdded.r, sampleRequest⟩ :=
  ⟨rfl, rfl, rfl, rfl, rfl⟩

/-! ## At most one membership change at a time -/

/-- While a change is pending the shared precondition check fails. -/
theorem membershipCanChangeConfiguration_pending (r : raft)
    (h : r.leader_state.change ≠ none ∨ r.configuration_uncommitted_index ≠ 0) :
    membershipCanChangeConfiguration r ≠ 0 := by
  simp only [membershipCanChangeConfiguration]
  split_ifs with h1 h2 h3 h4
  · simp [RAFT_NOTLEADER]
  · simp [RAFT_CANTCHANGE]
  · simp [RAFT_CANTCHANGE]
  · simp [RAFT_CANTCHANGE]
  · rcases h with h | h
    · exact absurd (not_not.mp h3) h
    · exact absurd (not_not.mp h2) h

/-- When the shared precondition check passes no change is pending. -/
theorem membershipCanChangeConfiguration_ok (r : raft)
    (h : membershipCanChangeConfiguration r = 0) : r.leader_state.change = none := by
  by_contra hne
  exact membershipCanChangeConfiguration_pending r (Or.inl hne) h

/-- No assertion fails in `changeConfiguration_replicate`. -/
theorem changeConfiguration_replicate_some (d : Deps) (r : raft) (req : Nat)
    (obj : raft_request) (index : raft_index) :
    ∃ out, changeConfiguration_replicate d r req obj index = some out := by
  simp only [changeConfiguration_replicate, errExit]
  split_ifs <;> exact ⟨_, rfl⟩

/-- The error exit returns when the code is an error. -/
theorem errExit_of_ne (rv : Int) (r : raft) (obj : raft_request) (h : rv ≠ 0) :
    errExit rv r obj = some ⟨rv, r, obj⟩ := by
  simp only [errExit, h, ne_eq, not_false_eq_true, if_true]

/-- No assertion fails in `changeConfiguration`. -/
theorem changeConfiguration_some (d : Deps) (r : raft) (req : Nat) (obj : raft_request)
    (c : raft_configuration) (aliased : Bool) :
    ∃ out, changeConfiguration d r req obj c aliased = some out := by
  simp only [changeConfiguration]
  split_ifs with h1 h2 h3
  · exact ⟨_, errExit_of_ne _ _ _ h1⟩
  · exact ⟨_, errExit_of_ne _ _ _ h2⟩
  · exact changeConfiguration_replicate_some _ _ _ _ _
  · exact changeConfiguration_replicate_some _ _ _ _ _

/-- The part of `raft_add` and `raft_remove` that follows a successful
`changeConfiguration` on a copy: no assertion fails there. -/
theorem change_recorded_some (d : Deps) (r : raft) (req : Nat) (obj : raft_request)
    (c : raft_configuration) (htrig : ReplicationTriggerFrame d)
    (hreb : ProgressRebuildFrame d) (hcan : membershipCanChangeConfiguration r = 0) :
    ∃ out, (match changeConfiguration d r req obj c false with
      | none => none
      | some o =>
        if o.rv ≠ 0 then errExit o.rv o.r o.req else
        if ¬ (o.r.leader_state.change = none) then none else
        some (⟨0, { o.r with leader_state := { o.r.leader_state with change := some req } },
          o.req⟩ : ClientOut)) = some out := by
  obtain ⟨o, ho⟩ := changeConfiguration_some d r req obj c false
  rw [ho]
  simp only
  by_cases k1 : o.rv ≠ 0
  · rw [if_pos k1]
    exact ⟨_, errExit_of_ne _ _ _ k1⟩
  · rw [if_neg k1]
    obtain ⟨_, _, _, _, _, g6⟩ :=
      changeConfiguration_ok d r req _ _ o htrig hreb ho (not_not.mp k1)
    have k2 : o.r.leader_state.change = none := by
      rw [g6]
      exact membershipCanChangeConfiguration_ok r hcan
    rw [if_neg (not_not.mpr k2)]
    exact ⟨_, rfl⟩

/-- No assertion fails in `raft_add`. -/
theorem raft_add_some (d : Deps) (r : raft) (req : Nat) (obj : raft_request) (id : Nat)
    (address : String) (cb : Nat)
    (htrig : ReplicationTriggerFrame d) (hreb : ProgressRebuildFrame d) :
    ∃ out, raft_add d r req obj id address cb = some out := by
  simp only [raft_add]
  by_cases h1 : membershipCanChangeConfiguration r ≠ 0
  · rw [if_pos h1]
    exact ⟨_, rfl⟩
  · rw [if_neg h1]
    by_cases h2 : (configurationCopy (d.alloc_fails .configurationCopy) r.configuration).1 ≠ 0
    · rw [if_pos h2]
      exact ⟨_, errExit_of_ne _ _ _ h2⟩
    · rw [if_neg h2]
      by_cases h3 : (raft_configuration_add (d.alloc_fails .configurationAdd)
          (configurationCopy (d.alloc_fails .configurationCopy) r.configuration).2 id address
          false).1 ≠ 0
      · rw [if_pos h3]
        exact ⟨_, errExit_of_ne _ _ _ h3⟩
      · rw [if_neg h3]
        exact change_recorded_some d r req _ _ htrig hreb (not_not.mp h1)

/-- No assertion fails in `raft_remove`. -/
theorem raft_remove_some (d : Deps) (r : raft) (req : Nat) (obj : raft_request) (id : Nat)
    (cb : Nat) (htrig : ReplicationTriggerFrame d) (hreb : ProgressRebuildFrame d) :
    ∃ out, raft_remove d r req obj id cb = some out := by
  simp only [raft_remove]
  by_cases h1 : membershipCanChangeConfiguration r ≠ 0
  · rw [if_pos h1]
    exact ⟨_, rfl⟩
  · rw [if_neg h1]
    cases hget : configurationGet r.configuration id with
    | none => exact ⟨_, rfl⟩
    | some s =>
      simp only
      by_cases h2 : (configurationCopy (d.alloc_fails .configurationCopy)
          r.configuration).1 ≠ 0
      · rw [if_pos h2]
        exact ⟨_, errExit_of_ne _ _ _ h2⟩
      · rw [if_neg h2]
        by_cases h3 : (configurationRemove (d.alloc_fails .configurationRemove)
            (configurationCopy (d.alloc_fails .configurationCopy) r.configuration).2 id).1 ≠ 0
        · rw [if_pos h3]
          exact ⟨_, errExit_of_ne _ _ _ h3⟩
        · rw [if_neg h3]
          exact change_recorded_some d r req _ _ htrig hreb (not_not.mp h1)

/-- No assertion fails in `raft_promote`. -/
theorem raft_promote_some (d : Deps) (r : raft) (req : Nat) (obj : raft_request) (id : Nat)
    (cb : Nat) : ∃ out, raft_promote d r req obj id cb = some out := by
  simp only [raft_promote]
  by_cases h1 : membershipCanChangeConfiguration r ≠ 0
  · rw [if_pos h1]
    exact ⟨_, rfl⟩
  · rw [if_neg h1]
    cases hget : configurationGet r.configuration id with
    | none => exact ⟨_, rfl⟩
    | some s =>
      have hidx := configurationIndexOf_lt _ _ _ hget
      have hchange := membershipCanChangeConfiguration_ok r (not_not.mp h1)
      simp only [hidx, hchange, not_true_eq_false, if_false]
      by_cases h2 : s.voting = true
      · rw [if_pos h2]
        exact ⟨_, rfl⟩
      · rw [if_neg h2]
        split_ifs with h3
        · obtain ⟨o, ho⟩ := changeConfiguration_some d
            { r with
              leader_state := { r.leader_state with change := some req },
              configuration := setVoting r.configuration
                (configurationIndexOf r.configuration id) true }
            req { obj with cb := cb }
            (setVoting r.configuration (configurationIndexOf r.configuration id) true) true
          rw [ho]
          simp only
          split_ifs <;> exact ⟨_, rfl⟩
        · exact ⟨_, rfl⟩

/-- C12: raft_add, raft_promote and raft_remove called while a membership
change is pending (leader_state.change set or configuration_uncommitted_index
non-zero) return a non-zero error and leave the server, hence the pending
change, and the request as they were; and no assertion of the three functions
fails, in particular leader_state.change == NULL holds whenever it is
reached. -/
theorem C12_one_membership_change_at_a_time (d : Deps) (r : raft) (req : Nat)
    (obj : raft_request) (id : Nat) (address : String) (cb : Nat)
    (htrig : ReplicationTriggerFrame d) (hreb : ProgressRebuildFrame d) :
    ((r.leader_state.change ≠ none ∨ r.configuration_uncommitted_index ≠ 0) →
      membershipCanChangeConfiguration r ≠ 0 ∧
      raft_add d r req obj id address cb =
        some ⟨membershipCanChangeConfiguration r, r, obj⟩ ∧
      raft_promote d r req obj id cb = some ⟨membershipCanChangeConfiguration r, r, obj⟩ ∧
      raft_remove d r req obj id cb = some ⟨membershipCanChangeConfiguration r, r, obj⟩) ∧
    (raft_add d r req obj id address cb).isSome = true ∧
    (raft_promote d r req obj id cb).isSome = true ∧
    (raft_remove d r req obj id cb).isSome = true := by
  refine ⟨?_, ?_, ?_, ?_⟩
  · intro hpending
    have hne := membershipCanChangeConfiguration_pending r hpending
    refine ⟨hne, ?_, ?_, ?_⟩
    · simp only [raft_add, hne, ne_eq, not_false_eq_true, if_true]
    · simp only [raft_promote, hne, ne_eq, not_false_eq_true, if_true]
    · simp only [raft_remove, hne, ne_eq, not_false_eq_true, if_true]
  · obtain ⟨o, ho⟩ := raft_add_some d r req obj id address cb htrig hreb
    rw [ho]
    rfl
  · obtain ⟨o, ho⟩ := raft_promote_some d r req obj id cb
    rw [ho]
    rfl
  · obtain ⟨o, ho⟩ := raft_remove_some d r req obj id cb htrig hreb
    rw [ho]
    rfl

/-- C12, instance: the leader that has just added server 4 (request 600
pending, configuration_uncommitted_index = 6) refuses to add server 5, to
promote server 3 and to remove server 2. -/
theorem C12_one_membership_change_at_a_time_witness :
    sampleAdded.r.leader_state.change = some 600 ∧
    sampleAdded.r.configuration_uncommitted_index = 6 ∧
    (raft_add sampleDeps sampleAdded.r 700 sampleRequest 5 "5" 9 =
        some ⟨RAFT_CANTCHANGE, sampleAdded.r, sampleRequest⟩ ∧
      raft_promote sampleDeps sampleAdded.r 700 sampleRequest 5 9 =
        some ⟨RAFT_CANTCHANGE, sampleAdded.r, sampleRequest⟩ ∧
      raft_remove sampleDeps sampleAdded.r 700 sampleRequest 5 9 =
        some ⟨RAFT_CANTCHANGE, sampleAdded.r, sampleRequest⟩) :=
  ⟨rfl, rfl,
    ((C12_one_membership_change_at_a_time sampleDeps sampleAdded.r 700 sampleRequest 5 "5" 9
      sampleDeps_trigger_frame sampleDeps_rebuild_frame).1 (Or.inl (by decide))).2⟩

/-! ## Restoring the entries loaded from disk -/

/-- The sample role conversions meet their contract. -/
theorem sampleStartDeps_convert : ConvertSpec sampleStartDeps :=
  ⟨fun _ => rfl, fun _ => rfl, fun _ => rfl, fun _ _ => rfl, fun _ => rfl⟩

/-- When the loop of `restoreEntries` ends without error it has appended every
entry, advanced `last_stored` by their number, left the other fields alone and
tracked the last configuration entry. -/
theorem restoreEntries_loop_ok (sd : StartDeps) (entries : List raft_entry) (i : Nat)
    (r : raft) (conf : Option (raft_entry × raft_index))
    (h : (restoreEntries_loop sd entries i r conf).rv = 0) :
    (restoreEntries_loop sd entries i r conf).r =
      { r with log := { r.log with entries := r.log.entries ++ entries },
               last_stored := r.last_stored + entries.length } ∧
    (restoreEntries_loop sd entries i r conf).conf = lastChange entries r.last_stored conf := by
  induction entries generalizing i r conf with
  | nil =>
    simp only [restoreEntries_loop, lastChange, List.append_nil, List.length_nil,
      Nat.add_zero, and_self]
  | cons entry rest ih =>
    by_cases h1 : (logAppend (sd.logAppend_fails i) r.log entry.term entry.type entry.buf
        entry.batch).1 ≠ 0
    · simp only [restoreEntries_loop, if_pos h1] at h
      exact absurd h h1
    · simp only [restoreEntries_loop, if_neg h1] at h ⊢
      have ha := logAppend_ok _ _ _ _ _ _ (not_not.mp h1)
      obtain ⟨ih1, ih2⟩ := ih _ _ _ h
      refine ⟨?_, ?_⟩
      · rw [ih1, ha]
        have he : (⟨entry.term, entry.type, entry.buf, entry.batch⟩ : raft_entry) = entry :=
          rfl
        simp only [he, List.append_assoc, List.singleton_append, List.length_cons]
        congr 1
        rw [Nat.add_assoc, Nat.add_comm 1]
      · rw [ih2]
        simp only [lastChange]

/-- What `lastChange` returns: either no entry is a configuration change and
the initial value is kept, or the last entry that is one, with its index. -/
theorem lastChange_spec (entries : List raft_entry) (k : raft_index)
    (acc : Option (raft_entry × raft_index)) :
    ((∀ e ∈ entries, e.type ≠ RAFT_CHANGE) ∧ lastChange entries k acc = acc) ∨
    ∃ p e, entries.get? p = some e ∧ e.type = RAFT_CHANGE ∧
      (∀ q e', p < q → entries.get? q = some e' → e'.type ≠ RAFT_CHANGE) ∧
      lastChange entries k acc = some (e, k + p + 1) := by
  induction entries generalizing k acc with
  | nil =>
    left
    exact ⟨fun e he => absurd he (List.not_mem_nil e), rfl⟩
  | cons entry rest ih =>
    simp only [lastChange]
    rcases ih (k + 1) (if entry.type = RAFT_CHANGE then some (entry, k + 1) else acc) with
      ⟨hno, hres⟩ | ⟨p, e, hp, he, hlast, hres⟩
    · by_cases hc : entry.type = RAFT_CHANGE
      · right
        refine ⟨0, entry, rfl, hc, ?_, ?_⟩
        · intro q e' hq hget
          cases q with
          | zero => exact absurd hq (Nat.lt_irrefl 0)
          | succ q =>
            simp only [List.get?_cons_succ] at hget
            exact hno e' (List.get?_mem hget)
        · rw [hres, if_pos hc]
      · left
        refine ⟨?_, ?_⟩
        · intro e he
          rcases List.mem_cons.mp he with rfl | he
          · exact hc
          · exact hno e he
        · rw [hres, if_neg hc]
    · right
      refine ⟨p + 1, e, by simpa using hp, he, ?_, ?_⟩
      · intro q e' hq hget
        cases q with
        | zero => exact absurd hq (Nat.not_lt_zero _)
        | succ q =>
          simp only [List.get?_cons_succ] at hget
          exact hlast q e' (Nat.lt_of_succ_lt_succ hq) hget
      · rw [hres]
        congr 2
        simp only [Nat.add_assoc, Nat.add_comm 1 p]

/-- The error exit of `restoreEntries` returns the code it is given. -/
theorem restoreEntries_err_rv (rv : Int) (r : raft) : (restoreEntries_err rv r).rv = rv := by
  simp only [restoreEntries_err]
  split_ifs <;> rfl

/-- What `restoreEntries` has done when it returns 0: the loaded entries follow
the entries of the log, which now starts at `start_index`; `last_stored` is the
index of the last of them; the configuration and its index are those of the
last loaded configuration entry, or untouched when there is none; the other
fields of the store are untouched. -/
theorem restoreEntries_ok (sd : StartDeps) (r : raft) (start_index : raft_index)
    (entries : List raft_entry) (h : (restoreEntries sd r start_index entries).rv = 0) :
    (restoreEntries sd r start_index entries).r.log =
      { logSeek r.log start_index with entries := r.log.entries ++ entries } ∧
    (restoreEntries sd r start_index entries).r.last_stored =
      start_index - 1 + entries.length ∧
    (restoreEntries sd r start_index entries).r.commit_index = r.commit_index ∧
    (restoreEntries sd r start_index entries).r.last_applied = r.last_applied ∧
    (restoreEntries sd r start_index entries).r.id = r.id ∧
    (restoreEntries sd r start_index entries).r.configuration_uncommitted_index =
      r.configuration_uncommitted_index ∧
    (lastChange entries (start_index - 1) none = none →
      (restoreEntries sd r start_index entries).r.configuration = r.configuration ∧
      (restoreEntries sd r start_index entries).r.configuration_index =
        r.configuration_index) ∧
    (∀ e j, lastChange entries (start_index - 1) none = some (e, j) →
      sd.configurationDecode e.buf =
        (0, (restoreEntries sd r start_index entries).r.configuration) ∧
      (restoreEntries sd r start_index entries).r.configuration_index = j) := by
  have hloop := restoreEntries_loop_ok sd entries 0 (restoreEntries_seek r start_index) none
  simp only [restoreEntries] at h ⊢
  generalize restoreEntries_loop sd entries 0 (restoreEntries_seek r start_index) none = l
    at h hloop ⊢
  by_cases h1 : l.rv ≠ 0
  · simp only [restoreEntries_conf, if_pos h1, restoreEntries_err_rv] at h
    exact absurd h h1
  · obtain ⟨hr, hc⟩ := hloop (not_not.mp h1)
    have hc2 : l.conf = lastChange entries (start_index - 1) none := hc
    simp only [restoreEntries_conf, if_neg h1] at h ⊢
    cases hconf : l.conf with
    | none =>
      simp only [hconf]
      rw [← hc2, hconf, hr]
      refine ⟨rfl, rfl, rfl, rfl, rfl, rfl, fun _ => ⟨rfl, rfl⟩, ?_⟩
      intro e j hej
      exact absurd hej (by simp)
    | some ce =>
      obtain ⟨ce1, ce2⟩ := ce
      simp only [hconf] at h ⊢
      rw [← hc2, hconf]
      by_cases h2 : (restoreMostRecentConfiguration sd l.r ce1 ce2).rv ≠ 0
      · simp only [if_pos h2, restoreEntries_err_rv] at h
        exact absurd h h2
      · simp only [if_neg h2]
        have hdec : (sd.configurationDecode ce1.buf).1 = 0 := by
          by_contra hne
          apply h2
          simp only [restoreMostRecentConfiguration, if_pos hne]
          exact hne
        simp only [restoreMostRecentConfiguration, hdec, ne_eq, not_true_eq_false, if_false]
        rw [hr]
        refine ⟨rfl, rfl, rfl, rfl, rfl, rfl, fun hn => absurd hn (by simp), ?_⟩
        intro e j hej
        simp only [Option.some.injEq, Prod.mk.injEq] at hej
        obtain ⟨rfl, rfl⟩ := hej
        exact ⟨Prod.ext hdec rfl, rfl⟩

/-! ## `raft_start` -/

/-- A configuration in which a lookup finds a voting server has at least one
voting server. -/
theorem configurationNumVoting_pos (c : raft_configuration) (id : Nat) (s : raft_server)
    (h : configurationGet c id = some s) (hv : s.voting = true) :
    1 ≤ configurationNumVoting c := by
  have hmem : s ∈ c.servers := List.mem_of_find?_eq_some h
  have : s ∈ c.servers.filter fun s => s.voting := List.mem_filter.mpr ⟨hmem, hv⟩
  exact List.length_pos_of_mem this

/-- What `maybeSelfElect` does to a follower when it returns 0: the store is
untouched, and the server is leader when it is a voting server of its
configuration and the only one, follower otherwise. -/
theorem maybeSelfElect_ok (sd : StartDeps) (hconv : ConvertSpec sd) (r : raft)
    (hf : r.state = RAFT_FOLLOWER) (hrv : (maybeSelfElect sd r).rv = 0) :
    (maybeSelfElect sd r).r.store = r.store ∧
    (((∃ s, configurationGet r.configuration r.id = some s ∧ s.voting = true) ∧
        configurationNumVoting r.configuration = 1) →
      (maybeSelfElect sd r).r.state = RAFT_LEADER) ∧
    (¬ ((∃ s, configurationGet r.configuration r.id = some s ∧ s.voting = true) ∧
        configurationNumVoting r.configuration = 1) →
      (maybeSelfElect sd r).r.state = RAFT_FOLLOWER) := by
  cases hget : configurationGet r.configuration r.id with
  | none =>
    simp only [maybeSelfElect, hget]
    refine ⟨trivial, ?_, fun _ => hf⟩
    rintro ⟨⟨s, hs, _⟩, _⟩
    exact absurd hs (by simp)
  | some server =>
    simp only [maybeSelfElect, hget] at hrv ⊢
    by_cases h1 : server.voting = false ∨ configurationNumVoting r.configuration > 1
    · simp only [if_pos h1]
      refine ⟨trivial, ?_, fun _ => hf⟩
      rintro ⟨⟨s, hs, hv⟩, hn⟩
      simp only [Option.some.injEq] at hs
      subst hs
      rcases h1 with h1 | h1
      · rw [hv] at h1
        exact absurd h1 (by simp)
      · rw [hn] at h1
        exact absurd h1 (by decide)
    · simp only [if_neg h1] at hrv ⊢
      by_cases h2 : (sd.convertToCandidate r).rv ≠ 0
      · simp only [if_pos h2] at hrv
        exact absurd hrv h2
      · simp only [if_neg h2] at hrv ⊢
        by_cases h3 : (sd.convertToLeader (sd.convertToCandidate r).r).rv ≠ 0
        · simp only [if_pos h3] at hrv
          exact absurd hrv h3
        · simp only [if_neg h3]
          refine ⟨?_, fun _ => hconv.leader_role _ (not_not.mp h3), ?_⟩
          · rw [hconv.leader_store, hconv.candidate_store]
          · intro hcond
            exfalso
            apply hcond
            have hv : server.voting = true := by
              cases hsv : server.voting with
              | true => rfl
              | false => exact absurd (Or.inl hsv) h1
            refine ⟨⟨server, rfl, hv⟩, ?_⟩
            have hle : ¬ configurationNumVoting r.configuration > 1 := fun h => h1 (Or.inr h)
            have hpos := configurationNumVoting_pos _ _ _ hget hv
            exact Nat.le_antisymm (Nat.le_of_not_gt hle) hpos

/-- What the last part of `raft_start` does when it returns 0. -/
theorem raft_start_finish_ok (sd : StartDeps) (hconv : ConvertSpec sd) (r : raft)
    (hrv : (raft_start_finish sd r).rv = 0) :
    (raft_start_finish sd r).r.store = r.store ∧
    (((∃ s, configurationGet r.configuration r.id = some s ∧ s.voting = true) ∧
        configurationNumVoting r.configuration = 1) →
      (raft_start_finish sd r).r.state = RAFT_LEADER) ∧
    (¬ ((∃ s, configurationGet r.configuration r.id = some s ∧ s.voting = true) ∧
        configurationNumVoting r.configuration = 1) →
      (raft_start_finish sd r).r.state = RAFT_FOLLOWER) := by
  by_cases h1 : sd.io_start r.heartbeat_timeout ≠ 0
  · simp only [raft_start_finish, if_pos h1] at hrv
    exact absurd hrv h1
  · simp only [raft_start_finish, if_neg h1] at hrv ⊢
    have hst := hconv.follower_store r
    have hc : (sd.convertToFollower r).configuration = r.configuration :=
      congrArg raft_store.configuration hst
    have hi : (sd.convertToFollower r).id = r.id := congrArg raft_store.id hst
    obtain ⟨g1, g2, g3⟩ := maybeSelfElect_ok sd hconv (sd.convertToFollower r)
      (hconv.follower_role r) hrv
    rw [hc, hi] at g2 g3
    exact ⟨g1.trans hst, g2, g3⟩

/-- A call of `raft_start` that returns 0 has loaded the state without error,
restored it without error and then run its last part, on a server whose log
was empty. -/
theorem raft_start_ok (sd : StartDeps) (r : raft) (out : StepOut)
    (h : raft_start sd r = some out) (hrv : out.rv = 0) :
    r.log.entries = [] ∧ (sd.load r.snapshot_trailing).rv = 0 ∧
    ∃ s, raft_start_restore sd
        { r with current_term := (sd.load r.snapshot_trailing).term,
                 voted_for := (sd.load r.snapshot_trailing).voted_for }
        (sd.load r.snapshot_trailing) = some s ∧
      s.rv = 0 ∧ out = raft_start_finish sd s.r := by
  simp only [raft_start] at h
  split_ifs at h with h1 h2 h3 h4 h5 h6 h7
  · simp only [Option.some.injEq] at h
    subst h
    exact absurd hrv h7
  · have hlog : r.log.entries = [] := by
      have : r.log.entries.length = 0 := h4
      exact List.length_eq_zero.mp this
    refine ⟨hlog, not_not.mp h7, ?_⟩
    cases hs : raft_start_restore sd
        { r with current_term := (sd.load r.snapshot_trailing).term,
                 voted_for := (sd.load r.snapshot_trailing).voted_for }
        (sd.load r.snapshot_trailing) with
    | none =>
      rw [hs] at h
      simp at h
    | some s =>
      rw [hs] at h
      simp only at h
      by_cases h8 : s.rv ≠ 0
      · rw [if_pos h8] at h
        simp only [Option.some.injEq] at h
        subst h
        exact absurd hrv h8
      · rw [if_neg h8] at h
        simp only [Option.some.injEq] at h
        exact ⟨s, rfl, not_not.mp h8, h.symm⟩

/-- What a successful `snapshotRestore` has done. -/
theorem snapshotRestore_ok (sd : StartDeps) (r : raft) (snapshot : raft_snapshot)
    (s : StepOut) (h : snapshotRestore sd r snapshot = some s) (hrv : s.rv = 0) :
    s.r = { r with
      configuration := snapshot.configuration,
      configuration_index := snapshot.configuration_index,
      commit_index := snapshot.index,
      last_applied := snapshot.index,
      last_stored := snapshot.index } := by
  unfold snapshotRestore at h
  split at h
  · simp only at h
    split_ifs at h with h1
    · simp only [Option.some.injEq] at h
      subst h
      exact absurd hrv h1
    · simp only [Option.some.injEq] at h
      subst h
      rfl
  · exact absurd h (by simp)

/-- The server that `raft_start` hands to `restoreEntries` when the part before
it succeeds: its log is empty, and its commit index, applied index and
configuration are those of the snapshot, or 1 and 1 when there is no snapshot
but some entry, or untouched when there is neither. -/
theorem raft_start_restore_ok (sd : StartDeps) (r : raft) (ld : LoadOut) (s : StepOut)
    (hlog : r.log.entries = []) (h : raft_start_restore sd r ld = some s) (hrv : s.rv = 0) :
    1 ≤ ld.start_index ∧
    ∃ r1, s = restoreEntries sd r1 ld.start_index ld.entries ∧ r1.id = r.id ∧
      r1.log.entries = [] ∧
      r1.configuration_uncommitted_index = r.configuration_uncommitted_index ∧
      ((ld.snapshot = none ∧ ld.entries = [] ∧ r1 = r) ∨
       (ld.snapshot = none ∧ ld.entries ≠ [] ∧ ld.start_index = 1 ∧
          r1.commit_index = 1 ∧ r1.last_applied = 1) ∨
       (∃ sn, ld.snapshot = some sn ∧ r1.commit_index = sn.index ∧
          r1.last_applied = sn.index ∧ r1.configuration = sn.configuration ∧
          r1.configuration_index = sn.configuration_index)) := by
  unfold raft_start_restore at h
  by_cases h0 : ld.start_index ≥ 1
  · rw [if_neg (not_not.mpr h0)] at h
    refine ⟨h0, ?_⟩
    cases hsn : ld.snapshot with
    | some sn =>
      rw [hsn] at h
      simp only at h
      cases hsr : snapshotRestore sd r sn with
      | none =>
        rw [hsr] at h
        exact absurd h (by simp)
      | some t =>
        rw [hsr] at h
        simp only at h
        by_cases h1 : t.rv ≠ 0
        · rw [if_pos h1] at h
          simp only [Option.some.injEq] at h
          subst h
          exact absurd hrv h1
        · rw [if_neg h1] at h
          simp only [Option.some.injEq] at h
          have ht := snapshotRestore_ok sd r sn t hsr (not_not.mp h1)
          refine ⟨_, h.symm, ?_, rfl, ?_, Or.inr (Or.inr ⟨sn, rfl, ?_, ?_, ?_, ?_⟩)⟩
          all_goals rw [ht]
    | none =>
      rw [hsn] at h
      simp only at h
      cases hen : ld.entries with
      | nil =>
        rw [hen] at h
        simp only [Option.some.injEq] at h
        exact ⟨r, h.symm, rfl, hlog, rfl, Or.inl ⟨rfl, rfl, rfl⟩⟩
      | cons first rest =>
        rw [hen] at h
        simp only at h
        split_ifs at h with h1 h2
        simp only [Option.some.injEq] at h
        exact ⟨_, h.symm, rfl, hlog, rfl,
          Or.inr (Or.inl ⟨rfl, by simp, h1, rfl, rfl⟩)⟩
  · rw [if_pos h0] at h
    exact absurd h (by simp)

/-- C13: for every load result, when raft_start returns 0 the server is leader
if its configuration, as restored, contains its own id as a voting server and
has exactly one voting server, and follower in every other case. -/
theorem C13_raft_start_role (sd : StartDeps) (r : raft) (out : StepOut)
    (hconv : ConvertSpec sd) (h : raft_start sd r = some out) (hrv : out.rv = 0) :
    (((∃ s, configurationGet out.r.configuration out.r.id = some s ∧ s.voting = true) ∧
        configurationNumVoting out.r.configuration = 1) →
      out.r.state = RAFT_LEADER) ∧
    (¬ ((∃ s, configurationGet out.r.configuration out.r.id = some s ∧ s.voting = true) ∧
        configurationNumVoting out.r.configuration = 1) →
      out.r.state = RAFT_FOLLOWER) := by
  obtain ⟨_, _, s, _, _, hout⟩ := raft_start_ok sd r out h hrv
  subst hout
  obtain ⟨g1, g2, g3⟩ := raft_start_finish_ok sd hconv s.r hrv
  have hc : (raft_start_finish sd s.r).r.configuration = s.r.configuration :=
    congrArg raft_store.configuration g1
  have hi : (raft_start_finish sd s.r).r.id = s.r.id := congrArg raft_store.id g1
  rw [hc, hi]
  exact ⟨g2, g3⟩

/-- C13, instance: the disk holds two configuration entries, the last of which
has server 1 as only voter; server 1 starts and elects itself. -/
theorem C13_raft_start_role_witness :
    ∃ out, raft_start sampleStartDeps sampleFresh = some out ∧ out.rv = 0 ∧
      out.r.id = 1 ∧ out.r.configuration = ⟨[⟨1, "1", true⟩, ⟨2, "2", false⟩]⟩ ∧
      out.r.state = RAFT_LEADER :=
  ⟨_, rfl, rfl, rfl, rfl,
    (C13_raft_start_role sampleStartDeps sampleFresh _ sampleStartDeps_convert rfl rfl).1
      ⟨⟨⟨1, "1", true⟩, rfl, rfl⟩, rfl⟩⟩

/-- Index arithmetic: the position of an index in a log that starts after `k`. -/
theorem index_position (k p : Nat) : k + p + 1 - k - 1 = p := by omega

/-- Index arithmetic: an index above `k + p + 1` is `k + q + 1` for its position `q`. -/
theorem index_split (k p j : Nat) (h : k + p + 1 < j) : j = k + (j - k - 1) + 1 := by omega

/-- Index arithmetic: later indexes have later positions. -/
theorem index_lt_position (k p q : Nat) (h : k + p + 1 < k + q + 1) : p < q := by omega

/-- Index arithmetic: an index after the offset is not covered by it. -/
theorem index_after_offset (k p : Nat) : ¬ (k + p + 1 ≤ k) := by omega

/-- C14 (amended): for every load result, when raft_start returns 0 on a server
that comes from raft_init (commit_index = last_applied = 0), last_applied
equals commit_index, which is the index of the snapshot when one was loaded,
and last_stored is start_index - 1 + n; hence last_applied <= commit_index
holds, and commit_index <= last_stored holds provided the index of a loaded
snapshot is at most start_index - 1 + n. -/
theorem C14_raft_start_indexes (sd : StartDeps) (r : raft) (out : StepOut)
    (hconv : ConvertSpec sd) (hci : r.commit_index = 0) (hla : r.last_applied = 0)
    (h : raft_start sd r = some out) (hrv : out.rv = 0) :
    out.r.last_applied = out.r.commit_index ∧
    out.r.last_stored = (sd.load r.snapshot_trailing).start_index - 1 +
      (sd.load r.snapshot_trailing).entries.length ∧
    (∀ sn, (sd.load r.snapshot_trailing).snapshot = some sn →
      out.r.commit_index = sn.index) ∧
    ((∀ sn, (sd.load r.snapshot_trailing).snapshot = some sn →
        sn.index ≤ (sd.load r.snapshot_trailing).start_index - 1 +
          (sd.load r.snapshot_trailing).entries.length) →
      out.r.commit_index ≤ out.r.last_stored) := by
  obtain ⟨hlog, _, s, hs, hsrv, hout⟩ := raft_start_ok sd r out h hrv
  subst hout
  obtain ⟨g1, _, _⟩ := raft_start_finish_ok sd hconv s.r hrv
  have e1 : (raft_start_finish sd s.r).r.commit_index = s.r.commit_index :=
    congrArg raft_store.commit_index g1
  have e2 : (raft_start_finish sd s.r).r.last_applied = s.r.last_applied :=
    congrArg raft_store.last_applied g1
  have e3 : (raft_start_finish sd s.r).r.last_stored = s.r.last_stored :=
    congrArg raft_store.last_stored g1
  rw [e1, e2, e3]
  have hlog2 : ({ r with current_term := (sd.load r.snapshot_trailing).term,
                         voted_for := (sd.load r.snapshot_trailing).voted_for } :
      raft).log.entries = [] := hlog
  obtain ⟨hstart, r1, hr1, _, _, _, hcases⟩ :=
    raft_start_restore_ok sd _ _ s hlog2 hs hsrv
  subst hr1
  obtain ⟨_, f2, f3, f4, _, _, _, _⟩ := restoreEntries_ok sd r1 _ _ hsrv
  rw [f2, f3, f4]
  rcases hcases with ⟨hsn, hen, rfl⟩ | ⟨hsn, hen, hst, hc, ha⟩ | ⟨sn, hsn, hc, ha, _, _⟩
  · refine ⟨hla.trans hci.symm, rfl, ?_, ?_⟩
    · intro sn hsome
      rw [hsn] at hsome
      exact absurd hsome (by simp)
    · intro _
      have : ({ r with current_term := (sd.load r.snapshot_trailing).term,
                       voted_for := (sd.load r.snapshot_trailing).voted_for } :
        raft).commit_index = 0 := hci
      rw [this]
      exact Nat.zero_le _
  · refine ⟨ha.trans hc.symm, rfl, ?_, ?_⟩
    · intro sn hsome
      rw [hsn] at hsome
      exact absurd hsome (by simp)
    · intro _
      rw [hc, hst]
      have hpos : 0 < (sd.load r.snapshot_trailing).entries.length :=
        List.length_pos.mpr hen
      exact Nat.le_trans hpos (Nat.le_add_left _ _)
  · refine ⟨ha.trans hc.symm, rfl, ?_, ?_⟩
    · intro sn2 hsome
      rw [hsn] at hsome
      simp only [Option.some.injEq] at hsome
      rw [hc, hsome]
    · intro hle
      rw [hc]
      exact hle sn hsn

/-- C14, instance: the sample disk holds three entries from index 1 and no
snapshot; after the start last_applied = commit_index = 1 and last_stored = 3. -/
theorem C14_raft_start_indexes_witness :
    ∃ out, raft_start sampleStartDeps sampleFresh = some out ∧ out.rv = 0 ∧
      out.r.last_applied = 1 ∧ out.r.commit_index = 1 ∧ out.r.last_stored = 3 ∧
      out.r.commit_index ≤ out.r.last_stored :=
  ⟨_, rfl, rfl, rfl, rfl, rfl,
    (C14_raft_start_indexes sampleStartDeps sampleFresh _ sampleStartDeps_convert rfl rfl rfl
      rfl).2.2.2 (fun sn hsn => Option.noConfusion (show none = some sn from hsn))⟩

/-- C14, counterexample: the disk holds a snapshot at index 100 and no entry,
the log being reported to start at index 1. raft_start returns 0 with
last_applied = commit_index = 100 and last_stored = 0. -/
theorem C14_counterexample_snapshot_ahead_of_log :
    (sampleStartDepsSnapshot.load 128).start_index = 1 ∧
    (raft_start sampleStartDepsSnapshot sampleFresh).map
        (fun out => (out.rv, out.r.last_applied, out.r.commit_index, out.r.last_stored)) =
      some (0, 100, 100, 0) :=
  ⟨rfl, rfl⟩

/-- C15 (amended): after raft_start returns 0 having loaded at least one
configuration entry, configuration_index is the index of the last
configuration entry of the log and the in-memory configuration is the decoding
of that entry, configuration_uncommitted_index being left as it was; the entry
need not be committed. -/
theorem C15_raft_start_configuration (sd : StartDeps) (r : raft) (out : StepOut)
    (hconv : ConvertSpec sd)
    (hchange : ∃ e ∈ (sd.load r.snapshot_trailing).entries, e.type = RAFT_CHANGE)
    (h : raft_start sd r = some out) (hrv : out.rv = 0) :
    ∃ e, logGet out.r.log out.r.configuration_index = some e ∧ e.type = RAFT_CHANGE ∧
      sd.configurationDecode e.buf = (0, out.r.configuration) ∧
      (∀ j e', out.r.configuration_index < j → logGet out.r.log j = some e' →
        e'.type ≠ RAFT_CHANGE) ∧
      out.r.configuration_uncommitted_index = r.configuration_uncommitted_index := by
  obtain ⟨hlog, _, s, hs, hsrv, hout⟩ := raft_start_ok sd r out h hrv
  subst hout
  obtain ⟨g1, _, _⟩ := raft_start_finish_ok sd hconv s.r hrv
  have e1 : (raft_start_finish sd s.r).r.log = s.r.log := congrArg raft_store.log g1
  have e2 : (raft_start_finish sd s.r).r.configuration = s.r.configuration :=
    congrArg raft_store.configuration g1
  have e3 : (raft_start_finish sd s.r).r.configuration_index = s.r.configuration_index :=
    congrArg raft_store.configuration_index g1
  have e4 : (raft_start_finish sd s.r).r.configuration_uncommitted_index =
      s.r.configuration_uncommitted_index :=
    congrArg raft_store.configuration_uncommitted_index g1
  rw [e1, e2, e3, e4]
  have hlog2 : ({ r with current_term := (sd.load r.snapshot_trailing).term,
                         voted_for := (sd.load r.snapshot_trailing).voted_for } :
      raft).log.entries = [] := hlog
  obtain ⟨hstart, r1, hr1, _, hempty, hunc, _⟩ :=
    raft_start_restore_ok sd _ _ s hlog2 hs hsrv
  subst hr1
  obtain ⟨f1, _, _, _, _, f6, _, f8⟩ := restoreEntries_ok sd r1 _ _ hsrv
  rcases lastChange_spec (sd.load r.snapshot_trailing).entries
      ((sd.load r.snapshot_trailing).start_index - 1) none with
    ⟨hno, _⟩ | ⟨p, e, hp, he, hlast, hres⟩
  · obtain ⟨e, hmem, hty⟩ := hchange
    exact absurd hty (hno e hmem)
  · obtain ⟨hdec, hidx⟩ := f8 e _ hres
    have hget : ∀ q, logGet (restoreEntries sd r1 (sd.load r.snapshot_trailing).start_index
        (sd.load r.snapshot_trailing).entries).r.log
        ((sd.load r.snapshot_trailing).start_index - 1 + q + 1) =
        (sd.load r.snapshot_trailing).entries.get? q := by
      intro q
      rw [f1, hempty]
      simp only [logGet, logSeek, List.nil_append, index_after_offset, if_false,
        index_position]
    refine ⟨e, ?_, he, hdec, ?_, ?_⟩
    · rw [hidx, hget]
      exact hp
    · intro j e' hj hje
      rw [hidx] at hj
      obtain ⟨q, rfl⟩ : ∃ q, j = (sd.load r.snapshot_trailing).start_index - 1 + q + 1 :=
        ⟨_, index_split _ p j hj⟩
      rw [hget] at hje
      have hpq : p < q := index_lt_position _ p q hj
      exact hlast q e' hpq hje
    · rw [f6]
      exact hunc

/-- C15, instance: the sample disk holds configuration entries at indexes 1
and 3; after the start configuration_index is 3 and the configuration is the
decoding of entry 3. -/
theorem C15_raft_start_configuration_witness :
    ∃ out, raft_start sampleStartDeps sampleFresh = some out ∧ out.rv = 0 ∧
      out.r.configuration_index = 3 ∧
      ∃ e, logGet out.r.log out.r.configuration_index = some e ∧ e.type = RAFT_CHANGE ∧
        sampleStartDeps.configurationDecode e.buf = (0, out.r.configuration) ∧
        (∀ j e', out.r.configuration_index < j → logGet out.r.log j = some e' →
          e'.type ≠ RAFT_CHANGE) ∧
        out.r.configuration_uncommitted_index = sampleFresh.configuration_uncommitted_index :=
  ⟨_, rfl, rfl, rfl,
    C15_raft_start_configuration sampleStartDeps sampleFresh _ sampleStartDeps_convert
      ⟨⟨1, RAFT_CHANGE, ⟨64, 8⟩, 0⟩, by decide, rfl⟩ rfl rfl⟩

/-- C15, counterexample: the sample disk holds the entries CHANGE, COMMAND,
CHANGE from index 1 and no snapshot. raft_start returns 0 with
configuration_index = 3 and configuration_uncommitted_index = 0 while
commit_index = 1: the configuration entry at index 3 is not known to be
committed. -/
theorem C15_counterexample_configuration_not_committed :
    (raft_start sampleStartDeps sampleFresh).map
        (fun out => (out.rv, out.r.configuration_index,
          out.r.configuration_uncommitted_index, out.r.commit_index)) =
      some (0, 3, 0, 1) :=
  rfl

/-! ## Facts about the byte order helpers -/

theorem byteLE_length (n v : Nat) : (byteLE n v).length = n := by
  induction n generalizing v with
  | zero => rfl
  | succ n ih => simp only [byteLE, List.length_cons, ih]

/-- Reading back the `n` bytes of a value gives the value as an `n`-byte
unsigned integer. -/
theorem byteFromLE_byteLE (n v : Nat) : byteFromLE (byteLE n v) = v % 256 ^ n := by
  induction n generalizing v with
  | zero => simp [byteLE, byteFromLE, Nat.mod_one]
  | succ n ih => rw [byteLE, byteFromLE, ih, pow_succ', Nat.mod_mul]

theorem bytePutN_bind (n : Nat) (c : WriteCursor) (v : Nat)
    (f : WriteCursor → Option WriteCursor) :
    (bytePutN n c v).bind f =
      if c.ahead.length < n then none else f ⟨c.behind ++ byteLE n v, c.ahead.drop n⟩ := by
  unfold bytePutN
  split_ifs <;> rfl

theorem bytePutN_ok (n : Nat) (c : WriteCursor) (v : Nat) (h : n ≤ c.ahead.length) :
    bytePutN n c v = some ⟨c.behind ++ byteLE n v, c.ahead.drop n⟩ := by
  unfold bytePutN
  rw [if_neg (Nat.not_lt.mpr h)]

theorem cursorAdd_bind (c : WriteCursor) (n : Nat) (f : WriteCursor → Option WriteCursor) :
    (cursorAdd c n).bind f =
      if c.ahead.length < n then none
      else f ⟨c.behind ++ c.ahead.take n, c.ahead.drop n⟩ := by
  unfold cursorAdd
  split_ifs <;> rfl

/-- A value stored at the cursor is what a load at the cursor returns,
truncated to `n` bytes. -/
theorem byteGetN_append (n v : Nat) (rest : List Nat) :
    byteGetN n (byteLE n v ++ rest) = some (v % 256 ^ n, rest) := by
  have hlen := byteLE_length n v
  unfold byteGetN
  rw [if_neg (by rw [List.length_append, hlen]; omega)]
  rw [List.take_left' hlen, List.drop_left' hlen, byteFromLE_byteLE]

theorem byteGet64_append (v : Nat) (rest : List Nat) (h : v < 2 ^ 64) :
    byteGet64 (byteLE 8 v ++ rest) = some (v, rest) := by
  unfold byteGet64
  rw [byteGetN_append, Nat.mod_eq_of_lt (by norm_num at h ⊢; exact h)]

/-! ## Facts about the RPC encoding -/

theorem encodeRequestVote_ok (p : raft_request_vote) (c : WriteCursor)
    (h : 32 ≤ c.ahead.length) :
    encodeRequestVote p c =
      some ⟨c.behind ++ wireBody (.request_vote p), c.ahead.drop 32⟩ := by
  simp only [encodeRequestVote, bytePut64, bytePutN_bind, List.length_drop]
  rw [if_neg (by omega), if_neg (by omega), if_neg (by omega), bytePutN_ok _ _ _ (by
    simp only [List.length_drop]; omega)]
  simp only [wireBody, List.drop_drop, List.append_assoc]

theorem encodeRequestVoteResult_ok (p : raft_request_vote_result) (c : WriteCursor)
    (h : 16 ≤ c.ahead.length) :
    encodeRequestVoteResult p c =
      some ⟨c.behind ++ wireBody (.request_vote_result p), c.ahead.drop 16⟩ := by
  simp only [encodeRequestVoteResult, bytePut64, bytePutN_bind, List.length_drop]
  rw [if_neg (by omega), bytePutN_ok _ _ _ (by simp only [List.length_drop]; omega)]
  simp only [wireBody, List.drop_drop, List.append_assoc]

theorem encodeAppendEntriesResult_ok (p : raft_append_entries_result) (c : WriteCursor)
    (h : 24 ≤ c.ahead.length) :
    encodeAppendEntriesResult p c =
      some ⟨c.behind ++ wireBody (.append_entries_result p), c.ahead.drop 24⟩ := by
  simp only [encodeAppendEntriesResult, bytePut64, bytePutN_bind, List.length_drop]
  rw [if_neg (by omega), if_neg (by omega), bytePutN_ok _ _ _ (by
    simp only [List.length_drop]; omega)]
  simp only [wireBody, List.drop_drop, List.append_assoc]

/-- The length of the body of a fixed-size message: 32, 16 and 24 bytes. -/
theorem wireBody_length (m : raft_message) (hm : isFixedSize m) :
    (wireBody m.body).length =
      if m.type = RAFT_IO_REQUEST_VOTE then 32
      else if m.type = RAFT_IO_REQUEST_VOTE_RESULT then 16 else 24 := by
  obtain ⟨ty, sid, addr, body⟩ := m
  cases body <;> simp only [isFixedSize] at hm <;>
    first
    | exact absurd hm id
    | (subst hm; simp [wireBody, byteLE_length, RAFT_IO_REQUEST_VOTE,
        RAFT_IO_REQUEST_VOTE_RESULT, RAFT_IO_APPEND_ENTRIES_RESULT])

theorem uvEncodeMessage_len_fixed (env : UvEnv) (m : raft_message) (hm : isFixedSize m) :
    uvEncodeMessage_len env m = some (16 + (wireBody m.body).length) := by
  obtain ⟨ty, sid, addr, body⟩ := m
  cases body <;> simp only [isFixedSize] at hm <;>
    first
    | exact absurd hm id
    | (subst hm; simp [uvEncodeMessage_len, wireBody, byteLE_length, RAFT_IO_REQUEST_VOTE,
        RAFT_IO_REQUEST_VOTE_RESULT, RAFT_IO_APPEND_ENTRIES_RESULT, RAFT_IO_APPEND_ENTRIES,
        RAFT_IO_UV__PREAMBLE_SIZE, sizeofRequestVote, sizeofRequestVoteResult,
        sizeofAppendEntriesResult])

theorem uvEncodeMessage_header_fixed (env : UvEnv) (m : raft_message) (c : WriteCursor)
    (hm : isFixedSize m) (h : (wireBody m.body).length ≤ c.ahead.length) :
    uvEncodeMessage_header env m c =
      some ⟨c.behind ++ wireBody m.body, c.ahead.drop (wireBody m.body).length⟩ := by
  obtain ⟨ty, sid, addr, body⟩ := m
  cases body with
  | request_vote p =>
    have hty : ty = RAFT_IO_REQUEST_VOTE := hm
    subst hty
    have hlen : (wireBody (.request_vote p)).length = 32 := by
      simp [wireBody, byteLE_length]
    show encodeRequestVote p c = _
    simp only [hlen] at h ⊢
    exact encodeRequestVote_ok p c h
  | request_vote_result p =>
    have hty : ty = RAFT_IO_REQUEST_VOTE_RESULT := hm
    subst hty
    have hlen : (wireBody (.request_vote_result p)).length = 16 := by
      simp [wireBody, byteLE_length]
    show encodeRequestVoteResult p c = _
    simp only [hlen] at h ⊢
    exact encodeRequestVoteResult_ok p c h
  | append_entries_result p =>
    have hty : ty = RAFT_IO_APPEND_ENTRIES_RESULT := hm
    subst hty
    have hlen : (wireBody (.append_entries_result p)).length = 24 := by
      simp [wireBody, byteLE_length]
    show encodeAppendEntriesResult p c = _
    simp only [hlen] at h ⊢
    exact encodeAppendEntriesResult_ok p c h
  | append_entries p => exact absurd hm id
  | install_snapshot p => exact absurd hm id

theorem uvEncodeMessage_bufs_fixed (env : UvEnv) (m : raft_message) (hm : isFixedSize m)
    (header : uv_buf_t) :
    uvEncodeMessage_bufs env m header =
      if env.calloc_fails 1 then some ⟨RAFT_NOMEM, none, some 1⟩
      else some ⟨0, some [header], some 1⟩ := by
  obtain ⟨ty, sid, addr, body⟩ := m
  cases body <;> simp only [isFixedSize] at hm <;>
    first
    | exact absurd hm id
    | (subst hm; simp [uvEncodeMessage_bufs, uvEncodeMessage_n_bufs, uvEncodeMessage_payloads,
        RAFT_IO_REQUEST_VOTE, RAFT_IO_REQUEST_VOTE_RESULT, RAFT_IO_APPEND_ENTRIES_RESULT,
        RAFT_IO_APPEND_ENTRIES, RAFT_IO_INSTALL_SNAPSHOT])

theorem raft_malloc_ok (env : UvEnv) (size : Nat) (h : env.malloc_fails size = false) :
    ∃ base, env.raft_malloc size = some base ∧ base.length = size := by
  refine ⟨(List.range size).map (fun i => env.heap_fill i % 256), ?_, ?_⟩
  · simp only [UvEnv.raft_malloc, h, Bool.false_eq_true, if_false]
  · simp only [List.length_map, List.length_range]

theorem raft_malloc_fails (env : UvEnv) (size : Nat) (h : env.malloc_fails size = true) :
    env.raft_malloc size = none := by
  simp only [UvEnv.raft_malloc, h, if_true]

/-- Preamble and body of a fixed-size message fill the block exactly. -/
theorem uvEncodeMessage_fill_fixed (env : UvEnv) (m : raft_message) (hm : isFixedSize m)
    (base : List Nat) (hbase : base.length = 16 + (wireBody m.body).length) :
    uvEncodeMessage_fill env m base (16 + (wireBody m.body).length) =
      some ⟨byteLE 8 m.type ++ (byteLE 8 (wireBody m.body).length ++ wireBody m.body), []⟩ := by
  simp only [uvEncodeMessage_fill, bytePut64, bytePutN_bind, List.length_drop,
    RAFT_IO_UV__PREAMBLE_SIZE]
  rw [if_neg (by omega), if_neg (by omega),
    uvEncodeMessage_header_fixed env m _ hm (by simp only [List.length_drop]; omega)]
  simp only [List.nil_append, List.append_assoc, List.drop_drop, Nat.add_sub_cancel_left,
    Option.some.injEq, WriteCursor.mk.injEq, true_and]
  exact List.drop_eq_nil_of_le (by omega)

/-- The function `uvEncodeMessage` on a fixed-size message, whatever the heap
does. -/
theorem uvEncodeMessage_fixed (env : UvEnv) (m : raft_message) (hm : isFixedSize m) :
    uvEncodeMessage env m =
      if env.malloc_fails (16 + (wireBody m.body).length) then some ⟨RAFT_NOMEM, none, none⟩
      else if env.calloc_fails 1 then some ⟨RAFT_NOMEM, none, some 1⟩
      else some ⟨0, some [uv_buf_t.heap
        (byteLE 8 m.type ++ (byteLE 8 (wireBody m.body).length ++ wireBody m.body))
        (16 + (wireBody m.body).length)], some 1⟩ := by
  unfold uvEncodeMessage
  rw [uvEncodeMessage_len_fixed env m hm]
  simp only
  cases hf : env.malloc_fails (16 + (wireBody m.body).length) with
  | true =>
    rw [raft_malloc_fails env _ hf]
    simp only [if_true]
  | false =>
    obtain ⟨base, hb, hlen⟩ := raft_malloc_ok env _ hf
    rw [hb]
    simp only [Bool.false_eq_true, if_false]
    rw [uvEncodeMessage_fill_fixed env m hm base hlen]
    simp only [Option.some_bind, uvEncodeMessage_bufs_fixed env m hm, WriteCursor.bytes,
      List.append_nil]

/-! ## Facts about the RPC decoding -/

theorem uvDecodeMessage_request_vote_result (env : UvEnv) (header : List Nat)
    (prev : raft_message) :
    uvDecodeMessage env RAFT_IO_REQUEST_VOTE_RESULT header prev =
      (decodeRequestVoteResult header).bind fun p =>
        some ⟨0, decodedMessage prev RAFT_IO_REQUEST_VOTE_RESULT (.request_vote_result p), 0⟩ :=
  rfl

theorem uvDecodeMessage_append_entries_result (env : UvEnv) (header : List Nat)
    (prev : raft_message) :
    uvDecodeMessage env RAFT_IO_APPEND_ENTRIES_RESULT header prev =
      (decodeAppendEntriesResult header).bind fun p =>
        some ⟨0, decodedMessage prev RAFT_IO_APPEND_ENTRIES_RESULT (.append_entries_result p),
          0⟩ :=
  rfl

/-- Decoding the body of a fixed-size message whose fields are in range gives
the message back, whatever follows the body in the buffer. -/
theorem uvDecodeMessage_wireBody (env : UvEnv) (m prev : raft_message) (rest : List Nat)
    (hm : isFixedSize m) (hr : fieldsInRange m.body) :
    uvDecodeMessage env m.type (wireBody m.body ++ rest) prev =
      some ⟨0, ⟨m.type, prev.server_id, prev.server_address, m.body⟩, 0⟩ := by
  obtain ⟨ty, sid, addr, body⟩ := m
  cases body with
  | request_vote p =>
    have hty : ty = RAFT_IO_REQUEST_VOTE := hm
    subst hty
    obtain ⟨h1, h2, h3, h4⟩ := hr
    simp only [uvDecodeMessage, if_pos, decodeRequestVote, wireBody, List.append_assoc,
      byteGet64_append _ _ h1, byteGet64_append _ _ h3, byteGet64_append _ _ h4,
      byteGet64_append _ _ (Nat.lt_trans h2 (by norm_num)), Option.some_bind,
      Nat.mod_eq_of_lt h2, decodedMessage]
    rfl
  | request_vote_result p =>
    have hty : ty = RAFT_IO_REQUEST_VOTE_RESULT := hm
    subst hty
    have h1 : p.term < 2 ^ 64 := hr
    have h2 : (if p.vote_granted = true then 1 else 0) < 2 ^ 64 := by
      split_ifs <;> norm_num
    rw [uvDecodeMessage_request_vote_result]
    simp only [decodeRequestVoteResult, wireBody, List.append_assoc,
      byteGet64_append _ _ h1, byteGet64_append _ _ h2, Option.some_bind, decodedMessage]
    obtain ⟨t, vg⟩ := p
    cases vg <;> rfl
  | append_entries_result p =>
    have hty : ty = RAFT_IO_APPEND_ENTRIES_RESULT := hm
    subst hty
    obtain ⟨h1, h2, h3⟩ := hr
    rw [uvDecodeMessage_append_entries_result]
    simp only [decodeAppendEntriesResult, wireBody, List.append_assoc,
      byteGet64_append _ _ h1, byteGet64_append _ _ h2, byteGet64_append _ _ h3,
      Option.some_bind, decodedMessage]
    rfl
  | append_entries p => exact absurd hm id
  | install_snapshot p => exact absurd hm id

/-- The body of a message that starts after a preamble of two u64. -/
theorem preamble_drop (a b : Nat) (body : List Nat) :
    (byteLE 8 a ++ (byteLE 8 b ++ body)).drop 16 = body := by
  rw [← List.append_assoc]
  exact List.drop_left' (by rw [List.length_append, byteLE_length, byteLE_length])

/-- C17: for every RequestVote, RequestVoteResult and AppendEntriesResult
message whose fields hold values of their C types, whenever uvEncodeMessage
returns 0 it has produced one buffer, and uvDecodeMessage called with the same
type code on the bytes after the 16-byte preamble returns 0, reports
payload_len 0 and yields a message with the same type and the same fields. -/
theorem C17_fixed_size_round_trip (env env2 : UvEnv) (m prev : raft_message)
    (out : EncodeOut) (hm : isFixedSize m) (hr : fieldsInRange m.body)
    (henc : uvEncodeMessage env m = some out) (hrv : out.rv = 0) :
    ∃ base len, out.bufs = some [uv_buf_t.heap base len] ∧
      ∃ d, uvDecodeMessage env2 m.type (base.drop 16) prev = some d ∧
        d.rv = 0 ∧ d.payload_len = 0 ∧ d.message.type = m.type ∧ d.message.body = m.body := by
  rw [uvEncodeMessage_fixed env m hm] at henc
  split_ifs at henc with h1 h2
  · simp only [Option.some.injEq] at henc
    subst henc
    exact absurd hrv (by decide)
  · simp only [Option.some.injEq] at henc
    subst henc
    exact absurd hrv (by decide)
  · simp only [Option.some.injEq] at henc
    subst henc
    refine ⟨_, _, rfl, ⟨0, ⟨m.type, prev.server_id, prev.server_address, m.body⟩, 0⟩, ?_,
      rfl, rfl, rfl, rfl⟩
    rw [preamble_drop]
    have h := uvDecodeMessage_wireBody env2 m prev [] hm hr
    rw [List.append_nil] at h
    exact h

/-- C17, instance: the RequestVote of candidate 2 in term 5 is encoded in 48
bytes; decoding the 32 bytes after the preamble gives the four fields back. -/
theorem C17_fixed_size_round_trip_witness :
    uvEncodeMessage sampleUvEnv sampleRequestVote = some sampleRequestVoteEncoded ∧
    ∃ base len, sampleRequestVoteEncoded.bufs = some [uv_buf_t.heap base len] ∧
      ∃ d, uvDecodeMessage sampleUvEnv sampleRequestVote.type (base.drop 16) sampleBlank =
          some d ∧
        d.rv = 0 ∧ d.payload_len = 0 ∧ d.message.type = sampleRequestVote.type ∧
        d.message.body = sampleRequestVote.body :=
  ⟨rfl, C17_fixed_size_round_trip sampleUvEnv sampleUvEnv sampleRequestVote sampleBlank
    sampleRequestVoteEncoded rfl ⟨by decide, by decide, by decide, by decide⟩ rfl rfl⟩

/-- C19 (amended): for every RequestVote, RequestVoteResult and
AppendEntriesResult message, provided raft_malloc and raft_calloc succeed,
uvEncodeMessage returns 0 and exactly one buffer: the type code and the body
length as little-endian u64, then the body, which is the fields of the message
in declaration order, each as a little-endian u64 (vote_granted as 0 or 1);
the body length is 32, 16 and 24 bytes respectively and the buffer holds
16 bytes more. -/
theorem C19_uvEncodeMessage_fixed_size (env : UvEnv) (m : raft_message)
    (hm : isFixedSize m)
    (hmalloc : env.malloc_fails (16 + (wireBody m.body).length) = false)
    (hcalloc : env.calloc_fails 1 = false) :
    uvEncodeMessage env m =
      some ⟨0, some [uv_buf_t.heap
        (byteLE 8 m.type ++ (byteLE 8 (wireBody m.body).length ++ wireBody m.body))
        (16 + (wireBody m.body).length)], some 1⟩ ∧
    (byteLE 8 m.type ++ (byteLE 8 (wireBody m.body).length ++ wireBody m.body)).length =
      16 + (wireBody m.body).length ∧
    (wireBody m.body).length =
      (if m.type = RAFT_IO_REQUEST_VOTE then 32
       else if m.type = RAFT_IO_REQUEST_VOTE_RESULT then 16 else 24) := by
  refine ⟨?_, ?_, wireBody_length m hm⟩
  · rw [uvEncodeMessage_fixed env m hm, hmalloc, hcalloc]
    simp only [Bool.false_eq_true, if_false]
  · simp only [List.length_append, byteLE_length]
    omega

/-- C19, instance: the buffer of the RequestVote of candidate 2 in term 5. -/
theorem C19_uvEncodeMessage_fixed_size_witness :
    uvEncodeMessage sampleUvEnv sampleRequestVote = some sampleRequestVoteEncoded :=
  (C19_uvEncodeMessage_fixed_size sampleUvEnv sampleRequestVote rfl rfl rfl).1

/-- C19, counterexample: on a heap where raft_malloc fails, uvEncodeMessage
returns RAFT_NOMEM for the RequestVote and stores no buffer. -/
theorem C19_counterexample_no_buffer_on_nomem :
    uvEncodeMessage sampleUvEnvNoMem sampleRequestVote = some ⟨RAFT_NOMEM, none, none⟩ :=
  rfl

/-- When the loop of `uvEncodeBatchHeader` completes, the block had room for
one header of 16 bytes per entry and holds the headers behind the cursor. -/
theorem uvEncodeBatchHeader_loop_some (es : List raft_entry) (c c' : WriteCursor)
    (h : uvEncodeBatchHeader_loop es c = some c') :
    16 * es.length ≤ c.ahead.length ∧
    c' = ⟨c.behind ++ batchHeaderBytes es c.ahead, c.ahead.drop (16 * es.length)⟩ := by
  induction es generalizing c c' with
  | nil =>
    simp only [uvEncodeBatchHeader_loop, Option.some.injEq] at h
    subst h
    simp [batchHeaderBytes]
  | cons e es ih =>
    simp only [uvEncodeBatchHeader_loop, bytePut64, bytePut8, bytePut32, bytePutN_bind,
      cursorAdd_bind, List.length_drop] at h
    split_ifs at h with h1 h2 h3 h4
    obtain ⟨hb, hc⟩ := ih _ _ h
    simp only [List.length_drop, List.length_cons] at hb ⊢
    refine ⟨by omega, ?_⟩
    rw [hc]
    simp only [batchHeaderBytes, List.drop_drop, List.append_assoc, List.length_cons,
      WriteCursor.mk.injEq, List.append_cancel_left_eq]
    refine ⟨?_, ?_⟩
    · norm_num
    · congr 1
      omega

/-- When `encodeAppendEntries` completes, the block had room for the four
fields, the count and the entry headers, and holds them behind the cursor. -/
theorem encodeAppendEntries_some (p : raft_append_entries) (c c' : WriteCursor)
    (h : encodeAppendEntries p c = some c') :
    40 + 16 * p.n_entries ≤ c.ahead.length ∧
    c' = ⟨c.behind ++ appendEntriesBytes p c.ahead,
      c.ahead.drop (40 + 16 * p.n_entries)⟩ := by
  simp only [encodeAppendEntries, uvEncodeBatchHeader, bytePut64, bytePutN_bind,
    List.length_drop, raft_append_entries.n_entries, List.take_length] at h
  split_ifs at h with h1 h2 h3 h4 h5
  obtain ⟨hb, hc⟩ := uvEncodeBatchHeader_loop_some _ _ _ h
  simp only [List.length_drop] at hb
  refine ⟨by simp only [raft_append_entries.n_entries]; omega, ?_⟩
  rw [hc]
  simp only [appendEntriesBytes, raft_append_entries.n_entries, List.drop_drop,
    List.append_assoc, WriteCursor.mk.injEq, List.append_cancel_left_eq]

/-- What a call of `uvEncodeMessage` that returns 0 has produced for an
AppendEntries message: a header buffer with the preamble, the body as
`encodeAppendEntries` leaves it and the bytes of the block the encoder has not
reached, then one buffer per entry. -/
theorem uvEncodeMessage_append_entries_some (env : UvEnv) (m : raft_message)
    (p : raft_append_entries) (out : EncodeOut) (hty : m.type = RAFT_IO_APPEND_ENTRIES)
    (hb : m.body = .append_entries p) (henc : uvEncodeMessage env m = some out)
    (hrv : out.rv = 0) :
    ∃ ahead, 40 + 16 * p.n_entries ≤ ahead.length ∧
      ahead.length = sizeofAppendEntries p ∧
      out.bufs = some (uv_buf_t.heap
        (byteLE 8 m.type ++ (byteLE 8 (sizeofAppendEntries p) ++
          (appendEntriesBytes p ahead ++ ahead.drop (40 + 16 * p.n_entries))))
        (16 + sizeofAppendEntries p) :: uvEncodeMessage_payloads m) := by
  obtain ⟨ty, sid, addr, body⟩ := m
  simp only at hty hb
  subst hty hb
  have hlen : uvEncodeMessage_len env ⟨RAFT_IO_APPEND_ENTRIES, sid, addr, .append_entries p⟩ =
      some (16 + sizeofAppendEntries p) := rfl
  unfold uvEncodeMessage at henc
  rw [hlen] at henc
  simp only at henc
  cases hf : env.malloc_fails (16 + sizeofAppendEntries p) with
  | true =>
    rw [raft_malloc_fails env _ hf] at henc
    simp only [Option.some.injEq] at henc
    subst henc
    exact absurd hrv (by decide)
  | false =>
    obtain ⟨base, hbase, hblen⟩ := raft_malloc_ok env _ hf
    rw [hbase] at henc
    simp only [Option.bind_eq_some] at henc
    obtain ⟨cursor, hfill, hbufs⟩ := henc
    simp only [uvEncodeMessage_fill, bytePut64, bytePutN_bind, List.length_drop,
      RAFT_IO_UV__PREAMBLE_SIZE] at hfill
    split_ifs at hfill with h1 h2
    have hhead : uvEncodeMessage_header env
        ⟨RAFT_IO_APPEND_ENTRIES, sid, addr, .append_entries p⟩
        ⟨[] ++ byteLE 8 RAFT_IO_APPEND_ENTRIES ++
          byteLE 8 (16 + sizeofAppendEntries p - (8 + 8)), List.drop 8 (List.drop 8 base)⟩ =
        encodeAppendEntries p
          ⟨[] ++ byteLE 8 RAFT_IO_APPEND_ENTRIES ++
            byteLE 8 (16 + sizeofAppendEntries p - (8 + 8)), List.drop 8 (List.drop 8 base)⟩ :=
      rfl
    rw [hhead] at hfill
    obtain ⟨hroom, hc⟩ := encodeAppendEntries_some p _ _ hfill
    simp only [List.length_drop, List.drop_drop] at hroom hc
    refine ⟨base.drop 16, by simp only [List.length_drop]; omega,
      by simp only [List.length_drop]; omega, ?_⟩
    unfold uvEncodeMessage_bufs at hbufs
    simp only at hbufs
    split_ifs at hbufs with h3 h4
    · simp only [Option.some.injEq] at hbufs
      subst hbufs
      have hnomem : RAFT_NOMEM = 0 := hrv
      exact absurd hnomem (by decide)
    · simp only [Option.some.injEq] at hbufs
      subst hbufs
      rw [hc]
      simp only [WriteCursor.bytes, List.nil_append, List.append_assoc, List.drop_drop,
        Nat.add_sub_cancel_left]

theorem byteGet8_append (v : Nat) (rest : List Nat) (h : v < 256) :
    byteGet8 (byteLE 1 v ++ rest) = some (v, rest) := by
  unfold byteGet8
  rw [byteGetN_append, Nat.mod_eq_of_lt (by norm_num; exact h)]

theorem byteGet32_append (v : Nat) (rest : List Nat) (h : v < 2 ^ 32) :
    byteGet32 (byteLE 4 v ++ rest) = some (v, rest) := by
  unfold byteGet32
  rw [byteGetN_append, Nat.mod_eq_of_lt (by norm_num at h ⊢; exact h)]

theorem decodedEntries_length (env : UvEnv) (i : Nat) (es : List raft_entry) :
    (decodedEntries env i es).length = es.length := by
  induction es generalizing i with
  | nil => rfl
  | cons e es ih => simp only [decodedEntries, List.length_cons, ih]

/-- The decoded slots carry the term, type and payload length of the entries. -/
theorem decodedEntries_header (env : UvEnv) (i : Nat) (es : List raft_entry) :
    (decodedEntries env i es).map entryHeader = es.map entryHeader := by
  induction es generalizing i with
  | nil => rfl
  | cons e es ih => simp only [decodedEntries, List.map_cons, ih, entryHeader]

/-- The loop of `uvDecodeBatchHeader` on the headers of encodable entries, as
the encoder leaves them in a block of any content, returns 0 and fills one slot
per entry. -/
theorem uvDecodeBatchHeader_loop_batch (env : UvEnv) (es : List raft_entry)
    (gaps tail : List Nat) (i : Nat) (acc : List raft_entry)
    (hlen : 16 * es.length ≤ gaps.length)
    (hterm : ∀ e ∈ es, e.term < 2 ^ 64) (hval : ∀ e ∈ es, entryEncodable e) :
    uvDecodeBatchHeader_loop env es.length i (batchHeaderBytes es gaps ++ tail) acc =
      some (0, acc ++ decodedEntries env i es) := by
  induction es generalizing gaps i acc with
  | nil => simp only [List.length_nil, uvDecodeBatchHeader_loop, decodedEntries, List.append_nil]
  | cons e es ih =>
    have ht : e.term < 2 ^ 64 := hterm e (List.mem_cons_self e es)
    obtain ⟨hty, hl⟩ := hval e (List.mem_cons_self e es)
    have hty2 : e.type < 256 := by
      rcases hty with h | h | h <;> rw [h] <;> decide
    have hnot : ¬ (e.type ≠ RAFT_COMMAND ∧ e.type ≠ RAFT_BARRIER ∧ e.type ≠ RAFT_CHANGE) := by
      rcases hty with h | h | h <;> rw [h] <;> decide
    have hgap : ((gaps.drop 9).take 3).length = 3 := by
      simp only [List.length_cons] at hlen
      simp only [List.length_take, List.length_drop]
      omega
    have hrest : 16 * es.length ≤ (gaps.drop 16).length := by
      simp only [List.length_cons] at hlen
      simp only [List.length_drop]
      omega
    simp only [List.length_cons, uvDecodeBatchHeader_loop, batchHeaderBytes, List.append_assoc,
      byteGet64_append _ _ ht, byteGet8_append _ _ hty2, Option.some_bind, if_neg hnot,
      List.drop_left' hgap, byteGet32_append _ _ hl]
    rw [ih (gaps.drop 16) (i + 1) _ hrest
      (fun x hx => hterm x (List.mem_cons_of_mem e hx))
      (fun x hx => hval x (List.mem_cons_of_mem e hx))]
    simp only [decodedEntries, List.append_assoc, List.singleton_append]

theorem uvDecodeMessage_append_entries_eq (env : UvEnv) (header : List Nat)
    (prev : raft_message) :
    uvDecodeMessage env RAFT_IO_APPEND_ENTRIES header prev =
      uvDecodeMessage_append_entries env RAFT_IO_APPEND_ENTRIES header prev :=
  rfl

/-- The function `uvDecodeBatchHeader` on a count and the headers of that many
encodable entries. -/
theorem uvDecodeBatchHeader_batch (env : UvEnv) (es : List raft_entry)
    (gaps tail : List Nat) (hlen : 16 * es.length ≤ gaps.length)
    (hn : es.length < 2 ^ 32) (hterm : ∀ e ∈ es, e.term < 2 ^ 64)
    (hval : ∀ e ∈ es, entryEncodable e)
    (halloc : es.length ≠ 0 → env.malloc_fails (es.length * sizeof_raft_entry) = false)
    (blk : Bool) :
    uvDecodeBatchHeader env (byteLE 8 es.length ++ (batchHeaderBytes es gaps ++ tail)) blk =
      some ⟨0, if es.length = 0 then none else some (decodedEntries env 0 es), es.length⟩ := by
  have hn64 : es.length < 2 ^ 64 := Nat.lt_trans hn (by norm_num)
  simp only [uvDecodeBatchHeader, byteGet64_append _ _ hn64, Option.some_bind,
    Nat.mod_eq_of_lt hn]
  by_cases h0 : es.length = 0
  · rw [if_pos h0, if_pos h0]
  · rw [if_neg h0, if_neg h0, halloc h0]
    simp only [Bool.false_eq_true, if_false]
    rw [uvDecodeBatchHeader_loop_batch env es gaps tail 0 [] hlen hterm hval]
    simp only [Option.some_bind, List.nil_append, ne_eq, not_true_eq_false, if_false]

/-- Decoding the body of an AppendEntries message as the encoder leaves it. -/
theorem uvDecodeMessage_appendEntriesBytes (env : UvEnv) (p : raft_append_entries)
    (ahead tail : List Nat) (prev : raft_message)
    (hroom : 40 + 16 * p.n_entries ≤ ahead.length) (hn : p.n_entries < 2 ^ 32)
    (hr : fieldsInRange (.append_entries p)) (hval : ∀ e ∈ p.entries, entryEncodable e)
    (halloc : p.n_entries ≠ 0 →
      env.malloc_fails (p.n_entries * sizeof_raft_entry) = false) :
    uvDecodeMessage env RAFT_IO_APPEND_ENTRIES (appendEntriesBytes p ahead ++ tail) prev =
      some ⟨0, ⟨RAFT_IO_APPEND_ENTRIES, prev.server_id, prev.server_address,
          .append_entries ⟨p.term, p.prev_log_index, p.prev_log_term, p.leader_commit,
            decodedEntries env 0 p.entries⟩⟩,
        uvDecodeMessage_payload (decodedEntries env 0 p.entries) 0⟩ := by
  obtain ⟨h1, h2, h3, h4, hterm⟩ := hr
  have hgaps : 16 * p.entries.length ≤ (ahead.drop 40).length := by
    simp only [raft_append_entries.n_entries] at hroom
    simp only [List.length_drop]
    omega
  rw [uvDecodeMessage_append_entries_eq]
  simp only [uvDecodeMessage_append_entries, decodeAppendEntries, appendEntriesBytes,
    List.append_assoc, byteGet64_append _ _ h1, byteGet64_append _ _ h2,
    byteGet64_append _ _ h3, byteGet64_append _ _ h4, Option.some_bind,
    raft_append_entries.n_entries,
    uvDecodeBatchHeader_batch env p.entries (ahead.drop 40) tail hgaps hn hterm hval halloc
      false]
  by_cases h0 : p.entries.length = 0
  · have hnil : p.entries = [] := List.length_eq_zero.mp h0
    simp only [hnil, List.length_nil, if_true, decodedEntries, uvDecodeMessage_payload,
      List.foldl_nil]
    rfl
  · simp only [if_neg h0]
    rfl

/-- C18 (amended): for every AppendEntries message with n entries, each of type
COMMAND, BARRIER or CHANGE and payload length below 2^32, whenever
uvEncodeMessage returns 0 and the allocation of the array of n entries
succeeds in the decoder, decoding the body written by uvEncodeMessage returns
0 and yields the same term, prev_log_index, prev_log_term, leader_commit and n,
and for every i < n the same term, type and payload length of entry i. The
heap of the encoder is arbitrary, and with it the content of the three
reserved bytes of each entry header. -/
theorem C18_append_entries_round_trip (env env2 : UvEnv) (m prev : raft_message)
    (p : raft_append_entries) (out : EncodeOut)
    (hty : m.type = RAFT_IO_APPEND_ENTRIES) (hb : m.body = .append_entries p)
    (hr : fieldsInRange m.body) (hval : ∀ e ∈ p.entries, entryEncodable e)
    (henc : uvEncodeMessage env m = some out) (hrv : out.rv = 0)
    (halloc : p.n_entries ≠ 0 →
      env2.malloc_fails (p.n_entries * sizeof_raft_entry) = false) :
    ∃ base len payloads, out.bufs = some (uv_buf_t.heap base len :: payloads) ∧
      ∃ d q, uvDecodeMessage env2 m.type (base.drop 16) prev = some d ∧ d.rv = 0 ∧
        d.message.type = m.type ∧ d.message.body = .append_entries q ∧
        q.term = p.term ∧ q.prev_log_index = p.prev_log_index ∧
        q.prev_log_term = p.prev_log_term ∧ q.leader_commit = p.leader_commit ∧
        q.n_entries = p.n_entries ∧
        ∀ i e, p.entries.get? i = some e →
          ∃ e', q.entries.get? i = some e' ∧ e'.term = e.term ∧ e'.type = e.type ∧
            e'.buf.len = e.buf.len := by
  obtain ⟨ahead, hroom, hsize, hbufs⟩ :=
    uvEncodeMessage_append_entries_some env m p out hty hb henc hrv
  have hn : p.n_entries < 2 ^ 32 := by
    rw [hsize] at hroom
    simp only [sizeofAppendEntries] at hroom
    norm_num at hroom ⊢
    omega
  rw [hb] at hr
  refine ⟨_, _, _, hbufs,
    ⟨0, ⟨RAFT_IO_APPEND_ENTRIES, prev.server_id, prev.server_address,
        .append_entries ⟨p.term, p.prev_log_index, p.prev_log_term, p.leader_commit,
          decodedEntries env2 0 p.entries⟩⟩,
      uvDecodeMessage_payload (decodedEntries env2 0 p.entries) 0⟩,
    ⟨p.term, p.prev_log_index, p.prev_log_term, p.leader_commit,
      decodedEntries env2 0 p.entries⟩, ?_, rfl, ?_, rfl, rfl, rfl, rfl, rfl, ?_, ?_⟩
  · rw [preamble_drop, hty]
    exact uvDecodeMessage_appendEntriesBytes env2 p ahead _ prev hroom hn hr hval halloc
  · exact hty.symm
  · exact decodedEntries_length env2 0 p.entries
  · intro i e hget
    have hmap := congrArg (fun l => l.get? i) (decodedEntries_header env2 0 p.entries)
    simp only [List.get?_eq_getElem?, List.getElem?_map] at hmap hget ⊢
    rw [hget] at hmap
    cases hdec : (decodedEntries env2 0 p.entries)[i]? with
    | none =>
      rw [hdec] at hmap
      exact absurd hmap (by simp)
    | some e' =>
      rw [hdec] at hmap
      simp only [Option.map_some', Option.some.injEq, entryHeader, Prod.mk.injEq] at hmap
      exact ⟨e', rfl, hmap.1, hmap.2.1, hmap.2.2⟩

/-- C18, instance: the sample AppendEntries with a command of 8 bytes and a
barrier is encoded in 96 bytes; decoding the body gives the fields and the two
entry headers back. -/
theorem C18_append_entries_round_trip_witness :
    uvEncodeMessage sampleUvEnv sampleAppendEntries = some sampleAppendEntriesEncoded ∧
    ∃ base len payloads,
      sampleAppendEntriesEncoded.bufs = some (uv_buf_t.heap base len :: payloads) ∧
      ∃ d q, uvDecodeMessage sampleUvEnv sampleAppendEntries.type (base.drop 16) sampleBlank =
          some d ∧ d.rv = 0 ∧
        d.message.type = sampleAppendEntries.type ∧ d.message.body = .append_entries q ∧
        q.term = 5 ∧ q.prev_log_index = 7 ∧ q.prev_log_term = 4 ∧ q.leader_commit = 6 ∧
        q.n_entries = 2 ∧
        ∀ i e, sampleAppendEntries.append_entries.entries.get? i = some e →
          ∃ e', q.entries.get? i = some e' ∧ e'.term = e.term ∧ e'.type = e.type ∧
            e'.buf.len = e.buf.len :=
  ⟨rfl, C18_append_entries_round_trip sampleUvEnv sampleUvEnv sampleAppendEntries sampleBlank
    sampleAppendEntries.append_entries sampleAppendEntriesEncoded rfl rfl
    ⟨by decide, by decide, by decide, by decide, by decide⟩ (by decide) rfl rfl
    (fun _ => rfl)⟩

/-- C18, counterexample: the body of the sample AppendEntries is decoded on a
heap where raft_malloc fails. decodeAppendEntries returns RAFT_NOMEM with the
array NULL and n_entries 2, and uvDecodeMessage then reads the payload lengths
through the NULL array: it does not return 0. -/
theorem C18_counterexample_entries_array_not_allocated :
    uvEncodeMessage sampleUvEnv sampleAppendEntries = some sampleAppendEntriesEncoded ∧
    decodeAppendEntries sampleUvEnvNoMem sampleAppendEntriesBody =
      some (RAFT_NOMEM, ⟨5, 7, 4, 6, none, 2⟩) ∧
    uvDecodeMessage sampleUvEnvNoMem RAFT_IO_APPEND_ENTRIES sampleAppendEntriesBody
      sampleBlank = none :=
  ⟨rfl, rfl, rfl⟩

/-- C20: the preamble announces more than the encoder writes. For the sample
heartbeat (n = 0) the body length in the preamble is 48 while the encoder
stops 40 bytes after the preamble; for the sample AppendEntries with two
entries it is 80 against 72; for the sample InstallSnapshot, whose encoded
configuration takes 24 bytes, it is 80 against 72. In each case the last eight
bytes of the buffer are the bytes the heap held. -/
theorem C20_body_len_exceeds_encoded_body :
    uvEncodeMessage sampleUvEnv sampleHeartbeat = some sampleHeartbeatEncoded ∧
    ((sampleUvEnv.raft_malloc 64).bind
        (fun base => uvEncodeMessage_fill sampleUvEnv sampleHeartbeat base 64)).map
        (fun c => (byteFromLE ((c.bytes.drop 8).take 8), c.behind.length - 16, c.ahead)) =
      some (48, 40, [226, 227, 228, 229, 230, 231, 232, 233]) ∧
    uvEncodeMessage sampleUvEnv sampleAppendEntries = some sampleAppendEntriesEncoded ∧
    ((sampleUvEnv.raft_malloc 96).bind
        (fun base => uvEncodeMessage_fill sampleUvEnv sampleAppendEntries base 96)).map
        (fun c => (byteFromLE ((c.bytes.drop 8).take 8), c.behind.length - 16, c.ahead)) =
      some (80, 72, [2, 3, 4, 5, 6, 7, 8, 9]) ∧
    sampleUvEnv.configurationEncodedSize sampleInstallSnapshot.install_snapshot.conf = 24 ∧
    uvEncodeMessage sampleUvEnv sampleInstallSnapshot = some sampleInstallSnapshotEncoded ∧
    ((sampleUvEnv.raft_malloc 96).bind
        (fun base => uvEncodeMessage_fill sampleUvEnv sampleInstallSnapshot base 96)).map
        (fun c => (byteFromLE ((c.bytes.drop 8).take 8), c.behind.length - 16, c.ahead)) =
      some (80, 72, [2, 3, 4, 5, 6, 7, 8, 9]) :=
  ⟨rfl, rfl, rfl, rfl, rfl, rfl, rfl⟩

/-! ## Unknown type codes -/

/-- C21 (amended): for every header buffer and every type code that is not one
of the five RPC type codes (1..5), uvDecodeMessage returns RAFT_IOERR, having
stored the type code in the message and 0 in payload_len; the union of the
message is left as it was. -/
theorem C21_uvDecodeMessage_unknown_type (env : UvEnv) (typ : Nat) (header : List Nat)
    (message : raft_message) (h : ¬ (1 ≤ typ ∧ typ ≤ 5)) :
    uvDecodeMessage env typ header message =
      some ⟨RAFT_IOERR, ⟨typ % 2 ^ 16, message.server_id, message.server_address,
        message.body⟩, 0⟩ := by
  have h1 : typ ≠ 1 := fun e => h (by omega)
  have h2 : typ ≠ 2 := fun e => h (by omega)
  have h3 : typ ≠ 3 := fun e => h (by omega)
  have h4 : typ ≠ 4 := fun e => h (by omega)
  have h5 : typ ≠ 5 := fun e => h (by omega)
  simp only [uvDecodeMessage, RAFT_IO_REQUEST_VOTE, RAFT_IO_REQUEST_VOTE_RESULT,
    RAFT_IO_APPEND_ENTRIES, RAFT_IO_APPEND_ENTRIES_RESULT, RAFT_IO_INSTALL_SNAPSHOT,
    if_neg h1, if_neg h2, if_neg h3, if_neg h4, if_neg h5, decodedMessage]

/-- C21, instance: type code 0 on an empty header. -/
theorem C21_uvDecodeMessage_unknown_type_witness :
    uvDecodeMessage sampleUvEnv 0 [] sampleBlank =
      some ⟨RAFT_IOERR, ⟨0, 0, "", .request_vote ⟨0, 0, 0, 0⟩⟩, 0⟩ :=
  C21_uvDecodeMessage_unknown_type sampleUvEnv 0 [] sampleBlank (by decide)

/-- C21, counterexample: for type code 6 uvDecodeMessage returns 18
(RAFT_IOERR), whereas RAFT_MALFORMED is 6. -/
theorem C21_counterexample_ioerr :
    (uvDecodeMessage sampleUvEnv 6 sampleAppendEntriesBody sampleBlank).map (fun d => d.rv) =
      some 18 ∧
    RAFT_IOERR = 18 ∧ RAFT_MALFORMED = 6 :=
  ⟨rfl, rfl, rfl⟩

/-- C22: for every message whose type is not one of the five RPC type codes,
uvEncodeMessage returns RAFT_MALFORMED and stores nothing in its
out-parameters, whatever the heap would answer: the return precedes every
allocation. -/
theorem C22_uvEncodeMessage_unknown_type (env : UvEnv) (m : raft_message)
    (h : ¬ (1 ≤ m.type ∧ m.type ≤ 5)) :
    uvEncodeMessage env m = some ⟨RAFT_MALFORMED, none, none⟩ ∧
    uvEncodeMessage_len env m = none := by
  have h1 : m.type ≠ 1 := fun e => h (by omega)
  have h2 : m.type ≠ 2 := fun e => h (by omega)
  have h3 : m.type ≠ 3 := fun e => h (by omega)
  have h4 : m.type ≠ 4 := fun e => h (by omega)
  have h5 : m.type ≠ 5 := fun e => h (by omega)
  have hlen : uvEncodeMessage_len env m = none := by
    simp only [uvEncodeMessage_len, RAFT_IO_REQUEST_VOTE, RAFT_IO_REQUEST_VOTE_RESULT,
      RAFT_IO_APPEND_ENTRIES, RAFT_IO_APPEND_ENTRIES_RESULT, RAFT_IO_INSTALL_SNAPSHOT,
      if_neg h1, if_neg h2, if_neg h3, if_neg h4, if_neg h5]
  refine ⟨?_, hlen⟩
  unfold uvEncodeMessage
  rw [hlen]

/-- C22, instance: a message of type 9 on the sample heap. -/
theorem C22_uvEncodeMessage_unknown_type_witness :
    uvEncodeMessage sampleUvEnv sampleUnknownMessage = some ⟨RAFT_MALFORMED, none, none⟩ :=
  (C22_uvEncodeMessage_unknown_type sampleUvEnv sampleUnknownMessage (by decide)).1

/-! ## The `rejected` field of the reply to a stale request -/

/-- C30 (amended): for every server and every AppendEntries request from a
sender with a positive id whose term is lower than the local current term,
recvAppendEntries returns, sends a reply when the allocation of the send
request succeeds, and every message it hands to the send method of the I/O
backend carries the local current term, which is higher than the term of the
request, and rejected = the prev_log_index of the request: the rejected field
of the reply is non-zero exactly when prev_log_index is non-zero. -/
theorem C30_stale_reply_rejected (d : Deps) (r : raft) (id : Nat) (address : String)
    (args : raft_append_entries) (hspec : EnsureMatchingTermsSpec d) (hid : 0 < id)
    (hstale : args.term < r.current_term) :
    ∃ out, recvAppendEntries d r id address args = some out ∧
      (d.raft_malloc sizeof_raft_io_send ≠ 0 → out.sends ≠ []) ∧
      ∀ msg ∈ out.sends,
        msg.append_entries_result.term = r.current_term ∧
        args.term < msg.append_entries_result.term ∧
        msg.append_entries_result.rejected = args.prev_log_index ∧
        (msg.append_entries_result.rejected ≠ 0 ↔ args.prev_log_index ≠ 0) := by
  obtain ⟨h1, h2, h3⟩ := hspec.stale r args.term hstale
  have hid2 : id > 0 := hid
  simp only [recvAppendEntries, hid2, not_true_eq_false, if_false, h1, ne_eq, h2, if_true, h3]
  refine ⟨_, rfl, ?_, ?_⟩
  · intro hm
    simp only [recvAppendEntries_reply, hm, if_false]
    split_ifs <;> simp
  · intro msg hmsg
    have hmsg2 := recvAppendEntries_reply_sends _ _ _ _ _ _ _ hmsg
    subst hmsg2
    exact ⟨rfl, hstale, rfl, Iff.rfl⟩

/-- C30, instance: the sample follower (term 3, last index 5) answers a request
of term 2 with prev_log_index = 4 from server 1 with one message, whose
rejected field is 4. -/
theorem C30_stale_reply_rejected_witness :
    recvAppendEntries sampleDeps sampleFollower 1 "1" ⟨2, 4, 2, 2, []⟩ =
      some ⟨0, sampleFollower, [resultMessage 1 "1" 3 4 5]⟩ ∧
    (resultMessage 1 "1" 3 4 5).append_entries_result.rejected = 4 ∧
    ∃ out, recvAppendEntries sampleDeps sampleFollower 1 "1" ⟨2, 4, 2, 2, []⟩ = some out ∧
      (sampleDeps.raft_malloc sizeof_raft_io_send ≠ 0 → out.sends ≠ []) ∧
      ∀ msg ∈ out.sends,
        msg.append_entries_result.term = sampleFollower.current_term ∧
        (⟨2, 4, 2, 2, []⟩ : raft_append_entries).term < msg.append_entries_result.term ∧
        msg.append_entries_result.rejected =
          (⟨2, 4, 2, 2, []⟩ : raft_append_entries).prev_log_index ∧
        (msg.append_entries_result.rejected ≠ 0 ↔
          (⟨2, 4, 2, 2, []⟩ : raft_append_entries).prev_log_index ≠ 0) :=
  ⟨rfl, rfl, C30_stale_reply_rejected sampleDeps sampleFollower 1 "1" ⟨2, 4, 2, 2, []⟩
    sampleDeps_ensure (by decide) (by decide)⟩

/-- C30, counterexample: the sample follower (term 3, last index 5) receives
from server 1 a request of term 2 with prev_log_index = 0. It replies with one
AppendEntriesResult that carries the higher term 3 and whose rejected field
is 0. -/
theorem C30_counterexample_rejected_zero :
    sampleStaleProbe.term < sampleFollower.current_term ∧
    recvAppendEntries sampleDeps sampleFollower 1 "1" sampleStaleProbe =
      some ⟨0, sampleFollower, [resultMessage 1 "1" 3 0 5]⟩ ∧
    (resultMessage 1 "1" 3 0 5).append_entries_result.rejected = 0 :=
  ⟨by decide, rfl, rfl⟩

/-! ## Facts about the payloads of a batch -/

theorem bytePad64_ge (n : Nat) : n ≤ bytePad64 n := by
  unfold bytePad64
  split_ifs <;> omega

theorem bytePad64_mod (n : Nat) : bytePad64 n % 8 = 0 := by
  unfold bytePad64
  split_ifs <;> omega

theorem payloadOffset_zero (es : List raft_entry) : payloadOffset es 0 = 0 := rfl

theorem payloadOffset_succ (e : raft_entry) (es : List raft_entry) (i : Nat) :
    payloadOffset (e :: es) (i + 1) = bytePad64 e.buf.len + payloadOffset es i := by
  simp only [payloadOffset, List.take_succ_cons, List.map_cons, List.sum_cons]

theorem payloadOffset_mod (es : List raft_entry) (i : Nat) : payloadOffset es i % 8 = 0 := by
  induction es generalizing i with
  | nil => simp [payloadOffset]
  | cons e es ih =>
    cases i with
    | zero => rfl
    | succ i =>
      rw [payloadOffset_succ]
      have h1 := bytePad64_mod e.buf.len
      have h2 := ih i
      omega

/-- The payload of an entry ends before the payload of every later entry
starts. -/
theorem payloadOffset_mono (es : List raft_entry) (i j : Nat) (e : raft_entry)
    (hij : i < j) (hget : es.get? i = some e) :
    payloadOffset es i + e.buf.len ≤ payloadOffset es j := by
  induction es generalizing i j with
  | nil => simp at hget
  | cons x xs ih =>
    cases j with
    | zero => exact absurd hij (Nat.not_lt_zero i)
    | succ j =>
      rw [payloadOffset_succ]
      cases i with
      | zero =>
        simp only [List.get?_cons_zero, Option.some.injEq] at hget
        subst hget
        rw [payloadOffset_zero]
        have := bytePad64_ge x.buf.len
        omega
      | succ i =>
        rw [payloadOffset_succ]
        simp only [List.get?_cons_succ] at hget
        have := ih i j (Nat.lt_of_succ_lt_succ hij) hget
        omega

theorem uvDecodeEntriesBatch_loop_length (buf : raft_buffer) (es : List raft_entry)
    (cursor : Nat) : (uvDecodeEntriesBatch_loop buf es cursor).length = es.length := by
  induction es generalizing cursor with
  | nil => rfl
  | cons e es ih =>
    simp only [uvDecodeEntriesBatch_loop]
    split_ifs <;> simp only [List.length_cons, ih]

/-- Slot `i` after the loop of `uvDecodeEntriesBatch`. -/
theorem uvDecodeEntriesBatch_loop_get (buf : raft_buffer) (es : List raft_entry)
    (cursor i : Nat) (e : raft_entry) (hget : es.get? i = some e) :
    (uvDecodeEntriesBatch_loop buf es cursor).get? i =
      some ⟨e.term, e.type,
        ⟨if e.buf.len = 0 then 0 else cursor + payloadOffset es i, e.buf.len⟩, buf.base⟩ := by
  induction es generalizing cursor i with
  | nil => simp at hget
  | cons x xs ih =>
    cases i with
    | zero =>
      simp only [List.get?_cons_zero, Option.some.injEq] at hget
      subst hget
      simp only [uvDecodeEntriesBatch_loop, payloadOffset_zero, Nat.add_zero]
      split_ifs <;> rfl
    | succ i =>
      simp only [List.get?_cons_succ] at hget
      simp only [uvDecodeEntriesBatch_loop]
      by_cases h0 : x.buf.len = 0
      · rw [if_pos h0, List.get?_cons_succ, ih cursor i hget, payloadOffset_succ]
        simp only [bytePad64, h0, Nat.zero_mod, ne_eq, not_true_eq_false, if_false, Nat.zero_add]
      · rw [if_neg h0, List.get?_cons_succ, ih _ i hget, payloadOffset_succ]
        have hc : (if x.buf.len % 8 ≠ 0 then cursor + x.buf.len + (8 - x.buf.len % 8)
            else cursor + x.buf.len) = cursor + bytePad64 x.buf.len := by
          unfold bytePad64
          split_ifs <;> omega
        rw [hc, Nat.add_assoc]

/-- C24: for every batch buffer and every array of which the first n entries
carry their payload lengths, uvDecodeEntriesBatch leaves term, type and length
of every entry as they were, sets the batch of every entry to the base of the
buffer, gives every zero-length entry a NULL payload, and places the payload of
every other entry i at the base plus the sum over the entries j < i of len_j
rounded up to a multiple of 8; that offset is a multiple of 8, and the payload
of an entry ends before the offset of every later entry. Slots from n on are
not touched. -/
theorem C24_uvDecodeEntriesBatch (buf : raft_buffer) (entries : List raft_entry) (n : Nat)
    (hn : n ≤ entries.length) :
    ∃ out, uvDecodeEntriesBatch buf entries n = some out ∧ out.length = entries.length ∧
      (∀ i e, i < n → entries.get? i = some e →
        ∃ e', out.get? i = some e' ∧ e'.batch = buf.base ∧ e'.term = e.term ∧
          e'.type = e.type ∧ e'.buf.len = e.buf.len ∧
          (e.buf.len = 0 → e'.buf.base = 0) ∧
          (e.buf.len ≠ 0 → e'.buf.base = buf.base + payloadOffset entries i) ∧
          payloadOffset entries i % 8 = 0 ∧
          ∀ j, i < j → payloadOffset entries i + e.buf.len ≤ payloadOffset entries j) ∧
      (∀ i, n ≤ i → out.get? i = entries.get? i) := by
  refine ⟨uvDecodeEntriesBatch_loop buf (entries.take n) buf.base ++ entries.drop n,
    ?_, ?_, ?_, ?_⟩
  · unfold uvDecodeEntriesBatch
    rw [if_neg (Nat.not_lt.mpr hn)]
  · rw [List.length_append, uvDecodeEntriesBatch_loop_length, List.length_take,
      List.length_drop]
    omega
  · intro i e hi hget
    have hlen : (uvDecodeEntriesBatch_loop buf (entries.take n) buf.base).length = n := by
      rw [uvDecodeEntriesBatch_loop_length, List.length_take]
      omega
    have htake : (entries.take n).get? i = some e := by
      simp only [List.get?_eq_getElem?] at hget ⊢
      rw [List.getElem?_take_of_lt hi]
      exact hget
    have hoff : payloadOffset (entries.take n) i = payloadOffset entries i := by
      simp only [payloadOffset, List.take_take, Nat.min_eq_left (Nat.le_of_lt hi)]
    refine ⟨⟨e.term, e.type,
        ⟨if e.buf.len = 0 then 0 else buf.base + payloadOffset (entries.take n) i, e.buf.len⟩,
        buf.base⟩, ?_, rfl, rfl, rfl, rfl, ?_, ?_, payloadOffset_mod entries i,
      fun j hij => payloadOffset_mono entries i j e hij hget⟩
    · have hloop := uvDecodeEntriesBatch_loop_get buf _ buf.base i e htake
      simp only [List.get?_eq_getElem?] at hloop ⊢
      rw [List.getElem?_append_left (by rw [hlen]; exact hi)]
      exact hloop
    · intro h0
      simp only [h0, if_true]
    · intro h0
      simp only [h0, if_false, hoff]
  · intro i hi
    have hlen : (uvDecodeEntriesBatch_loop buf (entries.take n) buf.base).length = n := by
      rw [uvDecodeEntriesBatch_loop_length, List.length_take]
      omega
    simp only [List.get?_eq_getElem?]
    rw [List.getElem?_append_right (by rw [hlen]; exact hi), hlen, List.getElem?_drop]
    congr 1
    omega

/-- C24, instance: three entries with payloads of 5, 0 and 16 bytes in a batch
at address 8192 get the payload addresses 8192, NULL and 8200; the fourth slot
is not part of the batch. -/
theorem C24_uvDecodeEntriesBatch_witness :
    uvDecodeEntriesBatch ⟨8192, 24⟩ sampleBatchEntries 3 =
      some [⟨5, RAFT_COMMAND, ⟨8192, 5⟩, 8192⟩, ⟨5, RAFT_BARRIER, ⟨0, 0⟩, 8192⟩,
        ⟨6, RAFT_COMMAND, ⟨8200, 16⟩, 8192⟩, ⟨9, 0, ⟨4099, 77⟩, 4096⟩] ∧
    ∃ out, uvDecodeEntriesBatch ⟨8192, 24⟩ sampleBatchEntries 3 = some out ∧
      out.length = sampleBatchEntries.length ∧
      (∀ i e, i < 3 → sampleBatchEntries.get? i = some e →
        ∃ e', out.get? i = some e' ∧ e'.batch = 8192 ∧ e'.term = e.term ∧
          e'.type = e.type ∧ e'.buf.len = e.buf.len ∧
          (e.buf.len = 0 → e'.buf.base = 0) ∧
          (e.buf.len ≠ 0 → e'.buf.base = 8192 + payloadOffset sampleBatchEntries i) ∧
          payloadOffset sampleBatchEntries i % 8 = 0 ∧
          ∀ j, i < j →
            payloadOffset sampleBatchEntries i + e.buf.len ≤ payloadOffset sampleBatchEntries j) ∧
      (∀ i, 3 ≤ i → out.get? i = sampleBatchEntries.get? i) :=
  ⟨rfl, C24_uvDecodeEntriesBatch ⟨8192, 24⟩ sampleBatchEntries 3 (by decide)⟩

/-! ## Adding a server to a configuration -/

/-- The scan of `raft_configuration_add` finds a server exactly when the id or
the address is in use. -/
theorem raft_configuration_add_find (c : raft_configuration) (id : Nat) (address : String) :
    (c.servers.find? (fun s => s.id = id ∨ s.address = address) = none ∧
      ∀ s ∈ c.servers, s.id ≠ id ∧ s.address ≠ address) ∨
    ∃ s, c.servers.find? (fun s => s.id = id ∨ s.address = address) = some s ∧
      s ∈ c.servers ∧ (s.id = id ∨ s.address = address) := by
  cases hfind : c.servers.find? (fun s => s.id = id ∨ s.address = address) with
  | none =>
    left
    refine ⟨rfl, fun s hs => ?_⟩
    have h := List.find?_eq_none.mp hfind s hs
    simp only [decide_eq_true_eq, not_or] at h
    exact h
  | some s =>
    right
    refine ⟨s, rfl, List.mem_of_find?_eq_some hfind, ?_⟩
    have h := List.find?_some hfind
    simp only [decide_eq_true_eq] at h
    exact h

/-- C28: for every configuration, raft_configuration_add returns
RAFT_DUPLICATEID when the id is in use (and the address is not),
RAFT_DUPLICATEADDRESS when the address is in use (and the id is not), one of
the two when both are in use, and leaves the configuration as it was in each of
these cases; when neither is in use and the allocation succeeds it returns 0
and appends the server at the end, the servers already there keeping their
place, so that ids and addresses that were unique stay unique. -/
theorem C28_raft_configuration_add (nomem : Bool) (c : raft_configuration) (id : Nat)
    (address : String) (voting : Bool) :
    ((∃ s ∈ c.servers, s.id = id) → (∀ s ∈ c.servers, s.address ≠ address) →
      raft_configuration_add nomem c id address voting = (RAFT_DUPLICATEID, c)) ∧
    ((∃ s ∈ c.servers, s.address = address) → (∀ s ∈ c.servers, s.id ≠ id) →
      raft_configuration_add nomem c id address voting = (RAFT_DUPLICATEADDRESS, c)) ∧
    ((∃ s ∈ c.servers, s.id = id ∨ s.address = address) →
      (raft_configuration_add nomem c id address voting = (RAFT_DUPLICATEID, c) ∨
       raft_configuration_add nomem c id address voting = (RAFT_DUPLICATEADDRESS, c))) ∧
    ((∀ s ∈ c.servers, s.id ≠ id ∧ s.address ≠ address) → nomem = false →
      raft_configuration_add nomem c id address voting =
        (0, ⟨c.servers ++ [⟨id, address, voting⟩]⟩) ∧
      ((c.servers.map fun s => s.id).Nodup →
        ((c.servers ++ [(⟨id, address, voting⟩ : raft_server)]).map fun s => s.id).Nodup) ∧
      ((c.servers.map fun s => s.address).Nodup →
        ((c.servers ++ [(⟨id, address, voting⟩ : raft_server)]).map
          fun s => s.address).Nodup)) := by
  refine ⟨?_, ?_, ?_, ?_⟩
  · rintro ⟨t, ht, hid⟩ haddr
    rcases raft_configuration_add_find c id address with ⟨_, hnone⟩ | ⟨s, hfind, hs, hor⟩
    · exact absurd hid (hnone t ht).1
    · have hsid : s.id = id := hor.resolve_right (haddr s hs)
      simp only [raft_configuration_add, hfind, hsid, if_true]
  · rintro ⟨t, ht, haddr⟩ hid
    rcases raft_configuration_add_find c id address with ⟨_, hnone⟩ | ⟨s, hfind, hs, hor⟩
    · exact absurd haddr (hnone t ht).2
    · simp only [raft_configuration_add, hfind, hid s hs, if_false]
  · rintro ⟨t, ht, hor⟩
    rcases raft_configuration_add_find c id address with ⟨_, hnone⟩ | ⟨s, hfind, hs, _⟩
    · rcases hor with h | h
      · exact absurd h (hnone t ht).1
      · exact absurd h (hnone t ht).2
    · simp only [raft_configuration_add, hfind]
      by_cases hsid : s.id = id
      · left
        rw [if_pos hsid]
      · right
        rw [if_neg hsid]
  · intro hfree hmem
    rcases raft_configuration_add_find c id address with ⟨hfind, _⟩ | ⟨s, _, hs, hor⟩
    · refine ⟨?_, ?_, ?_⟩
      · simp only [raft_configuration_add, hfind, hmem, Bool.false_eq_true, if_false]
      · intro hnd
        rw [List.map_append, List.nodup_append]
        refine ⟨hnd, List.nodup_singleton _, ?_⟩
        intro a ha hb
        simp only [List.map_cons, List.map_nil, List.mem_singleton] at hb
        obtain ⟨t, ht, rfl⟩ := List.mem_map.mp ha
        exact (hfree t ht).1 hb
      · intro hnd
        rw [List.map_append, List.nodup_append]
        refine ⟨hnd, List.nodup_singleton _, ?_⟩
        intro a ha hb
        simp only [List.map_cons, List.map_nil, List.mem_singleton] at hb
        obtain ⟨t, ht, rfl⟩ := List.mem_map.mp ha
        exact (hfree t ht).2 hb
    · rcases hor with h | h
      · exact absurd h (hfree s hs).1
      · exact absurd h (hfree s hs).2

/-- C28, instance: on the sample configuration (servers 1, 2 and 3) the id 2 with
a new address is refused as a duplicate id, and server 4 is appended. -/
theorem C28_raft_configuration_add_witness :
    raft_configuration_add false sampleConfiguration 2 "9" true =
      (RAFT_DUPLICATEID, sampleConfiguration) ∧
    raft_configuration_add false sampleConfiguration 4 "4" false =
      (0, ⟨sampleConfiguration.servers ++ [⟨4, "4", false⟩]⟩) :=
  ⟨(C28_raft_configuration_add false sampleConfiguration 2 "9" true).1
      ⟨⟨2, "2", true⟩, by decide, rfl⟩ (by decide),
    ((C28_raft_configuration_add false sampleConfiguration 4 "4" false).2.2.2
      (by decide) rfl).1⟩

/-! ## Facts about the configuration codec -/

theorem cstring_roundtrip (s : String) : String.mk ((cstring s).map Char.ofNat) = s := by
  have h : (cstring s).map Char.ofNat = s.toList := by
    simp only [cstring, List.map_map]
    conv_rhs => rw [← List.map_id s.toList]
    apply List.map_congr_left
    intro c _
    simp only [Function.comp_apply, id_eq, Char.ofNat_toNat]
  rw [h]
  rfl

theorem cstring_no_null (s : String) (h : isCString s) : 0 ∉ cstring s := by
  intro h0
  obtain ⟨c, hc, hz⟩ := List.mem_map.mp h0
  exact (h c hc).1 hz

theorem byteGetString_scan_append (bytes rest : List Nat) (h : 0 ∉ bytes) :
    byteGetString_scan (bytes ++ 0 :: rest) = some (bytes, rest) := by
  induction bytes with
  | nil => simp only [List.nil_append, byteGetString_scan, if_true]
  | cons b bs ih =>
    have hb : b ≠ 0 := fun e => h (e ▸ List.mem_cons_self b bs)
    have hbs : 0 ∉ bs := fun e => h (List.mem_cons_of_mem b e)
    show byteGetString_scan (b :: (bs ++ 0 :: rest)) = some (b :: bs, rest)
    simp only [byteGetString_scan, if_neg hb, ih hbs, Option.map_some']

theorem byteGetString_scan_none (l : List Nat) (h : 0 ∉ l) : byteGetString_scan l = none := by
  induction l with
  | nil => rfl
  | cons b bs ih =>
    have hb : b ≠ 0 := fun e => h (e ▸ List.mem_cons_self b bs)
    have hbs : 0 ∉ bs := fun e => h (List.mem_cons_of_mem b e)
    simp only [byteGetString_scan, if_neg hb, ih hbs, Option.map_none']

/-- The string stored by `bytePutString` is what `byteGetString` returns. -/
theorem byteGetString_cstring (s : String) (rest : List Nat) (h : isCString s) :
    byteGetString (cstring s ++ 0 :: rest) (cstring s ++ 0 :: rest).length =
      some (s, rest) := by
  simp only [byteGetString, List.take_length,
    byteGetString_scan_append _ rest (cstring_no_null s h), Option.map_some',
    cstring_roundtrip]
  have hd : List.drop ((cstring s).length + 1) (cstring s ++ 0 :: rest) = rest := by
    have : cstring s ++ 0 :: rest = (cstring s ++ [0]) ++ rest := by
      simp only [List.append_assoc, List.singleton_append]
    rw [this]
    exact List.drop_left' (by simp only [List.length_append, List.length_singleton])
  rw [hd]

theorem byteGetString_unterminated (tail : List Nat) (h : 0 ∉ tail) :
    byteGetString tail tail.length = none := by
  simp only [byteGetString, List.take_length, byteGetString_scan_none tail h, Option.map_none']

theorem serverBytes_length (s : raft_server) :
    (serverBytes s).length = 8 + ((cstring s.address).length + 1) + 1 := by
  simp only [serverBytes, List.length_append, byteLE_length, List.length_cons,
    List.length_nil]
  omega

theorem serversBytes_length (servers : List raft_server) :
    (serversBytes servers).length =
      (servers.map fun s => 8 + ((cstring s.address).length + 1) + 1).sum := by
  induction servers with
  | nil => rfl
  | cons s rest ih =>
    simp only [serversBytes, List.length_append, serverBytes_length, ih, List.map_cons,
      List.sum_cons]

theorem configurationBytes_length (c : raft_configuration) :
    (configurationBytes c).length =
      1 + 8 + (c.servers.map fun s => 8 + ((cstring s.address).length + 1) + 1).sum := by
  simp only [configurationBytes, List.length_cons, List.length_append, byteLE_length,
    serversBytes_length]
  omega

theorem bytePutString_bind (c : WriteCursor) (v : String)
    (f : WriteCursor → Option WriteCursor) :
    (bytePutString c v).bind f =
      if c.ahead.length < (cstring v).length + 1 then none
      else f ⟨c.behind ++ (cstring v ++ [0]), c.ahead.drop ((cstring v).length + 1)⟩ := by
  unfold bytePutString
  split_ifs <;> rfl

theorem byteLE_flag (b : Bool) : byteLE 1 (if b = true then 1 else 0) =
    [if b = true then 1 else 0] := by
  cases b <;> rfl

/-- With room for the records of the servers, the loop of
`configurationEncodeToBuf` writes them behind the cursor. -/
theorem configurationEncodeToBuf_loop_ok (servers : List raft_server) (c : WriteCursor)
    (h : (serversBytes servers).length ≤ c.ahead.length) :
    configurationEncodeToBuf_loop servers c =
      some ⟨c.behind ++ serversBytes servers,
        c.ahead.drop (serversBytes servers).length⟩ := by
  induction servers generalizing c with
  | nil =>
    simp only [configurationEncodeToBuf_loop, serversBytes, List.append_nil, List.length_nil,
      List.drop_zero]
  | cons s rest ih =>
    simp only [serversBytes, List.length_append, serverBytes_length] at h
    simp only [configurationEncodeToBuf_loop, bytePut64, bytePut8, bytePutN_bind,
      bytePutString_bind, List.length_drop]
    rw [if_neg (by omega), if_neg (by omega), if_neg (by omega),
      ih _ (by simp only [List.length_drop]; omega)]
    simp only [serversBytes, serverBytes, List.length_append, byteLE_length, List.length_cons,
      List.length_nil, List.drop_drop, List.append_assoc, byteLE_flag, List.singleton_append,
      Option.some.injEq, WriteCursor.mk.injEq, true_and]
    congr 1
    omega

/-- With room for the encoding, `configurationEncodeToBuf` writes it behind the
cursor. -/
theorem configurationEncodeToBuf_ok (c : raft_configuration) (buf : WriteCursor)
    (h : (configurationBytes c).length ≤ buf.ahead.length) :
    configurationEncodeToBuf c buf =
      some ⟨buf.behind ++ configurationBytes c,
        buf.ahead.drop (configurationBytes c).length⟩ := by
  have hb : byteLE 1 1 = [1] := rfl
  simp only [configurationBytes, List.length_cons, List.length_append, byteLE_length] at h
  simp only [configurationEncodeToBuf, bytePut64, bytePut8, bytePutN_bind, List.length_drop]
  rw [if_neg (by omega), if_neg (by omega),
    configurationEncodeToBuf_loop_ok _ _ (by simp only [List.length_drop]; omega)]
  simp only [configurationBytes, hb, List.length_cons, List.length_append, byteLE_length,
    List.drop_drop, List.append_assoc, List.singleton_append, Option.some.injEq,
    WriteCursor.mk.injEq, true_and]
  refine ⟨by simp only [List.cons_append], ?_⟩
  congr 1
  omega

/-- The function `configurationEncode`, whatever the heap does. -/
theorem configurationEncode_eq (env : UvEnv) (c : raft_configuration) :
    configurationEncode env c =
      if env.malloc_fails (configurationEncodedSize c) then some ⟨RAFT_NOMEM, none⟩
      else some ⟨0, some (configurationBytes c ++
        ((List.range (configurationEncodedSize c)).map fun i => env.heap_fill i % 256).drop
          (configurationBytes c).length)⟩ := by
  have hsize : (configurationBytes c).length ≤ configurationEncodedSize c := by
    rw [configurationBytes_length]
    exact bytePad64_ge _
  unfold configurationEncode
  cases hf : env.malloc_fails (configurationEncodedSize c) with
  | true =>
    rw [raft_malloc_fails env _ hf]
    simp only [if_true]
  | false =>
    simp only [UvEnv.raft_malloc, hf, Bool.false_eq_true, if_false]
    rw [configurationEncodeToBuf_ok c _ (by
      simp only [List.length_map, List.length_range]
      exact hsize)]
    simp only [Option.some_bind, WriteCursor.bytes, List.nil_append]

theorem byteGet8_cons (b : Nat) (rest : List Nat) : byteGet8 (b :: rest) = some (b, rest) := by
  simp [byteGet8, byteGetN, byteFromLE]

/-- A server whose id and address are not in use is appended when the
allocation succeeds. -/
theorem raft_configuration_add_fresh (c : raft_configuration) (id : Nat) (address : String)
    (voting : Bool) (h : ∀ s ∈ c.servers, s.id ≠ id ∧ s.address ≠ address) :
    raft_configuration_add false c id address voting =
      (0, ⟨c.servers ++ [⟨id, address, voting⟩]⟩) := by
  rcases raft_configuration_add_find c id address with ⟨hfind, _⟩ | ⟨s, _, hs, hor⟩
  · simp only [raft_configuration_add, hfind, Bool.false_eq_true, if_false]
  · rcases hor with e | e
    · exact absurd e (h s hs).1
    · exact absurd e (h s hs).2

/-- One round of the loop of `configurationDecode` on the record of a server
that can be added. -/
theorem configurationDecode_loop_step (nomem : Nat → Bool) (s : raft_server) (k i : Nat)
    (rest : List Nat) (acc : raft_configuration)
    (hid : s.id < 2 ^ 32) (hstr : isCString s.address)
    (hfree : ∀ t ∈ acc.servers, t.id ≠ s.id ∧ t.address ≠ s.address)
    (hmem : nomem i = false) :
    configurationDecode_loop nomem (k + 1) i (serverBytes s ++ rest) acc =
      configurationDecode_loop nomem k (i + 1) rest ⟨acc.servers ++ [s]⟩ := by
  have hid64 : s.id < 2 ^ 64 := Nat.lt_trans hid (by norm_num)
  have hflag : decide ((if s.voting = true then 1 else 0) ≠ 0) = s.voting := by
    cases s.voting <;> rfl
  have hadd := raft_configuration_add_fresh acc s.id s.address s.voting hfree
  simp only [configurationDecode_loop, serverBytes, List.append_assoc, List.cons_append,
    List.nil_append, byteGet64_append _ _ hid64, Option.some_bind,
    byteGetString_cstring _ _ hstr, byteGet8_cons, Nat.mod_eq_of_lt hid, hflag, hmem, hadd,
    ne_eq, not_true_eq_false, if_false]

/-- The loop of `configurationDecode` on the records of servers that can be
added, one after the other, goes on after them with those servers added. -/
theorem configurationDecode_loop_servers (nomem : Nat → Bool) (pre : List raft_server)
    (k i : Nat) (rest : List Nat) (acc : raft_configuration)
    (hval : ∀ s ∈ pre, s.id < 2 ^ 32 ∧ isCString s.address)
    (hids : ((acc.servers ++ pre).map fun s => s.id).Nodup)
    (haddrs : ((acc.servers ++ pre).map fun s => s.address).Nodup)
    (hmem : ∀ j, j < pre.length → nomem (i + j) = false) :
    configurationDecode_loop nomem (pre.length + k) i (serversBytes pre ++ rest) acc =
      configurationDecode_loop nomem k (i + pre.length) rest ⟨acc.servers ++ pre⟩ := by
  induction pre generalizing i acc with
  | nil =>
    simp only [List.length_nil, Nat.zero_add, serversBytes, List.nil_append, Nat.add_zero,
      List.append_nil]
  | cons s pre ih =>
    have hlen : (s :: pre).length + k = (pre.length + k) + 1 := by
      simp only [List.length_cons]
      omega
    have hfree : ∀ t ∈ acc.servers, t.id ≠ s.id ∧ t.address ≠ s.address := by
      intro t ht
      constructor
      · intro e
        rw [List.map_append, List.nodup_append] at hids
        exact hids.2.2 (List.mem_map.mpr ⟨t, ht, e⟩)
          (List.mem_map.mpr ⟨s, List.mem_cons_self s pre, rfl⟩)
      · intro e
        rw [List.map_append, List.nodup_append] at haddrs
        exact haddrs.2.2 (List.mem_map.mpr ⟨t, ht, e⟩)
          (List.mem_map.mpr ⟨s, List.mem_cons_self s pre, rfl⟩)
    obtain ⟨hsid, hsstr⟩ := hval s (List.mem_cons_self s pre)
    have h0 : nomem i = false := by
      have := hmem 0 (by simp only [List.length_cons]; omega)
      simpa using this
    rw [hlen, serversBytes, List.append_assoc,
      configurationDecode_loop_step nomem s _ i _ acc hsid hsstr hfree h0,
      ih (i + 1) ⟨acc.servers ++ [s]⟩ (fun t ht => hval t (List.mem_cons_of_mem s ht))
        (by simpa only [List.append_assoc, List.singleton_append] using hids)
        (by simpa only [List.append_assoc, List.singleton_append] using haddrs)
        (fun j hj => by
          have := hmem (j + 1) (by simp only [List.length_cons]; omega)
          rw [← this]
          congr 1
          omega)]
    simp only [List.length_cons, List.append_assoc, List.singleton_append]
    congr 1
    omega

/-- C25 (amended): for every valid configuration (ids positive, fitting an
unsigned and unique, addresses C strings and unique), whenever
configurationEncode returns 0 and the allocations made while decoding
succeed, configurationDecode applied to the buffer produced returns 0 and
yields the same servers in the same order with the same id, address and voting
flag, whatever the padding holds. -/
theorem C25_configuration_round_trip (env : UvEnv) (nomem : Nat → Bool)
    (c : raft_configuration) (out : ConfEncodeOut)
    (hvalid : validServers c.servers) (hn : c.n < 2 ^ 32)
    (henc : configurationEncode env c = some out) (hrv : out.rv = 0)
    (hmem : ∀ i, i < c.n → nomem i = false) :
    ∃ buf, out.buf = some buf ∧ configurationDecode nomem buf = some (0, c) := by
  rw [configurationEncode_eq] at henc
  split_ifs at henc with hf
  · simp only [Option.some.injEq] at henc
    subst henc
    exact absurd hrv (by decide)
  · simp only [Option.some.injEq] at henc
    subst henc
    refine ⟨_, rfl, ?_⟩
    obtain ⟨hval, hids, haddrs⟩ := hvalid
    have hn64 : c.n < 2 ^ 64 := Nat.lt_trans hn (by norm_num)
    have hloop := configurationDecode_loop_servers nomem c.servers 0 0
      (((List.range (configurationEncodedSize c)).map fun i => env.heap_fill i % 256).drop
        (configurationBytes c).length) ⟨[]⟩
      (fun s hs => ⟨(hval s hs).2.1, (hval s hs).2.2⟩)
      (by simpa only [List.nil_append] using hids)
      (by simpa only [List.nil_append] using haddrs)
      (fun j hj => by
        have := hmem j hj
        simpa only [Nat.zero_add] using this)
    simp only [Nat.add_zero, Nat.zero_add, List.nil_append, configurationDecode_loop] at hloop
    simp only [configurationDecode, configurationBytes, List.cons_append, List.append_assoc,
      byteGet8_cons, Option.some_bind, ne_eq, not_true_eq_false, if_false,
      byteGet64_append _ _ hn64]
    exact hloop

/-- C25, instance: the two sample servers, encoded on the sample heap and
decoded on a heap without failures. -/
theorem C25_configuration_round_trip_witness :
    configurationEncode sampleUvEnv sampleTwoServers = some ⟨0, some sampleTwoServersBytes⟩ ∧
    ∃ buf, (ConfEncodeOut.mk 0 (some sampleTwoServersBytes)).buf = some buf ∧
      configurationDecode (fun _ => false) buf = some (0, sampleTwoServers) :=
  ⟨rfl, C25_configuration_round_trip sampleUvEnv (fun _ => false) sampleTwoServers
    ⟨0, some sampleTwoServersBytes⟩ (by decide) (by decide) rfl rfl (fun _ _ => rfl)⟩

/-- C25, counterexample: the encoding of the two sample servers is decoded on a
heap where the allocation for the first server fails; configurationDecode
returns RAFT_NOMEM and yields no server. -/
theorem C25_counterexample_decode_nomem :
    configurationEncode sampleUvEnv sampleTwoServers = some ⟨0, some sampleTwoServersBytes⟩ ∧
    configurationDecode (fun _ => true) sampleTwoServersBytes = some (RAFT_NOMEM, ⟨[]⟩) :=
  ⟨rfl, rfl⟩

/-- C26 (amended): for every configuration with n servers, provided the
allocation of the buffer succeeds, configurationEncode returns 0 and a buffer
of length 1 + 8 + the sum over the servers of (8 + strlen(address) + 1 + 1),
rounded up to a multiple of 8, that starts with the version byte 1, n as
little-endian u64, and for each server in order the id as little-endian u64,
the null-terminated address and one voting byte (1 if voting, 0 otherwise);
the padding that follows is not written. -/
theorem C26_configurationEncode_layout (env : UvEnv) (c : raft_configuration)
    (hmalloc : env.malloc_fails (configurationEncodedSize c) = false) :
    ∃ padding, configurationEncode env c = some ⟨0, some (configurationBytes c ++ padding)⟩ ∧
      (configurationBytes c ++ padding).length =
        bytePad64
          (1 + 8 + (c.servers.map fun s => 8 + ((cstring s.address).length + 1) + 1).sum) ∧
      (configurationBytes c).length =
        1 + 8 + (c.servers.map fun s => 8 + ((cstring s.address).length + 1) + 1).sum ∧
      padding = ((List.range (configurationEncodedSize c)).map
        fun i => env.heap_fill i % 256).drop (configurationBytes c).length := by
  have hsize : (configurationBytes c).length ≤ configurationEncodedSize c := by
    rw [configurationBytes_length]
    exact bytePad64_ge _
  refine ⟨_, ?_, ?_, configurationBytes_length c, rfl⟩
  · rw [configurationEncode_eq, hmalloc]
    simp only [Bool.false_eq_true, if_false]
  · rw [List.length_append, List.length_drop, List.length_map, List.length_range]
    unfold configurationEncodedSize at hsize ⊢
    omega

/-- C26, instance: the two sample servers take 57 bytes, the buffer 64. -/
theorem C26_configurationEncode_layout_witness :
    ∃ padding, configurationEncode sampleUvEnv sampleTwoServers =
        some ⟨0, some (configurationBytes sampleTwoServers ++ padding)⟩ ∧
      (configurationBytes sampleTwoServers ++ padding).length =
        bytePad64 (1 + 8 + (sampleTwoServers.servers.map
          fun s => 8 + ((cstring s.address).length + 1) + 1).sum) ∧
      (configurationBytes sampleTwoServers).length =
        1 + 8 + (sampleTwoServers.servers.map
          fun s => 8 + ((cstring s.address).length + 1) + 1).sum ∧
      padding = ((List.range (configurationEncodedSize sampleTwoServers)).map
        fun i => sampleUvEnv.heap_fill i % 256).drop
          (configurationBytes sampleTwoServers).length :=
  C26_configurationEncode_layout sampleUvEnv sampleTwoServers rfl

/-- C26, counterexample: on a heap where raft_malloc fails configurationEncode
returns RAFT_NOMEM and produces no buffer. -/
theorem C26_counterexample_no_buffer_on_nomem :
    configurationEncode sampleUvEnvNoMem sampleTwoServers = some ⟨RAFT_NOMEM, none⟩ :=
  rfl

/-- The decoder rejects as malformed a buffer whose first byte is not 1, and a
buffer with version 1 that announces n servers, holds the records of fewer
than n valid servers (added without allocation failure) and then an id
followed by an address with no null byte up to the end of the buffer. -/
theorem configurationDecode_rejects (nomem : Nat → Bool) :
    (∀ b rest, b ≠ 1 →
      ∃ c, configurationDecode nomem (b :: rest) = some (RAFT_MALFORMED, c)) ∧
    (∀ n pre id tail, pre.length < n → n < 2 ^ 64 → validServers pre →
      (∀ i, i < pre.length → nomem i = false) → 0 ∉ tail →
      ∃ c, configurationDecode nomem
          (1 :: (byteLE 8 n ++ (serversBytes pre ++ (byteLE 8 id ++ tail)))) =
        some (RAFT_MALFORMED, c)) := by
  refine ⟨?_, ?_⟩
  · intro b rest hb
    refine ⟨⟨[]⟩, ?_⟩
    simp only [configurationDecode, byteGet8_cons, Option.some_bind, ne_eq, hb,
      not_false_eq_true, if_true]
  · intro n pre id tail hlt hn hvalid hmem htail
    refine ⟨⟨pre⟩, ?_⟩
    obtain ⟨hval, hids, haddrs⟩ := hvalid
    obtain ⟨k, rfl⟩ : ∃ k, n = pre.length + (k + 1) := ⟨n - pre.length - 1, by omega⟩
    have hloop := configurationDecode_loop_servers nomem pre (k + 1) 0
      (byteLE 8 id ++ tail) ⟨[]⟩
      (fun s hs => ⟨(hval s hs).2.1, (hval s hs).2.2⟩)
      (by simpa only [List.nil_append] using hids)
      (by simpa only [List.nil_append] using haddrs)
      (fun j hj => by
        have := hmem j hj
        simpa only [Nat.zero_add] using this)
    simp only [configurationDecode, byteGet8_cons, Option.some_bind, ne_eq,
      not_true_eq_false, if_false, byteGet64_append _ _ hn]
    rw [hloop]
    simp only [List.nil_append, configurationDecode_loop, byteGet64, byteGetN_append,
      Option.some_bind, byteGetString_unterminated tail htail]

/-! ## A batch header with a bad type byte -/

/-- C23: on the batch header with count 2 whose second header has the type
byte 7, the allocation succeeding, the loop of uvDecodeBatchHeader picks
RAFT_MALFORMED and the function then calls raft_free on the address of its
out-parameter. Called as decodeAppendEntries calls it, with the address of a
member of the message, this is undefined: neither uvDecodeBatchHeader nor
uvDecodeMessage returns. Only when the out-parameter is itself a block of the
heap does the function return RAFT_MALFORMED, having released that block and
left the array allocated. -/
theorem C23_bad_type_frees_out_parameter :
    (uvDecodeBatchHeader_loop sampleUvEnv 2 0 (sampleBadTypeBatch.drop 8) []).map
        (fun res => res.1) = some RAFT_MALFORMED ∧
    uvDecodeBatchHeader sampleUvEnv sampleBadTypeBatch false = none ∧
    uvDecodeMessage sampleUvEnv RAFT_IO_APPEND_ENTRIES sampleBadTypeBody sampleBlank = none ∧
    uvDecodeBatchHeader sampleUvEnv sampleBadTypeBatch true =
      some ⟨RAFT_MALFORMED,
        some [⟨5, RAFT_COMMAND, ⟨4096, 8⟩, 4096⟩, ⟨5, 7, ⟨4097, 77⟩, 4096⟩], 2⟩ :=
  ⟨rfl, rfl, rfl, rfl⟩

/-! ## Facts about the layout of the ring -/

/-- Bytes before a store are not changed by it. -/
theorem writeAt_take_before (buf : List Nat) (w : Nat) (ws : List Nat) (o n : Nat)
    (h : w + ws.length ≤ buf.length) (ho : o + n ≤ w) :
    ((writeAt buf w ws).drop o).take n = (buf.drop o).take n := by
  have hlen : (buf.take w).length = w := by rw [List.length_take]; omega
  unfold writeAt
  rw [List.drop_append_of_le_length (by rw [hlen]; omega),
    List.take_append_of_le_length (by rw [List.length_drop, hlen]; omega),
    List.drop_take, List.take_take, Nat.min_eq_left (by omega)]

theorem noEntryAt_writeAt_before (buf : List Nat) (size : Nat) (w : Nat) (ws : List Nat)
    (d : Nat) (h : noEntryAt buf size d) (hw : w + ws.length ≤ buf.length)
    (hd : d + METADATA_SIZE ≤ w) : noEntryAt (writeAt buf w ws) size d := by
  rcases h with h | ⟨h1, h2⟩
  · exact Or.inl h
  · exact Or.inr ⟨h1, by rw [writeAt_take_before buf w ws d _ hw hd]; exact h2⟩

/-- C31, evaluation at the failing input: an AppendEntries header announcing
two commands with payloads of 5 and 8 bytes. uvDecodeMessage returns 0 and
reports payload_len = 13, the sum of the two lengths as they are, while the
lengths rounded up to a multiple of 8 add up to 16 and uvDecodeEntriesBatch,
given a payload buffer of 13 bytes at address 8192, places the second payload
at 8200: its 8 bytes end 3 bytes past the end of the buffer. -/
theorem C31_payload_len_sums_raw_lengths :
    uvDecodeMessage sampleUvEnv RAFT_IO_APPEND_ENTRIES sampleOddHeader sampleBlank =
      some ⟨0, ⟨1, 0, "", .append_entries ⟨5, 7, 4, 6, sampleOddEntries⟩⟩, 13⟩ ∧
    payloadOffset sampleOddEntries 2 = 16 ∧
    uvDecodeEntriesBatch ⟨8192, 13⟩ sampleOddEntries 2 =
      some [⟨5, RAFT_COMMAND, ⟨8192, 5⟩, 8192⟩, ⟨5, RAFT_COMMAND, ⟨8200, 8⟩, 8192⟩] :=
  ⟨rfl, rfl, rfl⟩

/-! ## Restoring a snapshot -/

/-- C37: for every server and every snapshot with exactly one buffer,
snapshotRestore returns: when the restore method of the state machine fails,
with that error and the server unchanged; when it succeeds, with 0 and the
server holding the configuration and configuration_index of the snapshot and
commit_index = last_applied = last_stored = the index of the snapshot, its
other fields unchanged. -/
theorem C37_snapshotRestore (sd : StartDeps) (r : raft) (snapshot : raft_snapshot)
    (buf : raft_buffer) (hbufs : snapshot.bufs = [buf]) :
    (sd.fsm_restore buf ≠ 0 →
      snapshotRestore sd r snapshot = some ⟨sd.fsm_restore buf, r⟩) ∧
    (sd.fsm_restore buf = 0 →
      snapshotRestore sd r snapshot = some ⟨0, { r with
        configuration := snapshot.configuration,
        configuration_index := snapshot.configuration_index,
        commit_index := snapshot.index,
        last_applied := snapshot.index,
        last_stored := snapshot.index }⟩) := by
  unfold snapshotRestore
  rw [hbufs]
  constructor
  · intro h
    simp only [h, ne_eq, not_false_eq_true, if_true]
  · intro h
    simp only [h, ne_eq, not_true_eq_false, if_false]

/-- C37, instance: the sample snapshot (index 100, configuration of index 1)
restored on the fresh sample server, with a state machine that accepts it. -/
theorem C37_snapshotRestore_witness :
    (sampleStartDeps.fsm_restore ⟨200, 16⟩ ≠ 0 →
      snapshotRestore sampleStartDeps sampleFresh sampleSnapshot =
        some ⟨sampleStartDeps.fsm_restore ⟨200, 16⟩, sampleFresh⟩) ∧
    (sampleStartDeps.fsm_restore ⟨200, 16⟩ = 0 →
      snapshotRestore sampleStartDeps sampleFresh sampleSnapshot = some ⟨0, { sampleFresh with
        configuration := sampleSnapshot.configuration,
        configuration_index := sampleSnapshot.configuration_index,
        commit_index := sampleSnapshot.index,
        last_applied := sampleSnapshot.index,
        last_stored := sampleSnapshot.index }⟩) :=
  C37_snapshotRestore sampleStartDeps sampleFresh sampleSnapshot ⟨200, 16⟩ rfl

/-! ## What `restoreEntries` leaves behind -/

/-- Index arithmetic: the position of the index `s + i` in a log that starts
at `s`. -/
theorem index_from_start (s i : Nat) (h : 1 ≤ s) :
    ¬ (s + i ≤ s - 1) ∧ s + i - (s - 1) - 1 = i ∧ s - 1 + i + 1 = s + i := by omega

/-- Index arithmetic: the index of the last of `n` entries that start at `s`. -/
theorem index_last (s n : Nat) (h : 1 ≤ s) : s - 1 + n = s + n - 1 := by omega

/-- C36: for every start_index >= 1 and every list of loaded entries, on a
server whose log holds no entry (as raft_start leaves it before the call),
when restoreEntries returns 0 the log holds exactly the loaded entries, entry
i at index start_index + i; last_stored = start_index + n - 1; when no loaded
entry has type CHANGE the configuration and configuration_index are unchanged;
otherwise configurationDecode succeeds on the last loaded entry of type CHANGE
and gives the configuration of the server, and configuration_index is the
index of that entry. -/
theorem C36_restoreEntries (sd : StartDeps) (r : raft) (start_index : raft_index)
    (entries : List raft_entry) (hstart : 1 ≤ start_index) (hempty : r.log.entries = [])
    (h : (restoreEntries sd r start_index entries).rv = 0) :
    (restoreEntries sd r start_index entries).r.log.entries = entries ∧
    (∀ i, i < entries.length →
      logGet (restoreEntries sd r start_index entries).r.log (start_index + i) =
        entries.get? i) ∧
    logLastIndex (restoreEntries sd r start_index entries).r.log =
      start_index + entries.length - 1 ∧
    (restoreEntries sd r start_index entries).r.last_stored =
      start_index + entries.length - 1 ∧
    ((∀ e ∈ entries, e.type ≠ RAFT_CHANGE) →
      (restoreEntries sd r start_index entries).r.configuration = r.configuration ∧
      (restoreEntries sd r start_index entries).r.configuration_index =
        r.configuration_index) ∧
    (∀ p e, entries.get? p = some e → e.type = RAFT_CHANGE →
      (∀ q e', p < q → entries.get? q = some e' → e'.type ≠ RAFT_CHANGE) →
      sd.configurationDecode e.buf =
        (0, (restoreEntries sd r start_index entries).r.configuration) ∧
      (restoreEntries sd r start_index entries).r.configuration_index = start_index + p) := by
  obtain ⟨hlog, hstored, _, _, _, _, hnone, hsome⟩ := restoreEntries_ok sd r start_index entries h
  have hentries : (restoreEntries sd r start_index entries).r.log.entries = entries := by
    rw [hlog, hempty]
    rfl
  have hoffset : (restoreEntries sd r start_index entries).r.log.offset = start_index - 1 := by
    rw [hlog]
    rfl
  refine ⟨hentries, ?_, ?_, ?_, ?_, ?_⟩
  · intro i _
    obtain ⟨h1, h2, _⟩ := index_from_start start_index i hstart
    unfold logGet
    rw [hoffset, if_neg h1, h2, hentries]
  · unfold logLastIndex logNumEntries
    rw [hoffset, hentries]
    exact index_last start_index entries.length hstart
  · rw [hstored]
    exact index_last start_index entries.length hstart
  · intro hno
    rcases lastChange_spec entries (start_index - 1) none with ⟨_, hres⟩ | ⟨p, e, hp, he, _, _⟩
    · exact hnone hres
    · exact absurd he (hno e (List.get?_mem hp))
  · intro p e hp he hlast
    rcases lastChange_spec entries (start_index - 1) none with
      ⟨hno, _⟩ | ⟨p1, e1, hp1, he1, hlast1, hres⟩
    · exact absurd he (hno e (List.get?_mem hp))
    · have hpp : p1 = p := by
        rcases Nat.lt_trichotomy p1 p with hlt | heq | hgt
        · exact absurd he (hlast1 p e hlt hp)
        · exact heq
        · exact absurd he1 (hlast p1 e1 hgt hp1)
      subst hpp
      have hee : e1 = e := by
        rw [hp] at hp1
        exact (Option.some.inj hp1).symm
      subst hee
      obtain ⟨g1, g2⟩ := hsome e1 _ hres
      refine ⟨g1, ?_⟩
      rw [g2]
      exact (index_from_start start_index p1 hstart).2.2

/-- C36, instance: the three entries CHANGE, COMMAND, CHANGE of the sample
disk restored from index 1 on the fresh sample server. -/
theorem C36_restoreEntries_witness :
    (restoreEntries sampleStartDeps sampleFresh 1 (sampleStartDeps.load 128).entries).r.log.entries
      = (sampleStartDeps.load 128).entries ∧
    (∀ i, i < (sampleStartDeps.load 128).entries.length →
      logGet (restoreEntries sampleStartDeps sampleFresh 1
          (sampleStartDeps.load 128).entries).r.log (1 + i) =
        (sampleStartDeps.load 128).entries.get? i) ∧
    logLastIndex (restoreEntries sampleStartDeps sampleFresh 1
        (sampleStartDeps.load 128).entries).r.log =
      1 + (sampleStartDeps.load 128).entries.length - 1 ∧
    (restoreEntries sampleStartDeps sampleFresh 1
        (sampleStartDeps.load 128).entries).r.last_stored =
      1 + (sampleStartDeps.load 128).entries.length - 1 ∧
    ((∀ e ∈ (sampleStartDeps.load 128).entries, e.type ≠ RAFT_CHANGE) →
      (restoreEntries sampleStartDeps sampleFresh 1
          (sampleStartDeps.load 128).entries).r.configuration = sampleFresh.configuration ∧
      (restoreEntries sampleStartDeps sampleFresh 1
          (sampleStartDeps.load 128).entries).r.configuration_index =
        sampleFresh.configuration_index) ∧
    (∀ p e, (sampleStartDeps.load 128).entries.get? p = some e → e.type = RAFT_CHANGE →
      (∀ q e', p < q → (sampleStartDeps.load 128).entries.get? q = some e' →
        e'.type ≠ RAFT_CHANGE) →
      sampleStartDeps.configurationDecode e.buf =
        (0, (restoreEntries sampleStartDeps sampleFresh 1
          (sampleStartDeps.load 128).entries).r.configuration) ∧
      (restoreEntries sampleStartDeps sampleFresh 1
          (sampleStartDeps.load 128).entries).r.configuration_index = 1 + p) :=
  C36_restoreEntries sampleStartDeps sampleFresh 1 (sampleStartDeps.load 128).entries
    (by decide) rfl rfl

/-! ## The promotion of a server that has caught up -/

/-- The sample trigger leaves the catch-up round alone. -/
theorem sampleDeps_trigger_round : ReplicationTriggerRoundFrame sampleDeps :=
  ⟨fun _ _ => rfl, fun _ _ => rfl, fun _ _ => rfl, fun _ _ => rfl⟩

/-- The progress array is not rebuilt for a configuration with as many servers
as the current one. -/
theorem changeConfiguration_rebuild_same (d : Deps) (r : raft) (c : raft_configuration)
    (h : c.n = r.configuration.n) : changeConfiguration_rebuild d r c = ⟨0, r⟩ := by
  simp only [changeConfiguration_rebuild, h, ne_eq, not_true_eq_false, if_false]

/-- A successful `changeConfiguration_replicate` leaves the catch-up round as
it was. -/
theorem changeConfiguration_replicate_round (d : Deps) (r : raft) (req : Nat)
    (obj : raft_request) (index : raft_index) (out : ClientOut)
    (hround : ReplicationTriggerRoundFrame d)
    (hout : changeConfiguration_replicate d r req obj index = some out) (hrv : out.rv = 0) :
    out.r.leader_state.promotee_id = r.leader_state.promotee_id ∧
    out.r.leader_state.round_number = r.leader_state.round_number ∧
    out.r.leader_state.round_index = r.leader_state.round_index ∧
    out.r.leader_state.round_start = r.leader_state.round_start := by
  simp only [changeConfiguration_replicate, errExit] at hout
  split_ifs at hout with h1
  · simp only [Option.some.injEq] at hout
    subst hout
    exact absurd hrv h1
  · simp only [Option.some.injEq] at hout
    subst hout
    refine ⟨?_, ?_, ?_, ?_⟩
    · show (d.replicationTrigger _ _).r.leader_state.promotee_id = _
      rw [hround.promotee_id]
    · show (d.replicationTrigger _ _).r.leader_state.round_number = _
      rw [hround.round_number]
    · show (d.replicationTrigger _ _).r.leader_state.round_index = _
      rw [hround.round_index]
    · show (d.replicationTrigger _ _).r.leader_state.round_start = _
      rw [hround.round_start]

/-- What a successful `changeConfiguration` has done when it was given the
configuration of the server itself: the configuration stays, one `RAFT_CHANGE`
entry of the current term holding its encoding is appended, the request is
queued with the index of that entry, which is also the uncommitted
configuration index, and the pending change and the catch-up round are as
before. -/
theorem changeConfiguration_aliased_ok (d : Deps) (r : raft) (req : Nat) (obj : raft_request)
    (out : ClientOut) (htrig : ReplicationTriggerFrame d)
    (hround : ReplicationTriggerRoundFrame d)
    (hout : changeConfiguration d r req obj r.configuration true = some out)
    (hrv : out.rv = 0) :
    out.r.configuration = r.configuration ∧
    out.r.log = { r.log with entries :=
      r.log.entries ++ [⟨r.current_term, RAFT_CHANGE, d.configurationEncode r.configuration,
        0⟩] } ∧
    out.r.configuration_uncommitted_index = logLastIndex r.log + 1 ∧
    out.req = { obj with type := RAFT_CHANGE, index := logLastIndex r.log + 1 } ∧
    out.r.leader_state.requests = r.leader_state.requests ++ [req] ∧
    out.r.leader_state.change = r.leader_state.change ∧
    out.r.leader_state.promotee_id = r.leader_state.promotee_id ∧
    out.r.leader_state.round_number = r.leader_state.round_number ∧
    out.r.leader_state.round_index = r.leader_state.round_index ∧
    out.r.leader_state.round_start = r.leader_state.round_start := by
  have hsame := changeConfiguration_rebuild_same d
    { r with log := (logAppendConfiguration d r.log r.current_term r.configuration).2 }
    r.configuration rfl
  by_cases h1 : (logAppendConfiguration d r.log r.current_term r.configuration).1 = 0
  · simp only [changeConfiguration, h1, hsame, Bool.true_eq_false, if_false, ne_eq,
      not_true_eq_false] at hout
    obtain ⟨g1, g2, g3, g4, g5, g6⟩ :=
      changeConfiguration_replicate_ok d _ req obj _ out htrig hout hrv
    obtain ⟨k1, k2, k3, k4⟩ :=
      changeConfiguration_replicate_round d _ req obj _ out hround hout hrv
    have ha := logAppend_ok _ _ _ _ _ _ h1
    refine ⟨g1, ?_, g3, g4, g5, g6, k1, k2, k3, k4⟩
    rw [g2]
    exact ha
  · simp only [changeConfiguration, errExit, h1, ne_eq, not_false_eq_true, if_true,
      Option.some.injEq] at hout
    subst hout
    exact absurd hrv h1

/-- The server that a lookup finds sits at the index that
`configurationIndexOf` returns. -/
theorem configurationGet_at (c : raft_configuration) (id : Nat) (s : raft_server)
    (h : configurationGet c id = some s) :
    c.servers.get? (configurationIndexOf c id) = some s := by
  obtain ⟨servers⟩ := c
  simp only [configurationGet, configurationIndexOf] at h ⊢
  induction servers with
  | nil => simp at h
  | cons a l ih =>
    by_cases ha : a.id = id
    · simp only [List.find?_cons, ha, decide_True] at h
      simp only [List.findIdx_cons, ha, decide_True, cond_true, List.get?_cons_zero]
      exact h
    · simp only [List.find?_cons, ha, decide_False] at h
      simp only [List.findIdx_cons, ha, decide_False, cond_false, List.get?_cons_succ]
      exact ih h

/-- C34: for every server on which raft_promote returns 0 for a non-voting
server of the configuration whose match_index equals the last index of the
log, membership changes were allowed (hence the server is leader) and no
catch-up round has been started: promotee_id, round_number, round_index and
round_start are as before; the in-memory configuration is the previous one
with that server marked voting, every other server unchanged; exactly one
entry has been appended to the log, a CHANGE entry of the current term holding
the encoding of that configuration, at index old last index + 1;
configuration_uncommitted_index and the index of the request both equal that
index, and the request is the pending membership change. -/
theorem C34_raft_promote_caught_up (d : Deps) (r : raft) (req : Nat) (obj : raft_request)
    (id : Nat) (cb : Nat) (server : raft_server) (out : ClientOut)
    (htrig : ReplicationTriggerFrame d) (hround : ReplicationTriggerRoundFrame d)
    (hget : configurationGet r.configuration id = some server)
    (hnv : server.voting = false)
    (hmatch : progressMatchIndex r (configurationIndexOf r.configuration id) =
      logLastIndex r.log)
    (hout : raft_promote d r req obj id cb = some out) (hrv : out.rv = 0) :
    membershipCanChangeConfiguration r = 0 ∧
    (out.r.leader_state.promotee_id = r.leader_state.promotee_id ∧
      out.r.leader_state.round_number = r.leader_state.round_number ∧
      out.r.leader_state.round_index = r.leader_state.round_index ∧
      out.r.leader_state.round_start = r.leader_state.round_start) ∧
    out.r.configuration.servers.length = r.configuration.servers.length ∧
    out.r.configuration.servers.get? (configurationIndexOf r.configuration id) =
      some { server with voting := true } ∧
    (∀ j, j ≠ configurationIndexOf r.configuration id →
      out.r.configuration.servers.get? j = r.configuration.servers.get? j) ∧
    out.r.log.entries = r.log.entries ++ [⟨r.current_term, RAFT_CHANGE,
      d.configurationEncode out.r.configuration, 0⟩] ∧
    logLastIndex out.r.log = logLastIndex r.log + 1 ∧
    out.r.configuration_uncommitted_index = logLastIndex r.log + 1 ∧
    out.req = { obj with type := RAFT_CHANGE, index := logLastIndex r.log + 1, cb := cb } ∧
    out.r.leader_state.change = some req := by
  have hidx := configurationIndexOf_lt _ _ _ hget
  have hat := configurationGet_at _ _ _ hget
  by_cases hcan : membershipCanChangeConfiguration r = 0
  · have hchange : r.leader_state.change = none := by
      by_contra hne
      simp only [membershipCanChangeConfiguration] at hcan
      split_ifs at hcan <;> simp_all [RAFT_NOTLEADER, RAFT_CANTCHANGE]
    have hmatch2 : progressMatchIndex
        { r with leader_state := { r.leader_state with change := some req } }
        (configurationIndexOf r.configuration id) = logLastIndex r.log := hmatch
    simp only [raft_promote, hcan, ne_eq, not_true_eq_false, if_false, hget, hnv, hidx,
      hchange, hmatch2, Bool.false_eq_true, if_true] at hout
    cases hcc : changeConfiguration d
        { r with
          leader_state := { r.leader_state with change := some req },
          configuration := setVoting r.configuration (configurationIndexOf r.configuration id)
            true }
        req { obj with cb := cb }
        (setVoting r.configuration (configurationIndexOf r.configuration id) true) true with
    | none =>
      rw [hcc] at hout
      simp at hout
    | some o =>
      rw [hcc] at hout
      simp only at hout
      by_cases k1 : o.rv = 0
      swap
      · simp only [k1, ne_eq, not_false_eq_true, if_true, if_false, Option.some.injEq] at hout
        subst hout
        exact absurd hrv k1
      · simp only [k1, ne_eq, not_true_eq_false, if_true, if_false, Option.some.injEq] at hout
        subst hout
        obtain ⟨g1, g2, g3, g4, g5, g6, g7, g8, g9, g10⟩ :=
          changeConfiguration_aliased_ok d _ req _ o htrig hround hcc k1
        have hconf : o.r.configuration =
            setVoting r.configuration (configurationIndexOf r.configuration id) true := g1
        refine ⟨hcan, ⟨g7, g8, g9, g10⟩, ?_, ?_, ?_, ?_, ?_, g3, g4, g6⟩
        · show o.r.configuration.servers.length = _
          rw [hconf]
          simp only [setVoting, List.length_modify]
        · show o.r.configuration.servers.get? _ = _
          rw [hconf]
          simp only [setVoting, List.get?_eq_getElem?, List.getElem?_modify_eq]
          rw [← List.get?_eq_getElem?, hat]
          rfl
        · intro j hj
          show o.r.configuration.servers.get? _ = _
          rw [hconf]
          simp only [setVoting, List.get?_eq_getElem?]
          exact List.getElem?_modify_ne _ _ (Ne.symm hj)
        · show o.r.log.entries = _
          rw [g2, hconf]
        · show logLastIndex o.r.log = _
          rw [g2]
          simp only [logLastIndex, logNumEntries, List.length_append, List.length_singleton]
          exact (Nat.add_assoc _ _ _).symm
  · simp only [raft_promote, ne_eq, hcan, not_false_eq_true, if_true,
      Option.some.injEq] at hout
    subst hout
    exact absurd hrv hcan

/-- C34, instance: the sample leader (term 3, last index 5) promotes server 3,
which is not voting and whose match index is 5. -/
theorem C34_raft_promote_caught_up_witness :
    raft_promote sampleDeps sampleCaughtUp 600 sampleRequest 3 9 = some samplePromoted ∧
    (membershipCanChangeConfiguration sampleCaughtUp = 0 ∧
    (samplePromoted.r.leader_state.promotee_id = sampleCaughtUp.leader_state.promotee_id ∧
      samplePromoted.r.leader_state.round_number = sampleCaughtUp.leader_state.round_number ∧
      samplePromoted.r.leader_state.round_index = sampleCaughtUp.leader_state.round_index ∧
      samplePromoted.r.leader_state.round_start = sampleCaughtUp.leader_state.round_start) ∧
    samplePromoted.r.configuration.servers.length =
      sampleCaughtUp.configuration.servers.length ∧
    samplePromoted.r.configuration.servers.get?
        (configurationIndexOf sampleCaughtUp.configuration 3) =
      some { (⟨3, "3", false⟩ : raft_server) with voting := true } ∧
    (∀ j, j ≠ configurationIndexOf sampleCaughtUp.configuration 3 →
      samplePromoted.r.configuration.servers.get? j =
        sampleCaughtUp.configuration.servers.get? j) ∧
    samplePromoted.r.log.entries = sampleCaughtUp.log.entries ++
      [⟨sampleCaughtUp.current_term, RAFT_CHANGE,
        sampleDeps.configurationEncode samplePromoted.r.configuration, 0⟩] ∧
    logLastIndex samplePromoted.r.log = logLastIndex sampleCaughtUp.log + 1 ∧
    samplePromoted.r.configuration_uncommitted_index = logLastIndex sampleCaughtUp.log + 1 ∧
    samplePromoted.req = { sampleRequest with
      type := RAFT_CHANGE, index := logLastIndex sampleCaughtUp.log + 1, cb := 9 } ∧
    samplePromoted.r.leader_state.change = some 600) :=
  ⟨rfl, C34_raft_promote_caught_up sampleDeps sampleCaughtUp 600 sampleRequest 3 9
    ⟨3, "3", false⟩ samplePromoted sampleDeps_trigger_frame sampleDeps_trigger_round rfl rfl
    rfl rfl rfl⟩

/-! ## A promotion that fails -/

/-- C35, evaluation at the failing input. On the sample leader membership
changes are allowed and no change is pending; server 3 is not voting and has
caught up. When logAppendConfiguration runs out of memory, raft_promote
returns RAFT_NOMEM with the voting flag of server 3 back to false and the
log as before, but with leader_state.change still holding the request 600; a
raft_add that follows is refused with RAFT_CANTCHANGE. -/
theorem C35_failed_promote_leaves_change_pending :
    membershipCanChangeConfiguration sampleCaughtUp = 0 ∧
    sampleCaughtUp.leader_state.change = none ∧
    raft_promote sampleDepsAppendFails sampleCaughtUp 600 sampleRequest 3 9 =
      some ⟨RAFT_NOMEM, sampleFailedPromotion, ⟨77, 0, 0, 9⟩⟩ ∧
    sampleFailedPromotion.leader_state.change = some 600 ∧
    sampleFailedPromotion.configuration = sampleCaughtUp.configuration ∧
    raft_add sampleDeps sampleFailedPromotion 700 sampleRequest 4 "4" 9 =
      some ⟨RAFT_CANTCHANGE, sampleFailedPromotion, sampleRequest⟩ :=
  ⟨rfl, rfl, rfl, rfl, rfl, rfl⟩

/-! ## The messages sent by `recvAppendEntries` -/

/-- The sample collaborators change the term in term reconciliation only. -/
theorem sampleDeps_keeps_term : RecvKeepsTerm sampleDeps := by
  refine ⟨fun _ => rfl, fun _ _ _ => rfl, ?_⟩
  intro r args rejected
  simp only [sampleDeps, sampleAppend]
  split_ifs <;> rfl

/-- With the send request allocated, the reply block hands its message to the
I/O backend and returns the code of the send. -/
theorem recvAppendEntries_reply_ok (d : Deps) (r : raft) (id : Nat) (address : String)
    (rejected last_log_index : raft_index) (h : d.raft_malloc sizeof_raft_io_send ≠ 0) :
    recvAppendEntries_reply d r id address rejected last_log_index =
      ⟨d.io_send (resultMessage id address r.current_term rejected last_log_index), r,
        [resultMessage id address r.current_term rejected last_log_index]⟩ := by
  simp only [recvAppendEntries_reply, h, if_false, resultMessage]
  split_ifs with h0
  · rfl
  · simp only [ne_eq, not_not] at h0
    rw [h0]

/-- Without the send request the reply block sends nothing. -/
theorem recvAppendEntries_reply_nomem (d : Deps) (r : raft) (id : Nat) (address : String)
    (rejected last_log_index : raft_index) (h : d.raft_malloc sizeof_raft_io_send = 0) :
    recvAppendEntries_reply d r id address rejected last_log_index = ⟨RAFT_NOMEM, r, []⟩ := by
  simp only [recvAppendEntries_reply, h, if_true]

/-- The term of the server when `replicationAppend` returns is the term that
term reconciliation left. -/
theorem recvAppendEntries_appended_term (d : Deps) (hterm : RecvKeepsTerm d) (r : raft)
    (id : Nat) (address : String) (args : raft_append_entries) :
    (recvAppendEntries_appended d r id address args).r.current_term =
      (d.recvEnsureMatchingTerms r args.term).r.current_term := by
  unfold recvAppendEntries_appended
  rw [hterm.append]
  show (d.recvUpdateLeader (recvAppendEntries_reconciled d r args) id address).r.current_term
    = _
  rw [hterm.update]
  simp only [recvAppendEntries_reconciled]
  split_ifs
  · rw [hterm.convert]
  · rfl

/-- The ways in which `recvAppendEntries` returns: through the reply block, for
a stale term or after `replicationAppend`; or before it, with nothing sent. -/
theorem recvAppendEntries_paths (d : Deps) (r : raft) (id : Nat) (address : String)
    (args : raft_append_entries) (out : RecvOut)
    (hout : recvAppendEntries d r id address args = some out) :
    (recvAppendEntries_replies d r id address args ∧
      (out = recvAppendEntries_reply d (d.recvEnsureMatchingTerms r args.term).r id address
          args.prev_log_index (logLastIndex r.log) ∨
       out = recvAppendEntries_reply d (recvAppendEntries_appended d r id address args).r id
          address (recvAppendEntries_appended d r id address args).rejected
          (recvAppendEntries_appended d r id address args).r.last_stored)) ∨
    (¬ recvAppendEntries_replies d r id address args ∧ out.sends = [] ∧
      (recvAppendEntries_appends d r id address args →
        (recvAppendEntries_appended d r id address args).rv = 0 →
        (recvAppendEntries_appended d r id address args).async = true → out.rv = 0)) := by
  by_cases he : (d.recvEnsureMatchingTerms r args.term).rv = 0
  swap
  · right
    simp only [recvAppendEntries] at hout
    split_ifs at hout
    simp only [Option.some.injEq] at hout
    subst hout
    refine ⟨?_, rfl, fun h => absurd h.1 he⟩
    rintro (⟨h, _⟩ | ⟨⟨h, _⟩, _⟩) <;> exact he h
  by_cases hm : (d.recvEnsureMatchingTerms r args.term).mtch < 0
  · left
    simp only [recvAppendEntries, he, hm, ne_eq, not_true_eq_false, if_false, if_true] at hout
    split_ifs at hout
    simp only [Option.some.injEq] at hout
    exact ⟨Or.inl ⟨he, hm⟩, Or.inl hout.symm⟩
  have hm2 : 0 ≤ (d.recvEnsureMatchingTerms r args.term).mtch := not_lt.mp hm
  have hfollow : recvAppendEntries_follow d (recvAppendEntries_reconciled d r args) id address
      args = some out := by
    simp only [recvAppendEntries, he, hm, ne_eq, not_true_eq_false, if_false] at hout
    split_ifs at hout
    exact hout
  simp only [recvAppendEntries_follow] at hfollow
  split_ifs at hfollow with h1 h2 h3
  · right
    simp only [Option.some.injEq] at hfollow
    subst hfollow
    refine ⟨?_, rfl, fun h => absurd h.2.2.1 h2⟩
    rintro (⟨_, h⟩ | ⟨⟨_, _, h, _⟩, _⟩)
    · exact hm h
    · exact h2 h
  · right
    simp only [Option.some.injEq] at hfollow
    subst hfollow
    refine ⟨?_, rfl, fun _ _ _ => rfl⟩
    rintro (⟨_, h⟩ | ⟨⟨_, _, _, h⟩, _⟩)
    · exact hm h
    · exact h h3
  · have happs : recvAppendEntries_appends d r id address args :=
      ⟨he, hm2, not_not.mp h2, h3⟩
    simp only [Option.some.injEq] at hfollow
    have hout2 : out = recvAppendEntries_append d
        (recvAppendEntries_accepted d (recvAppendEntries_reconciled d r args) id address) id
        address args := hfollow.symm
    simp only [recvAppendEntries_append] at hout2
    by_cases ha : (recvAppendEntries_appended d r id address args).rv = 0
    swap
    · right
      have ha2 : (d.replicationAppend
          (recvAppendEntries_accepted d (recvAppendEntries_reconciled d r args) id address)
          args args.prev_log_index).rv ≠ 0 := ha
      rw [if_pos ha2] at hout2
      subst hout2
      refine ⟨?_, rfl, fun _ h => absurd h ha⟩
      rintro (⟨_, h⟩ | ⟨_, h, _⟩)
      · exact hm h
      · exact ha h
    have ha2 : ¬ (d.replicationAppend
        (recvAppendEntries_accepted d (recvAppendEntries_reconciled d r args) id address)
        args args.prev_log_index).rv ≠ 0 := not_not.mpr ha
    rw [if_neg ha2] at hout2
    by_cases hs : (recvAppendEntries_appended d r id address args).async = true
    · right
      have hs2 : (d.replicationAppend
          (recvAppendEntries_accepted d (recvAppendEntries_reconciled d r args) id address)
          args args.prev_log_index).async = true := hs
      rw [if_pos hs2] at hout2
      subst hout2
      refine ⟨?_, rfl, fun _ _ _ => rfl⟩
      rintro (⟨_, h⟩ | ⟨_, _, h⟩)
      · exact hm h
      · rw [hs] at h
        exact Bool.noConfusion h
    · left
      have hs2 : ¬ (d.replicationAppend
          (recvAppendEntries_accepted d (recvAppendEntries_reconciled d r args) id address)
          args args.prev_log_index).async = true := hs
      rw [if_neg hs2] at hout2
      exact ⟨Or.inr ⟨happs, ha, by simpa using hs⟩, Or.inr hout2⟩

/-- C32 (amended): recvAppendEntries sends at most one message per call. When
it gets to its reply block (the term of the request is stale, or
replicationAppend has succeeded without deferring the reply) and the
allocation of the send request succeeds, it sends exactly one message, an
AppendEntriesResult addressed to the id and address of the sender whose term
is the local current_term after term reconciliation, and returns the code of
the send; when that allocation fails it sends nothing and returns RAFT_NOMEM.
When it returns before the reply block it sends nothing; in particular when
replicationAppend reports that the append completes asynchronously it sends
nothing and returns 0. -/
theorem C32_recvAppendEntries_sends (d : Deps) (r : raft) (id : Nat) (address : String)
    (args : raft_append_entries) (out : RecvOut) (hterm : RecvKeepsTerm d)
    (hout : recvAppendEntries d r id address args = some out) :
    out.sends.length ≤ 1 ∧
    (recvAppendEntries_replies d r id address args →
      d.raft_malloc sizeof_raft_io_send ≠ 0 →
      ∃ rejected last_log_index,
        out.sends = [resultMessage id address
          (d.recvEnsureMatchingTerms r args.term).r.current_term rejected last_log_index] ∧
        out.rv = d.io_send (resultMessage id address
          (d.recvEnsureMatchingTerms r args.term).r.current_term rejected last_log_index)) ∧
    (recvAppendEntries_replies d r id address args →
      d.raft_malloc sizeof_raft_io_send = 0 → out.sends = [] ∧ out.rv = RAFT_NOMEM) ∧
    (¬ recvAppendEntries_replies d r id address args → out.sends = []) ∧
    (recvAppendEntries_appends d r id address args →
      (recvAppendEntries_appended d r id address args).rv = 0 →
      (recvAppendEntries_appended d r id address args).async = true →
      out.sends = [] ∧ out.rv = 0) := by
  have hat := recvAppendEntries_appended_term d hterm r id address args
  rcases recvAppendEntries_paths d r id address args out hout with
    ⟨hrep, hreply⟩ | ⟨hnot, hsends, hasync⟩
  · have hshape : ∃ rejected last_log_index,
        out = recvAppendEntries_reply d (d.recvEnsureMatchingTerms r args.term).r id address
          rejected last_log_index ∨
        out = recvAppendEntries_reply d (recvAppendEntries_appended d r id address args).r id
          address rejected last_log_index := by
      rcases hreply with h | h
      · exact ⟨_, _, Or.inl h⟩
      · exact ⟨_, _, Or.inr h⟩
    obtain ⟨rejected, last_log_index, hcase⟩ := hshape
    have hdeferred : ¬ (recvAppendEntries_appends d r id address args ∧
        (recvAppendEntries_appended d r id address args).rv = 0 ∧
        (recvAppendEntries_appended d r id address args).async = true) := by
      rintro ⟨happs, _, hs⟩
      rcases hrep with ⟨_, hm⟩ | ⟨_, _, hf⟩
      · exact absurd hm (not_lt.mpr happs.2.1)
      · rw [hs] at hf
        exact Bool.noConfusion hf
    by_cases hmem : d.raft_malloc sizeof_raft_io_send = 0
    · have hnomem : out.sends = [] ∧ out.rv = RAFT_NOMEM := by
        rcases hcase with h | h
        · rw [h, recvAppendEntries_reply_nomem d _ id address _ _ hmem]
          exact ⟨rfl, rfl⟩
        · rw [h, recvAppendEntries_reply_nomem d _ id address _ _ hmem]
          exact ⟨rfl, rfl⟩
      refine ⟨?_, fun _ h => absurd hmem h, fun _ _ => hnomem, fun h => absurd hrep h,
        fun h1 h2 h3 => absurd ⟨h1, h2, h3⟩ hdeferred⟩
      rw [hnomem.1]
      exact Nat.zero_le 1
    · have hone : out.sends = [resultMessage id address
            (d.recvEnsureMatchingTerms r args.term).r.current_term rejected last_log_index] ∧
          out.rv = d.io_send (resultMessage id address
            (d.recvEnsureMatchingTerms r args.term).r.current_term rejected
            last_log_index) := by
        rcases hcase with h | h
        · rw [h, recvAppendEntries_reply_ok d _ id address _ _ hmem]
          exact ⟨rfl, rfl⟩
        · rw [h, recvAppendEntries_reply_ok d _ id address _ _ hmem, hat]
          exact ⟨rfl, rfl⟩
      refine ⟨?_, fun _ _ => ⟨rejected, last_log_index, hone⟩, fun _ h => absurd h hmem,
        fun h => absurd hrep h, fun h1 h2 h3 => absurd ⟨h1, h2, h3⟩ hdeferred⟩
      rw [hone.1]
      exact Nat.le_refl 1
  · refine ⟨?_, fun h => absurd h hnot, fun h => absurd h hnot, fun _ => hsends,
      fun h1 h2 h3 => ⟨hsends, hasync h1 h2 h3⟩⟩
    rw [hsends]
    exact Nat.zero_le 1

/-- C32, instance: the sample follower accepts a heartbeat of its own term and
answers it with one message. -/
theorem C32_recvAppendEntries_sends_witness :
    recvAppendEntries sampleDeps sampleFollower 1 "1" ⟨3, 5, 3, 2, []⟩ = some sampleAck ∧
    (sampleAck.sends.length ≤ 1 ∧
    (recvAppendEntries_replies sampleDeps sampleFollower 1 "1" ⟨3, 5, 3, 2, []⟩ →
      sampleDeps.raft_malloc sizeof_raft_io_send ≠ 0 →
      ∃ rejected last_log_index,
        sampleAck.sends = [resultMessage 1 "1"
          (sampleDeps.recvEnsureMatchingTerms sampleFollower 3).r.current_term rejected
          last_log_index] ∧
        sampleAck.rv = sampleDeps.io_send (resultMessage 1 "1"
          (sampleDeps.recvEnsureMatchingTerms sampleFollower 3).r.current_term rejected
          last_log_index)) ∧
    (recvAppendEntries_replies sampleDeps sampleFollower 1 "1" ⟨3, 5, 3, 2, []⟩ →
      sampleDeps.raft_malloc sizeof_raft_io_send = 0 →
      sampleAck.sends = [] ∧ sampleAck.rv = RAFT_NOMEM) ∧
    (¬ recvAppendEntries_replies sampleDeps sampleFollower 1 "1" ⟨3, 5, 3, 2, []⟩ →
      sampleAck.sends = []) ∧
    (recvAppendEntries_appends sampleDeps sampleFollower 1 "1" ⟨3, 5, 3, 2, []⟩ →
      (recvAppendEntries_appended sampleDeps sampleFollower 1 "1" ⟨3, 5, 3, 2, []⟩).rv = 0 →
      (recvAppendEntries_appended sampleDeps sampleFollower 1 "1" ⟨3, 5, 3, 2, []⟩).async =
        true →
      sampleAck.sends = [] ∧ sampleAck.rv = 0)) :=
  ⟨rfl, C32_recvAppendEntries_sends sampleDeps sampleFollower 1 "1" ⟨3, 5, 3, 2, []⟩ sampleAck
    sampleDeps_keeps_term rfl⟩

/-- C32, counterexample: the sample follower receives a heartbeat of its own
term; replicationAppend succeeds and does not report that the append completes
asynchronously, but the allocation of the send request fails:
recvAppendEntries sends no message and returns RAFT_NOMEM. -/
theorem C32_counterexample_no_message_on_nomem :
    (recvAppendEntries_appended { sampleDeps with raft_malloc := fun _ => 0 } sampleFollower 1
      "1" ⟨3, 5, 3, 2, []⟩).rv = 0 ∧
    (recvAppendEntries_appended { sampleDeps with raft_malloc := fun _ => 0 } sampleFollower 1
      "1" ⟨3, 5, 3, 2, []⟩).async = false ∧
    (recvAppendEntries { sampleDeps with raft_malloc := fun _ => 0 } sampleFollower 1 "1"
        ⟨3, 5, 3, 2, []⟩).map (fun out => (out.rv, out.sends)) = some (RAFT_NOMEM, []) :=
  ⟨rfl, rfl, rfl⟩

/-! ## Results that `recvAppendEntriesResult` ignores -/

/-- The sample term reconciliation meets its contract for terms that are not
stale. -/
theorem sampleDeps_step_down : EnsureMatchingTermsStepDown sampleDeps := by
  constructor
  · intro r
    simp [sampleDeps, sampleEnsure]
  · intro r t h _
    have hn : ¬ t < r.current_term := Nat.not_lt.mpr (Nat.le_of_lt h)
    simp [sampleDeps, sampleEnsure, hn, h]

/-- The term reconciliation that fails on a higher term meets the contracts
too: they only speak of the calls that succeed. -/
theorem sampleResultDepsTermFails_contracts :
    EnsureMatchingTermsSpec sampleResultDepsTermFails.toDeps ∧
    EnsureMatchingTermsStepDown sampleResultDepsTermFails.toDeps := by
  refine ⟨⟨?_, ?_⟩, ⟨?_, ?_⟩⟩
  · intro r t h
    have hn : ¬ r.current_term < t := Nat.not_lt.mpr (Nat.le_of_lt h)
    simp [sampleResultDepsTermFails, sampleEnsure, h, hn]
  · intro r t h
    simp only [sampleResultDepsTermFails]
    split_ifs with h1
    · exact Int.le_of_lt Int.one_pos
    · have := sampleDeps_ensure.fresh r t h
      exact this
  · intro r
    simp [sampleResultDepsTermFails, sampleEnsure]
  · intro r t h hrv
    simp only [sampleResultDepsTermFails, h, if_true] at hrv
    exact absurd hrv (by decide)

/-- C33 (amended): for every server, every sender with a positive id and every
result, recvAppendEntriesResult returns without calling replicationUpdate,
replicationQuorum or replicationApply in each of these cases. When the server
is not leader, when the term of the result is lower than the local term, and
when the terms are equal and the id of the sender is not in the current
configuration, it returns 0 and the whole server, hence the per-peer progress,
commit_index and last_applied, is unchanged. When the term of the result is
higher it returns what term reconciliation returns and leaves the server as
term reconciliation left it: when that is 0 the server has stepped down to
follower, with commit_index and last_applied unchanged. -/
theorem C33_recvAppendEntriesResult_ignored (d : ResultDeps) (r : raft) (id : Nat)
    (address : String) (result : raft_append_entries_result)
    (hstale : EnsureMatchingTermsSpec d.toDeps)
    (hstep : EnsureMatchingTermsStepDown d.toDeps) (hid : 0 < id) :
    (r.state ≠ RAFT_LEADER →
      recvAppendEntriesResult d r id address result = some ⟨0, r, []⟩) ∧
    (r.state = RAFT_LEADER → result.term < r.current_term →
      recvAppendEntriesResult d r id address result = some ⟨0, r, []⟩) ∧
    (r.state = RAFT_LEADER → r.current_term < result.term →
      recvAppendEntriesResult d r id address result =
        some ⟨(d.recvEnsureMatchingTerms r result.term).rv,
          (d.recvEnsureMatchingTerms r result.term).r, []⟩ ∧
      ((d.recvEnsureMatchingTerms r result.term).rv = 0 →
        (d.recvEnsureMatchingTerms r result.term).r.state = RAFT_FOLLOWER ∧
        (d.recvEnsureMatchingTerms r result.term).r.commit_index = r.commit_index ∧
        (d.recvEnsureMatchingTerms r result.term).r.last_applied = r.last_applied)) ∧
    (r.state = RAFT_LEADER → result.term = r.current_term →
      configurationGet r.configuration id = none →
      recvAppendEntriesResult d r id address result = some ⟨0, r, []⟩) := by
  have hid2 : id > 0 := hid
  refine ⟨?_, ?_, ?_, ?_⟩
  · intro hs
    simp only [recvAppendEntriesResult, hid2, not_true_eq_false, if_false, hs, ne_eq,
      not_false_eq_true, if_true]
  · intro hs hlt
    obtain ⟨h1, h2, h3⟩ := hstale.stale r result.term hlt
    simp only [recvAppendEntriesResult, hid2, not_true_eq_false, if_false, hs, ne_eq, h1, h2,
      if_true, h3]
  · intro hs hgt
    by_cases hrv : (d.recvEnsureMatchingTerms r result.term).rv = 0
    · obtain ⟨h1, h2, _, h4, h5⟩ := hstep.higher r result.term hgt hrv
      have h1n : ¬ (d.recvEnsureMatchingTerms r result.term).mtch < 0 :=
        not_lt.mpr (Int.le_of_lt h1)
      have h1p : (d.recvEnsureMatchingTerms r result.term).mtch > 0 := h1
      refine ⟨?_, fun _ => ⟨h2, h4, h5⟩⟩
      simp only [recvAppendEntriesResult, hid2, not_true_eq_false, if_false, hs, ne_eq, hrv,
        h1n, h1p, if_true, h2]
    · refine ⟨?_, fun h => absurd h hrv⟩
      simp only [recvAppendEntriesResult, hid2, not_true_eq_false, if_false, hs, ne_eq, hrv,
        not_false_eq_true, if_true]
  · intro hs heq hget
    obtain ⟨h1, h2, h3⟩ := hstep.equal r
    have h2n : ¬ (d.recvEnsureMatchingTerms r r.current_term).mtch < 0 := by
      rw [h2]
      exact Int.lt_irrefl 0
    have h2p : ¬ (d.recvEnsureMatchingTerms r r.current_term).mtch > 0 := by
      rw [h2]
      exact Int.lt_irrefl 0
    simp only [recvAppendEntriesResult, hid2, not_true_eq_false, if_false, hs, ne_eq, heq, h1,
      h2n, h2p, h3, hget]

/-- C33, instance: the sample leader (term 3) receives from server 2 a result
of term 4 and steps down; from server 7, which is not in its configuration, a
result of its own term, and from server 2 a result of term 2. -/
theorem C33_recvAppendEntriesResult_ignored_witness :
    sampleLeader.state = RAFT_LEADER ∧ sampleLeader.current_term = 3 ∧
    recvAppendEntriesResult sampleResultDeps sampleLeader 2 "2" ⟨4, 0, 5⟩ =
      some ⟨0, { sampleLeader with current_term := 4, voted_for := 0, state := RAFT_FOLLOWER },
        []⟩ ∧
    recvAppendEntriesResult sampleResultDeps sampleLeader 7 "7" ⟨3, 0, 5⟩ =
      some ⟨0, sampleLeader, []⟩ ∧
    recvAppendEntriesResult sampleResultDeps sampleLeader 2 "2" ⟨2, 0, 5⟩ =
      some ⟨0, sampleLeader, []⟩ :=
  ⟨rfl, rfl,
    ((C33_recvAppendEntriesResult_ignored sampleResultDeps sampleLeader 2 "2" ⟨4, 0, 5⟩
      sampleDeps_ensure sampleDeps_step_down (by decide)).2.2.1 rfl (by decide)).1,
    (C33_recvAppendEntriesResult_ignored sampleResultDeps sampleLeader 7 "7" ⟨3, 0, 5⟩
      sampleDeps_ensure sampleDeps_step_down (by decide)).2.2.2 rfl rfl rfl,
    rfl⟩

/-- C33, counterexample: the sample leader (term 3) receives a result of term 4
while its disk refuses to store the new term: recvAppendEntriesResult returns
the I/O error of term reconciliation, not 0. -/
theorem C33_counterexample_term_not_stored :
    sampleLeader.state = RAFT_LEADER ∧ sampleLeader.current_term = 3 ∧
    (recvAppendEntriesResult sampleResultDepsTermFails sampleLeader 2 "2" ⟨4, 0, 5⟩).map
      (fun out => (out.rv, out.calls)) = some (RAFT_IOERR, []) :=
  ⟨rfl, rfl, rfl⟩

/-! ## Copying a snapshot -/

theorem CopyEnv.read_length (env : CopyEnv) (buf : raft_buffer) :
    (env.read buf).length = buf.len := by
  simp only [CopyEnv.read, List.length_map, List.length_range]

/-- The size computed by `snapshotCopy` is the sum of the lengths when that
sum fits `size_t`. -/
theorem snapshotCopy_size_fits : ∀ (bufs : List raft_buffer) (size : Nat),
    size + (bufs.map fun b => b.len).sum < 2 ^ 64 →
    snapshotCopy_size bufs size = size + (bufs.map fun b => b.len).sum := by
  intro bufs
  induction bufs with
  | nil =>
    intro size _
    simp only [snapshotCopy_size, List.foldl_nil, List.map_nil, List.sum_nil, Nat.add_zero]
  | cons b rest ih =>
    intro size h
    simp only [List.map_cons, List.sum_cons] at h ⊢
    have hb : (size + b.len) % 2 ^ 64 = size + b.len := Nat.mod_eq_of_lt (by omega)
    have := ih (size + b.len) (by omega)
    simp only [snapshotCopy_size, List.foldl_cons, hb] at this ⊢
    rw [this]
    omega

/-- The copy loop of `snapshotCopy` writes the buffers one after the other
when the block has room for them. -/
theorem snapshotCopy_loop_ok (env : CopyEnv) : ∀ (bufs : List raft_buffer) (c : WriteCursor),
    (bufs.map fun b => b.len).sum ≤ c.ahead.length →
    snapshotCopy_loop env bufs c =
      some ⟨c.behind ++ (bufs.map env.read).flatten,
        c.ahead.drop (bufs.map fun b => b.len).sum⟩ := by
  intro bufs
  induction bufs with
  | nil =>
    intro c _
    simp only [snapshotCopy_loop, List.map_nil, List.flatten_nil, List.append_nil,
      List.sum_nil, List.drop_zero]
  | cons b rest ih =>
    intro c h
    simp only [List.map_cons, List.sum_cons] at h
    have hlen := env.read_length b
    have hstore : cursorStore c (env.read b) =
        some ⟨c.behind, env.read b ++ c.ahead.drop b.len⟩ := by
      unfold cursorStore
      rw [hlen, if_neg (by omega)]
    have hadd : cursorAdd ⟨c.behind, env.read b ++ c.ahead.drop b.len⟩ b.len =
        some ⟨c.behind ++ env.read b, c.ahead.drop b.len⟩ := by
      unfold cursorAdd
      rw [if_neg (by
        simp only [List.length_append, hlen]
        omega)]
      simp only [List.take_left' hlen, List.drop_left' hlen]
    rw [snapshotCopy_loop, hstore, Option.some_bind, hadd, Option.some_bind,
      ih ⟨c.behind ++ env.read b, c.ahead.drop b.len⟩ (by
        simp only [List.length_drop]
        omega)]
    simp only [List.map_cons, List.flatten_cons, List.append_assoc, List.sum_cons,
      List.drop_drop]

/-- C38: for every source snapshot whose buffers have a total length that fits
size_t and every destination, when the allocations succeed snapshotCopy
returns 0 and the destination has exactly one buffer, whose length is the sum
of the lengths of the source buffers and whose content is the concatenation of
the source buffers in order; the destination has the index and the term of the
source and a copy of its configuration. -/
theorem C38_snapshotCopy (env : CopyEnv) (src dst : raft_snapshot)
    (hconf : env.nomem = false) (hbufs : env.bufs ≠ 0) (hbase : env.base ≠ 0)
    (hfit : (src.bufs.map fun b => b.len).sum < 2 ^ 64) :
    ∃ out, snapshotCopy env src dst = some out ∧ out.rv = 0 ∧ out.n_bufs = 1 ∧
      out.dst.bufs = [⟨env.base, (src.bufs.map fun b => b.len).sum⟩] ∧
      out.data = some (src.bufs.map env.read).flatten ∧
      out.dst.index = src.index ∧ out.dst.term = src.term ∧
      out.dst.configuration = src.configuration := by
  have hsize := snapshotCopy_size_fits src.bufs 0 (by omega)
  rw [Nat.zero_add] at hsize
  have hloop := snapshotCopy_loop_ok env src.bufs
    ⟨[], (List.range (src.bufs.map fun b => b.len).sum).map env.heap_fill⟩
    (by simp only [List.length_map, List.length_range]; exact Nat.le_refl _)
  have hdrop : ((List.range (src.bufs.map fun b => b.len).sum).map env.heap_fill).drop
      (src.bufs.map fun b => b.len).sum = [] :=
    List.drop_eq_nil_of_le (by simp only [List.length_map, List.length_range]; exact Nat.le_refl _)
  rw [hdrop, List.nil_append] at hloop
  simp only [snapshotCopy, configurationCopy, hconf, Bool.false_eq_true, if_false, ne_eq,
    not_true_eq_false, hbufs, not_false_eq_true, hbase, hsize, hloop, Option.some_bind]
  exact ⟨_, rfl, rfl, rfl, rfl, by simp only [WriteCursor.bytes, List.append_nil], rfl, rfl,
    rfl⟩

/-- C38, instance: the sample snapshot with buffers of 3 and 2 bytes copied to
a destination that held two buffers. -/
theorem C38_snapshotCopy_witness :
    ∃ out, snapshotCopy sampleCopyEnv sampleSnapshotTwoBufs sampleSnapshotDst = some out ∧
      out.rv = 0 ∧ out.n_bufs = 1 ∧
      out.dst.bufs = [⟨sampleCopyEnv.base, (sampleSnapshotTwoBufs.bufs.map fun b => b.len).sum⟩] ∧
      out.data = some (sampleSnapshotTwoBufs.bufs.map sampleCopyEnv.read).flatten ∧
      out.dst.index = sampleSnapshotTwoBufs.index ∧ out.dst.term = sampleSnapshotTwoBufs.term ∧
      out.dst.configuration = sampleSnapshotTwoBufs.configuration :=
  C38_snapshotCopy sampleCopyEnv sampleSnapshotTwoBufs sampleSnapshotDst rfl (by decide)
    (by decide) (by decide)

/-- C39, evaluation at the failing input: the sample snapshot, whose
configuration was committed at index 7, copied to a destination that held
configuration_index = 77. snapshotCopy returns 0 with the index, the term and
the configuration of the source in the destination, whose configuration_index
is still 77. -/
theorem C39_configuration_index_not_copied :
    sampleSnapshotTwoBufs.configuration_index = 7 ∧
    sampleSnapshotDst.configuration_index = 77 ∧
    snapshotCopy sampleCopyEnv sampleSnapshotTwoBufs sampleSnapshotDst =
      some ⟨0, ⟨100, 3, ⟨[⟨1, "1", true⟩, ⟨2, "2", true⟩]⟩, 77, [⟨16384, 5⟩]⟩, 1,
        some [200, 201, 202, 49, 50]⟩ :=
  ⟨rfl, rfl, rfl⟩

/-! ## Safety of the ring logger -/

end Raft
